import Mathlib

/-!
The entryguard agent control loop: script runner and poller.

A shallow embedding of `internal/agent/executor.go`, `internal/agent/poller.go`,
`internal/agent/heartbeat.go`, `internal/agent/config.go`, of `runAgent` in
`cmd/eg-agent/main.go` and of the parts of `internal/agent/types.go` and
`internal/agent/client.go` they use, and of the profile store and the session
stop and extend commands of the CLI (`internal/config/config.go`,
`cmd/profile.go`, `cmd/root.go`, `cmd/session.go`).

Go strings are byte sequences: `len` counts bytes and `s[:n]` keeps the first
`n` bytes. They are embedded as lists of bytes. The operating system (the child
process) and the remote control plane are an explicit environment that is
threaded through the code together with the trace of effects performed so far.
A loop around a `select` is a function of the cases the `select` takes, in
order; a YAML document is the set of keys it sets. The directory that holds a
file is the one `filepath.Dir` of the Go standard library gives on a Unix
system.
-/

namespace EntryGuard

/-- A Go string: an immutable sequence of bytes. -/
abbrev GoString := List UInt8

/-- The bytes of a Go string literal (Go source text is UTF-8). -/
def goStr (s : String) : GoString := s.data.flatMap String.utf8EncodeChar

/-- The type `time.Duration`: a count of nanoseconds. -/
abbrev Duration := Int

/-! ## types.go, config.go -/

/-- The struct `Command` of types.go. -/
structure Command where
  ID : GoString
  CommandType : GoString
  CIDR : GoString
  Description : GoString
  ResourceIdentifier : GoString
  ResourceType : GoString
deriving DecidableEq, Repr

/-- The struct `CommandResultRequest` of types.go. `ResultMessage` and `ProviderRuleID` are
`omitempty`: the empty string is the absent field. -/
structure CommandResultRequest where
  Success : Bool
  ResultMessage : GoString := []
  ProviderRuleID : GoString := []
deriving DecidableEq, Repr

/-- The struct `ExecutionResult` of types.go. -/
structure ExecutionResult where
  Success : Bool
  Output : GoString
  Duration : Duration
deriving DecidableEq, Repr

/-- The struct `AgentResponse` of types.go; a `*string` field is an option. -/
structure AgentResponse where
  ID : GoString
  Name : GoString
  Status : GoString
  AgentVersion : Option GoString
  Hostname : Option GoString
  OsInfo : Option GoString
  LastHeartbeatAt : Option GoString
  CreatedAt : GoString
deriving DecidableEq, Repr

/-- The struct `RegisterRequest` of types.go. -/
structure RegisterRequest where
  Name : GoString
  AgentVersion : GoString
  Hostname : GoString
  OsInfo : GoString
deriving DecidableEq, Repr

/-- The struct `HeartbeatRequest` of types.go. -/
structure HeartbeatRequest where
  AgentVersion : GoString
  Hostname : GoString
  OsInfo : GoString
deriving DecidableEq, Repr

/-- The struct `ScriptsConfig` of config.go. -/
structure ScriptsConfig where
  Apply : GoString
  Revoke : GoString
deriving DecidableEq, Repr

/-! ## The environment -/

/-- The values `ctx.Err()` can take. -/
inductive CtxError where
  | Canceled
  | DeadlineExceeded
deriving DecidableEq, Repr

/-- What one `cmd.Run()` under the deadline context leaves behind: the two
capture buffers, the error returned by `Run` (its `Error()` text, `none` for
`nil`), the value of `ctx.Err()` read afterwards and the elapsed wall time. -/
structure RunOutcome where
  stdout : GoString
  stderr : GoString
  err : Option GoString
  ctxErr : Option CtxError
  elapsed : Duration
deriving DecidableEq, Repr

/-- The collaborators of the agent over an abstract world state `σ`:
the child process (`exec.CommandContext(ctx, shell, script, cidr, description)`
followed by `Run`), the two client calls the poller makes, and the rendering of
a `time.Duration` by `%s`. -/
structure Env (σ : Type) where
  run : σ → GoString → GoString → GoString → GoString → Duration → RunOutcome × σ
  PollCommands : σ → Except GoString (List Command) × σ
  ReportResult : σ → GoString → CommandResultRequest → Option GoString × σ
  durationString : Duration → GoString

/-- The arguments of the `log.Printf` calls of poller.go, one constructor per
call site, and of those of heartbeat.go and of `runAgent`. -/
inductive LogEntry where
  | pollFailed (err : GoString)
  | unknownCommandType (commandType id : GoString)
  | noScriptConfigured (commandType id : GoString)
  | executing (commandType cidr resource id : GoString)
  | result (commandType : GoString) (success : Bool) (duration : Duration) (id : GoString)
  | output (output : GoString)
  | reportFailed (id err : GoString)
  | pollerStarting (interval : Duration)
  | pollerStopped
  | heartbeatFailed (err : GoString)
  | agentStarting (version name : GoString)
  | registered (name id status : GoString)
deriving DecidableEq, Repr

/-- The goroutines `runAgent` starts: the loop of the heartbeater (with its
interval and version) and the signal handler that calls `Poller.Stop`. -/
inductive Goroutine where
  | heartbeater (interval : Duration) (version : GoString)
  | signalHandler
deriving DecidableEq, Repr

/-- The observable effects of the agent, in the order they happen: child
processes, the four client calls, log lines, goroutines started by `runAgent`
and its deferred `hb.Stop()`. -/
inductive Event where
  | spawn (shell scriptPath cidr description : GoString)
  | poll
  | report (commandID : GoString) (req : CommandResultRequest)
  | log (entry : LogEntry)
  | register (req : RegisterRequest)
  | heartbeat (req : HeartbeatRequest)
  | go (g : Goroutine)
  | stopHeartbeater
deriving DecidableEq, Repr

/-- The world together with the effects performed so far. -/
structure St (σ : Type) where
  world : σ
  trace : List Event

/-! ## executor.go -/

/-- The struct `Executor` of executor.go. -/
structure Executor where
  shell : GoString
  timeout : Duration
deriving DecidableEq, Repr

/-- The cap of executor.go line 49. -/
def outputCap : Nat := 4096

/-- The marker appended at executor.go line 50. -/
def truncationMarker : GoString := goStr "\n... (truncated)"

/-- Lines 40-46 of `Execute`: stdout, then stderr when it is non-empty,
separated by a newline when the text so far is non-empty. -/
def combineOutput (stdout stderr : GoString) : GoString :=
  let output := stdout
  if stderr.length > 0 then
    let output := if output ≠ [] then output ++ goStr "\n" else output
    output ++ stderr
  else
    output

/-- Lines 48-51 of `Execute`: `output[:4096] + "\n... (truncated)"` when
`len(output) > 4096`. -/
def capOutput (output : GoString) : GoString :=
  if output.length > outputCap then output.take outputCap ++ truncationMarker else output

/-- Lines 53-73 of `Execute`: the classification of the run. -/
def classify (durationString : Duration → GoString) (timeout : Duration)
    (o : RunOutcome) (output : GoString) : ExecutionResult :=
  if o.ctxErr = some CtxError.DeadlineExceeded then
    { Success := false
      Output := goStr "Script timed out after " ++ durationString timeout ++ goStr "\n" ++ output
      Duration := o.elapsed }
  else
    match o.err with
    | some err =>
      { Success := false
        Output := goStr "Script failed: " ++ err ++ goStr "\n" ++ output
        Duration := o.elapsed }
    | none =>
      { Success := true
        Output := output
        Duration := o.elapsed }

/-- The method `Executor.Execute`: one child process, then the result built from what it
left behind. -/
def Execute {σ : Type} (env : Env σ) (e : Executor) (scriptPath cidr description : GoString)
    (s : St σ) : ExecutionResult × St σ :=
  let (o, w) := env.run s.world e.shell scriptPath cidr description e.timeout
  let output := capOutput (combineOutput o.stdout o.stderr)
  (classify env.durationString e.timeout o output,
   { world := w, trace := s.trace ++ [Event.spawn e.shell scriptPath cidr description] })

/-! ## client.go, as the poller sees it -/

/-- The call `log.Printf`: one more log entry. -/
def logPrintf {σ : Type} (entry : LogEntry) (s : St σ) : St σ :=
  { s with trace := s.trace ++ [Event.log entry] }

/-- The method `Client.PollCommands`: one request to the command source; the batch, or the
error of `doJSON`. -/
def PollCommands {σ : Type} (env : Env σ) (s : St σ) : Except GoString (List Command) × St σ :=
  let (r, w) := env.PollCommands s.world
  (r, { world := w, trace := s.trace ++ [Event.poll] })

/-- The method `Client.ReportResult`: one request to the command sink for `commandID`;
the error of `doJSON`, `none` for `nil`. -/
def ReportResult {σ : Type} (env : Env σ) (commandID : GoString) (req : CommandResultRequest)
    (s : St σ) : Option GoString × St σ :=
  let (err, w) := env.ReportResult s.world commandID req
  (err, { world := w, trace := s.trace ++ [Event.report commandID req] })

/-! ## poller.go -/

/-- The struct `Poller` of poller.go (the client is the environment; the stop channel
belongs to `Run`). -/
structure Poller where
  executor : Executor
  scripts : ScriptsConfig
  interval : Duration
deriving DecidableEq, Repr

/-- Lines 97-103 of `processCommand`: the report built from an execution
result; the rule identifier is set only on success. -/
def buildReport (cmd : Command) (result : ExecutionResult) : CommandResultRequest :=
  let reportReq : CommandResultRequest :=
    { Success := result.Success
      ResultMessage := result.Output }
  if result.Success then { reportReq with ProviderRuleID := goStr "agent-" ++ cmd.ID }
  else reportReq

/-- The method `Poller.processCommand`. The `switch` either picks a script path or takes
the `default` branch, which reports and returns. -/
def processCommand {σ : Type} (env : Env σ) (p : Poller) (cmd : Command) (s : St σ) : St σ :=
  let switch : Option GoString :=
    if cmd.CommandType = goStr "APPLY" then some p.scripts.Apply
    else if cmd.CommandType = goStr "REVOKE" then some p.scripts.Revoke
    else none
  match switch with
  | none =>
    let s := logPrintf (LogEntry.unknownCommandType cmd.CommandType cmd.ID) s
    (ReportResult env cmd.ID
      { Success := false
        ResultMessage := goStr "Unknown command type: " ++ cmd.CommandType } s).2
  | some scriptPath =>
    if scriptPath = goStr "" then
      let s := logPrintf (LogEntry.noScriptConfigured cmd.CommandType cmd.ID) s
      (ReportResult env cmd.ID
        { Success := false
          ResultMessage := goStr "No script configured for " ++ cmd.CommandType } s).2
    else
      let s := logPrintf
        (LogEntry.executing cmd.CommandType cmd.CIDR cmd.ResourceIdentifier cmd.ID) s
      let (result, s) := Execute env p.executor scriptPath cmd.CIDR cmd.Description s
      let s := logPrintf
        (LogEntry.result cmd.CommandType result.Success result.Duration cmd.ID) s
      let s := if result.Output ≠ goStr "" then logPrintf (LogEntry.output result.Output) s else s
      let reportReq := buildReport cmd result
      let (err, s) := ReportResult env cmd.ID reportReq s
      match err with
      | some err => logPrintf (LogEntry.reportFailed cmd.ID err) s
      | none => s

/-- The method `Poller.poll`: fetch one batch, then `processCommand` on each command of
it in a `for ... range` loop. -/
def poll {σ : Type} (env : Env σ) (p : Poller) (s : St σ) : St σ :=
  let (r, s) := PollCommands env s
  match r with
  | Except.error err => logPrintf (LogEntry.pollFailed err) s
  | Except.ok commands => commands.foldl (fun s cmd => processCommand env p cmd s) s

/-! ## The loops of poller.go and heartbeat.go -/

/-- The case taken by a `select` over `ticker.C` and the stop channel. -/
inductive SelectCase where
  | tick
  | stop
deriving DecidableEq, Repr

/-- How far a loop function has come on the select cases given to it:
`panicked` when `time.NewTicker` panicked (it does on an interval that is not
positive), `waiting` when the function is blocked in its `select`, `returned`
when it has returned. -/
inductive LoopStatus where
  | panicked
  | waiting
  | returned
deriving DecidableEq, Repr

/-- The outcome of a loop function: its status, the select cases it has
observed, in order, and the state it has reached. -/
structure LoopResult (σ : Type) where
  status : LoopStatus
  observed : List SelectCase
  st : St σ

/-- The `for { select { ... } }` of `Poller.Run` on the cases its `select`
takes, in order: a tick polls, the stop case logs and returns. When the cases
are used up the loop is blocked in the `select`. -/
def runLoop {σ : Type} (env : Env σ) (p : Poller) : List SelectCase → St σ → LoopResult σ
  | [], s => { status := LoopStatus.waiting, observed := [], st := s }
  | SelectCase.tick :: rest, s =>
    let r := runLoop env p rest (poll env p s)
    { r with observed := SelectCase.tick :: r.observed }
  | SelectCase.stop :: _, s =>
    { status := LoopStatus.returned, observed := [SelectCase.stop],
      st := logPrintf LogEntry.pollerStopped s }

/-- The method `Poller.Run`: the start log line, the ticker, one poll, then the
loop. -/
def Run {σ : Type} (env : Env σ) (p : Poller) (cases : List SelectCase) (s : St σ) :
    LoopResult σ :=
  let s := logPrintf (LogEntry.pollerStarting p.interval) s
  if p.interval ≤ 0 then
    { status := LoopStatus.panicked, observed := [], st := s }
  else
    runLoop env p cases (poll env p s)

/-- The collaborators of the whole agent: those of the poller, the two other
client calls, `os.Hostname` (its error is dropped by every caller) and the two
constants of package runtime. -/
structure AgentEnv (σ : Type) extends Env σ where
  Register : σ → RegisterRequest → Except GoString AgentResponse × σ
  Heartbeat : σ → HeartbeatRequest → Except GoString AgentResponse × σ
  Hostname : σ → GoString
  GOOS : GoString
  GOARCH : GoString

/-- The method `Client.Register`: one request; the response, or the error of
`doJSON`. -/
def Register {σ : Type} (env : AgentEnv σ) (req : RegisterRequest) (s : St σ) :
    Except GoString AgentResponse × St σ :=
  let (r, w) := env.Register s.world req
  (r, { world := w, trace := s.trace ++ [Event.register req] })

/-- The method `Client.Heartbeat`: one request; the response, or the error of
`doJSON`. -/
def Heartbeat {σ : Type} (env : AgentEnv σ) (req : HeartbeatRequest) (s : St σ) :
    Except GoString AgentResponse × St σ :=
  let (r, w) := env.Heartbeat s.world req
  (r, { world := w, trace := s.trace ++ [Event.heartbeat req] })

/-- The struct `Heartbeater` of heartbeat.go (the client is the environment;
the stop channel belongs to `run`). -/
structure Heartbeater where
  interval : Duration
  version : GoString
deriving DecidableEq, Repr

/-- The method `Heartbeater.sendHeartbeat`: one heartbeat; a failure is
logged. -/
def Heartbeater.sendHeartbeat {σ : Type} (env : AgentEnv σ) (h : Heartbeater) (s : St σ) :
    St σ :=
  let hostname := env.Hostname s.world
  let req : HeartbeatRequest :=
    { AgentVersion := h.version
      Hostname := hostname
      OsInfo := env.GOOS ++ goStr "/" ++ env.GOARCH }
  let (r, s) := Heartbeat env req s
  match r with
  | Except.error err => logPrintf (LogEntry.heartbeatFailed err) s
  | Except.ok _ => s

/-- The `for { select { ... } }` of `Heartbeater.run` on the cases its
`select` takes, in order: a tick sends a heartbeat, the stop case returns. -/
def Heartbeater.loop {σ : Type} (env : AgentEnv σ) (h : Heartbeater) :
    List SelectCase → St σ → LoopResult σ
  | [], s => { status := LoopStatus.waiting, observed := [], st := s }
  | SelectCase.tick :: rest, s =>
    let r := Heartbeater.loop env h rest (Heartbeater.sendHeartbeat env h s)
    { r with observed := SelectCase.tick :: r.observed }
  | SelectCase.stop :: _, s =>
    { status := LoopStatus.returned, observed := [SelectCase.stop], st := s }

/-- The method `Heartbeater.run`: the ticker, then the loop. -/
def Heartbeater.run {σ : Type} (env : AgentEnv σ) (h : Heartbeater) (cases : List SelectCase)
    (s : St σ) : LoopResult σ :=
  if h.interval ≤ 0 then
    { status := LoopStatus.panicked, observed := [], st := s }
  else
    Heartbeater.loop env h cases s

/-! ## Run and Stop as concurrent activities -/

/-- Where the goroutine of `Poller.Run` stands: about to call `p.poll()` (at
startup or after a tick), inside the `for ... range` loop of `poll` with the
commands still to process, evaluating the `select`, blocked in the `select`
because no case was ready, or returned. -/
inductive Phase where
  | polling
  | dispatching (rest : List Command)
  | selecting
  | parked
  | stopped
deriving DecidableEq, Repr

/-- The goroutine of `Run` together with its two channels: whether `p.stopCh`
is closed and whether `ticker.C` holds a tick. -/
structure RunState (σ : Type) where
  phase : Phase
  stopClosed : Bool
  tickReady : Bool
  st : St σ

/-- The steps of the system: another goroutine calls `p.Stop()`, the ticker
delivers a tick, `poll` calls `PollCommands`, the `for ... range` loop of
`poll` takes its next turn (or ends), the `select` receives from `ticker.C`,
the `select` receives from `p.stopCh`, the `select` blocks. -/
inductive Action where
  | stopCall
  | tickFires
  | pollCommands
  | next
  | recvTick
  | recvStop
  | park
deriving DecidableEq, Repr

/-- One step, when it is enabled. `Stop` closes the channel (closing it twice
panics, in the caller); a goroutine blocked in the `select` is woken by the
close with the stop case and by a tick with the tick case; the body of `poll`
never reads the channels. -/
def step {σ : Type} (env : Env σ) (p : Poller) (r : RunState σ) : Action → Option (RunState σ)
  | Action.stopCall =>
    if r.stopClosed then none
    else
      match r.phase with
      | Phase.parked =>
        some { r with phase := Phase.stopped, stopClosed := true
                      st := logPrintf LogEntry.pollerStopped r.st }
      | _ => some { r with stopClosed := true }
  | Action.tickFires =>
    match r.phase with
    | Phase.stopped => none
    | Phase.parked => some { r with phase := Phase.polling }
    | _ => some { r with tickReady := true }
  | Action.pollCommands =>
    match r.phase with
    | Phase.polling =>
      match PollCommands env r.st with
      | (Except.error err, s) =>
        some { r with phase := Phase.selecting, st := logPrintf (LogEntry.pollFailed err) s }
      | (Except.ok commands, s) => some { r with phase := Phase.dispatching commands, st := s }
    | _ => none
  | Action.next =>
    match r.phase with
    | Phase.dispatching (cmd :: rest) =>
      some { r with phase := Phase.dispatching rest, st := processCommand env p cmd r.st }
    | Phase.dispatching [] => some { r with phase := Phase.selecting }
    | _ => none
  | Action.recvTick =>
    match r.phase with
    | Phase.selecting =>
      if r.tickReady then some { r with phase := Phase.polling, tickReady := false } else none
    | _ => none
  | Action.recvStop =>
    match r.phase with
    | Phase.selecting =>
      if r.stopClosed then
        some { r with phase := Phase.stopped, st := logPrintf LogEntry.pollerStopped r.st }
      else none
    | _ => none
  | Action.park =>
    match r.phase with
    | Phase.selecting =>
      if r.tickReady || r.stopClosed then none else some { r with phase := Phase.parked }
    | _ => none

/-- A sequence of steps; `none` when one of them is not enabled. -/
def exec {σ : Type} (env : Env σ) (p : Poller) : RunState σ → List Action → Option (RunState σ)
  | r, [] => some r
  | r, a :: rest =>
    match step env p r a with
    | none => none
    | some r1 => exec env p r1 rest

/-! ## client.go: the outcome of doJSON -/

/-- What the HTTP exchange of one `doJSON` call comes to: `http.NewRequest`
fails, `httpClient.Do` fails, `io.ReadAll` fails, or a response with a status
code and a body has been read. -/
inductive Exchange where
  | requestError (err : GoString)
  | transportError (err : GoString)
  | readError (err : GoString)
  | response (status : Int) (body : GoString)
deriving DecidableEq, Repr

/-- The method `Client.doJSON` for a call without a request body and with a
result to fill (lines 66-98): the error it returns, or the result, which is
left as it was when the body is empty. `itoa` renders the status code for
`%d`; `unmarshal` is `json.Unmarshal` into the result. -/
def Client.doJSON {α : Type} (itoa : Int → GoString) (unmarshal : GoString → Except GoString α)
    (x : Exchange) (result : α) : Except GoString α :=
  match x with
  | Exchange.requestError err => Except.error (goStr "failed to create request: " ++ err)
  | Exchange.transportError err => Except.error (goStr "request failed: " ++ err)
  | Exchange.readError err => Except.error (goStr "failed to read response: " ++ err)
  | Exchange.response status body =>
    if status < 200 ∨ status ≥ 300 then
      Except.error (goStr "API error (HTTP " ++ itoa status ++ goStr "): " ++ body)
    else if body.length > 0 then
      match unmarshal body with
      | Except.error err => Except.error (goStr "failed to parse response: " ++ err)
      | Except.ok v => Except.ok v
    else
      Except.ok result

/-- The method `Client.PollCommands` on the outcome of its exchange: the error
of `doJSON`, or the commands decoded (none when the body is empty). -/
def Client.PollCommands (itoa : Int → GoString)
    (unmarshal : GoString → Except GoString (List Command)) (x : Exchange) :
    Except GoString (List Command) :=
  Client.doJSON itoa unmarshal x []

/-- The environment of a poller whose command source is the HTTP client: the
exchange of each poll is given by `exchange`. -/
def withHTTPSource {σ : Type} (env : Env σ) (itoa : Int → GoString)
    (unmarshal : GoString → Except GoString (List Command)) (exchange : σ → Exchange × σ) :
    Env σ :=
  { env with
    PollCommands := fun w =>
      let (x, w) := exchange w
      (Client.PollCommands itoa unmarshal x, w) }

/-! ## config.go -/

/-- The struct `ServerConfig` of config.go. -/
structure ServerConfig where
  URL : GoString
  APIKey : GoString
deriving DecidableEq, Repr

/-- The struct `AgentConfig` of config.go. -/
structure AgentConfig where
  Name : GoString
  PollInterval : Duration
  HeartbeatInterval : Duration
deriving DecidableEq, Repr

/-- The struct `ExecutionConfig` of config.go. -/
structure ExecutionConfig where
  Timeout : Duration
  Shell : GoString
deriving DecidableEq, Repr

/-- The struct `Config` of config.go. -/
structure Config where
  Server : ServerConfig
  Agent : AgentConfig
  Scripts : ScriptsConfig
  Execution : ExecutionConfig
deriving DecidableEq, Repr

/-- What a YAML document says about the keys of `Config`: `some v` for a key
the document sets to `v`, `none` for a key it leaves out. -/
structure Document where
  url : Option GoString
  api_key : Option GoString
  name : Option GoString
  poll_interval : Option Duration
  heartbeat_interval : Option Duration
  apply : Option GoString
  revoke : Option GoString
  timeout : Option Duration
  shell : Option GoString
deriving DecidableEq, Repr

/-- The bytes of a file, as far as `yaml.Unmarshal` into a `Config` is
concerned: they do not decode, with the error of the decoder, or they are a
document. -/
inductive FileData where
  | malformed (err : GoString)
  | yaml (d : Document)
deriving DecidableEq, Repr

/-- The call `yaml.Unmarshal(data, cfg)`: the keys the document sets overwrite
the fields of `cfg`, the fields of the other keys keep the value they had. -/
def yamlUnmarshal (data : FileData) (cfg : Config) : Except GoString Config :=
  match data with
  | FileData.malformed err => Except.error err
  | FileData.yaml d =>
    Except.ok
      { Server :=
          { URL := d.url.getD cfg.Server.URL
            APIKey := d.api_key.getD cfg.Server.APIKey }
        Agent :=
          { Name := d.name.getD cfg.Agent.Name
            PollInterval := d.poll_interval.getD cfg.Agent.PollInterval
            HeartbeatInterval := d.heartbeat_interval.getD cfg.Agent.HeartbeatInterval }
        Scripts :=
          { Apply := d.apply.getD cfg.Scripts.Apply
            Revoke := d.revoke.getD cfg.Scripts.Revoke }
        Execution :=
          { Timeout := d.timeout.getD cfg.Execution.Timeout
            Shell := d.shell.getD cfg.Execution.Shell } }

/-- The call `yaml.Marshal(cfg)`: no field of `Config` is tagged `omitempty`,
so the document sets every key, to the value of its field, zero values
included (a zero duration is written as `0s`, an empty string as `""`). -/
def yamlMarshal (cfg : Config) : FileData :=
  FileData.yaml
    { url := some cfg.Server.URL
      api_key := some cfg.Server.APIKey
      name := some cfg.Agent.Name
      poll_interval := some cfg.Agent.PollInterval
      heartbeat_interval := some cfg.Agent.HeartbeatInterval
      apply := some cfg.Scripts.Apply
      revoke := some cfg.Scripts.Revoke
      timeout := some cfg.Execution.Timeout
      shell := some cfg.Execution.Shell }

/-- The constant `time.Second`, in nanoseconds. -/
def Second : Duration := 1000000000

/-- The function `LoadConfig`; `readFile` is `os.ReadFile`. -/
def LoadConfig (readFile : GoString → Except GoString FileData) (path : GoString) :
    Except GoString Config :=
  match readFile path with
  | Except.error err =>
    Except.error (goStr "failed to read config file " ++ path ++ goStr ": " ++ err)
  | Except.ok data =>
    let cfg : Config :=
      { Server := { URL := goStr "", APIKey := goStr "" }
        Agent :=
          { Name := goStr ""
            PollInterval := 3 * Second
            HeartbeatInterval := 30 * Second }
        Scripts := { Apply := goStr "", Revoke := goStr "" }
        Execution :=
          { Timeout := 30 * Second
            Shell := goStr "/bin/bash" } }
    match yamlUnmarshal data cfg with
    | Except.error err => Except.error (goStr "failed to parse config file: " ++ err)
    | Except.ok cfg =>
      if cfg.Server.URL = goStr "" then Except.error (goStr "server.url is required")
      else if cfg.Server.APIKey = goStr "" then Except.error (goStr "server.api_key is required")
      else if cfg.Agent.Name = goStr "" then Except.error (goStr "agent.name is required")
      else Except.ok cfg

/-- How a call of `WriteConfig` ends: a run-time panic (slice bounds out of
range), an error returned, or `nil` after the directory `dir` was created and
`data` was written at `path`. -/
inductive WriteOutcome where
  | panicked
  | failed (err : GoString)
  | written (dir path : GoString) (data : FileData)
deriving DecidableEq, Repr

/-- The function `WriteConfig`; `mkdirAll` is `os.MkdirAll` and `writeFile` is
`os.WriteFile`, each giving its error (`none` for `nil`). Marshalling a
`Config` does not fail. The directory is `path[:len(path)-len("/config.yml")]`,
which panics when the bound is negative. -/
def WriteConfig (mkdirAll : GoString → Option GoString)
    (writeFile : GoString → FileData → Option GoString) (path : GoString) (cfg : Config) :
    WriteOutcome :=
  let data := yamlMarshal cfg
  if path.length < (goStr "/config.yml").length then WriteOutcome.panicked
  else
    let dir := path.take (path.length - (goStr "/config.yml").length)
    match mkdirAll dir with
    | some err => WriteOutcome.failed (goStr "failed to create config directory: " ++ err)
    | none =>
      match writeFile path data with
      | some err => WriteOutcome.failed (goStr "failed to write config file: " ++ err)
      | none => WriteOutcome.written dir path data

/-- The `Config` that `runInit` hands to `WriteConfig` (main.go lines 122-134):
the five answers of the operator; the intervals, the timeout and the shell are
left at their zero values. -/
def initConfig (serverURL apiKey agentName applyScript revokeScript : GoString) : Config :=
  { Server := { URL := serverURL, APIKey := apiKey }
    Agent := { Name := agentName, PollInterval := 0, HeartbeatInterval := 0 }
    Scripts := { Apply := applyScript, Revoke := revokeScript }
    Execution := { Timeout := 0, Shell := goStr "" } }

/-! ## main.go of eg-agent: runAgent -/

/-- How `runAgent` stands: it has returned an error, it has returned `nil`,
the process has died of a panic in `time.NewTicker` (in the goroutine of the
heartbeater or in `poller.Run`), or it is still in `poller.Run`. -/
inductive AgentResult where
  | error (err : GoString)
  | ok
  | panicked
  | running
deriving DecidableEq, Repr

/-- What happens next in an agent whose two loops are running: the `select`
of `Heartbeater.run` takes its ticker, or the `select` of `Poller.Run` takes
the case `c`. The stop channel of the heartbeater is closed by the deferred
`hb.Stop()` only, so its `select` takes nothing but ticks while `runAgent`
runs. -/
inductive AgentCase where
  | heartbeat
  | poller (c : SelectCase)
deriving DecidableEq, Repr

/-- The loop of `Heartbeater.run` (in its goroutine) and the loop of
`Poller.Run` (in the goroutine of `runAgent`) side by side, on the cases their
two `select`s take, in order: a tick of the heartbeater sends a heartbeat, a
tick of the poller polls, the stop case of the poller logs and makes `Run`
return. A heartbeat is placed between two rounds of the poller. The cases
recorded are those of the poller. -/
def agentLoop {σ : Type} (env : AgentEnv σ) (hb : Heartbeater) (p : Poller) :
    List AgentCase → St σ → LoopResult σ
  | [], s => { status := LoopStatus.waiting, observed := [], st := s }
  | AgentCase.heartbeat :: rest, s =>
    agentLoop env hb p rest (Heartbeater.sendHeartbeat env hb s)
  | AgentCase.poller SelectCase.tick :: rest, s =>
    let r := agentLoop env hb p rest (poll env.toEnv p s)
    { r with observed := SelectCase.tick :: r.observed }
  | AgentCase.poller SelectCase.stop :: _, s =>
    { status := LoopStatus.returned, observed := [SelectCase.stop],
      st := logPrintf LogEntry.pollerStopped s }

/-- The outcome of `runAgent`: how it stands, the cases the `select` of
`poller.Run` has observed, in order, and the state reached. -/
structure AgentRun (σ : Type) where
  result : AgentResult
  observed : List SelectCase
  st : St σ

/-- The function `runAgent`: load the configuration, register, start the
heartbeater in its goroutine, start the signal handler in its goroutine, then
`poller.Run()`; `hb.Stop()` is deferred.

The goroutine of the heartbeater is `Heartbeater.run`: it is run up to its
first `select`, where `time.NewTicker` has panicked on an interval that is not
positive. A panic in a goroutine ends the whole process, whatever the other
goroutines are doing, and runs no deferred call of `runAgent`; the process is
taken to die at once, and what `runAgent` may still do before it dies is not
recorded. Likewise `poller.Run()` is run up to its first `select`; its panic
unwinds `runAgent` and so runs the deferred `hb.Stop()`. From there on the two
loops go side by side, on the cases `sched` their `select`s take. -/
def runAgent {σ : Type} (env : AgentEnv σ) (readFile : GoString → Except GoString FileData)
    (version configPath : GoString) (sched : List AgentCase) (s : St σ) : AgentRun σ :=
  match LoadConfig readFile configPath with
  | Except.error err => { result := AgentResult.error err, observed := [], st := s }
  | Except.ok cfg =>
    let s := logPrintf (LogEntry.agentStarting version cfg.Agent.Name) s
    let hostname := env.Hostname s.world
    let (r, s) := Register env
      { Name := cfg.Agent.Name
        AgentVersion := version
        Hostname := hostname
        OsInfo := env.GOOS ++ goStr "/" ++ env.GOARCH } s
    match r with
    | Except.error err =>
      { result := AgentResult.error (goStr "failed to register: " ++ err), observed := [], st := s }
    | Except.ok resp =>
      let s := logPrintf (LogEntry.registered resp.Name resp.ID resp.Status) s
      let hb : Heartbeater := { interval := cfg.Agent.HeartbeatInterval, version := version }
      let s := { s with trace := s.trace ++ [Event.go (Goroutine.heartbeater hb.interval hb.version)] }
      match (Heartbeater.run env hb [] s).status with
      | LoopStatus.panicked => { result := AgentResult.panicked, observed := [], st := s }
      | _ =>
        let executor : Executor := { shell := cfg.Execution.Shell, timeout := cfg.Execution.Timeout }
        let poller : Poller :=
          { executor := executor, scripts := cfg.Scripts, interval := cfg.Agent.PollInterval }
        let s := { s with trace := s.trace ++ [Event.go Goroutine.signalHandler] }
        let start := Run env.toEnv poller [] s
        match start.status with
        | LoopStatus.panicked =>
          { result := AgentResult.panicked, observed := []
            st := { start.st with trace := start.st.trace ++ [Event.stopHeartbeater] } }
        | _ =>
          let run := agentLoop env hb poller sched start.st
          match run.status with
          | LoopStatus.returned =>
            { result := AgentResult.ok, observed := run.observed
              st := { run.st with trace := run.st.trace ++ [Event.stopHeartbeater] } }
          | _ => { result := AgentResult.running, observed := run.observed, st := run.st }

/-- The goroutines started in a trace, in order. -/
def goroutines : List Event → List Goroutine
  | [] => []
  | Event.go g :: t => g :: goroutines t
  | _ :: t => goroutines t

/-! ## internal/config/config.go and cmd/profile.go: profiles of the CLI -/

/-- The struct `Profile` of internal/config/config.go. -/
structure Profile where
  APIKey : GoString
  APIURL : GoString
deriving DecidableEq, Repr

/-- A Go `map[string]Profile`: its entries, with distinct keys, in no
particular order. -/
abbrev ProfileMap := List (GoString × Profile)

/-- The keys of a map. -/
def ProfileMap.keys (m : ProfileMap) : List GoString := m.map Prod.fst

/-- The map index expression `m[name]` with its `ok` flag. -/
def ProfileMap.get (m : ProfileMap) (name : GoString) : Option Profile :=
  (m.find? (fun e => e.1 = name)).map Prod.snd

/-- The statement `delete(m, name)`. -/
def ProfileMap.delete (m : ProfileMap) (name : GoString) : ProfileMap :=
  m.filter (fun e => e.1 ≠ name)

/-- The assignment `m[name] = profile`. -/
def ProfileMap.set (m : ProfileMap) (name : GoString) (profile : Profile) : ProfileMap :=
  (name, profile) :: m.delete name

/-- The struct `Config` of internal/config/config.go. -/
structure config.Config where
  DefaultProfile : GoString
  Profiles : ProfileMap
deriving DecidableEq, Repr

/-- What `Load` finds: no home directory, no file, a file that cannot be read,
a file that `toml.Unmarshal` rejects, or a file that it decodes. -/
inductive ConfigFile where
  | noHome (err : GoString)
  | notExist
  | unreadable (err : GoString)
  | malformed (err : GoString)
  | decoded (cfg : config.Config)
deriving DecidableEq, Repr

/-- The function `Load` of internal/config/config.go; a missing file gives the
empty configuration, and a nil map is replaced by an empty one. -/
def Load (file : ConfigFile) : Except GoString config.Config :=
  match file with
  | ConfigFile.noHome err => Except.error (goStr "cannot determine home directory: " ++ err)
  | ConfigFile.notExist => Except.ok { DefaultProfile := goStr "", Profiles := [] }
  | ConfigFile.unreadable err => Except.error (goStr "failed to read config: " ++ err)
  | ConfigFile.malformed err => Except.error (goStr "failed to parse config: " ++ err)
  | ConfigFile.decoded cfg => Except.ok cfg

/-- The function `AddProfile`. The map it assigns to is never nil: `Load`
makes one. -/
def AddProfile (cfg : config.Config) (name : GoString) (profile : Profile) : config.Config :=
  let cfg := { cfg with Profiles := cfg.Profiles.set name profile }
  if cfg.Profiles.length = 1 then { cfg with DefaultProfile := name } else cfg

/-- The function `RemoveProfile`: the error it returns (`none` for `nil`) and
the configuration it leaves. `quote` renders a string for `%q`. The `range`
over the map stops at its first key, and the order of a Go map is not fixed:
`pick` tells which of the remaining keys comes first. -/
def RemoveProfile (quote : GoString → GoString) (pick : Nat) (cfg : config.Config)
    (name : GoString) : Option GoString × config.Config :=
  match cfg.Profiles.get name with
  | none => (some (goStr "profile " ++ quote name ++ goStr " not found"), cfg)
  | some _ =>
    let cfg := { cfg with Profiles := cfg.Profiles.delete name }
    if cfg.DefaultProfile = name then
      let cfg := { cfg with DefaultProfile := goStr "" }
      match cfg.Profiles.keys with
      | [] => (none, cfg)
      | k :: ks => (none, { cfg with DefaultProfile := (k :: ks).getD (pick % (k :: ks).length) k })
    else (none, cfg)

/-- The body of `profileUseCmd` on the configuration loaded (profile.go lines
139-149): the error it returns (`none` for `nil`) and the configuration it
leaves in memory, which is the one handed to `Save` when the name exists.
`save` is `config.Save`, giving its error. -/
def profileUseCmd (quote : GoString → GoString) (save : config.Config → Option GoString)
    (cfg : config.Config) (name : GoString) : Option GoString × config.Config :=
  match cfg.Profiles.get name with
  | none => (some (goStr "profile " ++ quote name ++ goStr " not found"), cfg)
  | some _ =>
    let cfg := { cfg with DefaultProfile := name }
    match save cfg with
    | some err => (some (goStr "failed to save config: " ++ err), cfg)
    | none => (none, cfg)

/-- One profile operation: `AddProfile`, `RemoveProfile` (with the key its
`range` meets first), or `profile use`. -/
inductive ProfileOp where
  | add (name : GoString) (profile : Profile)
  | remove (name : GoString) (pick : Nat)
  | use (name : GoString)
deriving DecidableEq, Repr

/-- The configuration a profile operation leaves. -/
def ProfileOp.apply (quote : GoString → GoString) (save : config.Config → Option GoString)
    (cfg : config.Config) : ProfileOp → config.Config
  | ProfileOp.add name profile => AddProfile cfg name profile
  | ProfileOp.remove name pick => (RemoveProfile quote pick cfg name).2
  | ProfileOp.use name => (profileUseCmd quote save cfg name).2

/-- The invariant of the specification: the default profile is empty when
there is no profile, and is the name of a profile when there is one. -/
def config.Invariant (cfg : config.Config) : Prop :=
  (cfg.Profiles = [] → cfg.DefaultProfile = goStr "") ∧
  (cfg.Profiles ≠ [] → cfg.DefaultProfile ∈ cfg.Profiles.keys)

/-! ## cmd/root.go and cmd/session.go: the session commands of the CLI -/

/-- The function `GetProfile` of internal/config/config.go. `quote` renders a
string for `%q`. -/
def GetProfile (quote : GoString → GoString) (cfg : config.Config) (name : GoString) :
    Except GoString Profile :=
  let name := if name = goStr "" then cfg.DefaultProfile else name
  if name = goStr "" then
    Except.error
      (goStr "no profile specified and no default profile set. Run: eg profile add <name>")
  else
    match cfg.Profiles.get name with
    | none =>
      Except.error (goStr "profile " ++ quote name ++ goStr " not found. Run: eg profile list")
    | some p => Except.ok p

/-- The function `loadConfig` of cmd/root.go. -/
def loadConfig (file : ConfigFile) : Except GoString config.Config :=
  match Load file with
  | Except.error err => Except.error (goStr "failed to load config: " ++ err)
  | Except.ok cfg => Except.ok cfg

/-- The struct `Client` of internal/api/client.go (without its HTTP client). -/
structure api.Client where
  BaseURL : GoString
  APIKey : GoString
deriving DecidableEq, Repr

/-- The function `getClient` of cmd/root.go. -/
def getClient (quote : GoString → GoString) (file : ConfigFile) (profileFlag : GoString) :
    Except GoString api.Client :=
  match loadConfig file with
  | Except.error err => Except.error err
  | Except.ok cfg =>
    match GetProfile quote cfg profileFlag with
    | Except.error err => Except.error err
    | Except.ok profile => Except.ok { BaseURL := profile.APIURL, APIKey := profile.APIKey }

/-- The struct `Session` of internal/api/client.go: the fields the stop and
extend commands read. -/
structure Session where
  ID : GoString
  Status : GoString
  ExpiresAt : GoString
deriving DecidableEq, Repr

/-- The remote API as the stop and extend commands use it: the results of
`Client.ListSessions`, `Client.StopSession` and `Client.ExtendSession`. -/
structure SessionAPI where
  ListSessions : api.Client → Except GoString (List Session)
  StopSession : api.Client → GoString → Except GoString Session
  ExtendSession : api.Client → GoString → Int → Except GoString Session

/-- The observable effects of a session command, in order: the calls of the
API client and the lines printed (`output.Info` with the short id,
`output.PrintJSON`, `output.Success`). -/
inductive CliEvent where
  | listSessions (client : api.Client)
  | stopSession (client : api.Client) (id : GoString)
  | extendSession (client : api.Client) (id : GoString) (hours : Int)
  | infoStopping (shortID : GoString)
  | infoExtending (shortID : GoString) (hours : Int)
  | printJSON (session : Session)
  | successStopped
  | successExtended (expiresAt : GoString)
deriving DecidableEq, Repr

/-- How the `RunE` of a command ends: a run-time panic (slice bounds out of
range), an error returned, or `nil`. -/
inductive CmdOutcome where
  | panicked
  | error (err : GoString)
  | ok
deriving DecidableEq, Repr

/-- The `RunE` of `sessionStopCmd`; `args` holds at most one argument. -/
def sessionStopCmd (quote : GoString → GoString) (remote : SessionAPI) (file : ConfigFile)
    (profileFlag format : GoString) (args : List GoString) : CmdOutcome × List CliEvent :=
  match getClient quote file profileFlag with
  | Except.error err => (CmdOutcome.error err, [])
  | Except.ok client =>
    let resolved : Except GoString GoString × List CliEvent :=
      match args with
      | id :: _ => (Except.ok id, [])
      | [] =>
        match remote.ListSessions client with
        | Except.error err => (Except.error err, [CliEvent.listSessions client])
        | Except.ok sessions =>
          let sessionID :=
            match sessions.find?
              (fun s => s.Status = goStr "ACTIVE" ∨ s.Status = goStr "PARTIAL") with
            | some s => s.ID
            | none => goStr ""
          if sessionID = goStr "" then
            (Except.error (goStr "no active session found"), [CliEvent.listSessions client])
          else (Except.ok sessionID, [CliEvent.listSessions client])
    match resolved with
    | (Except.error err, events) => (CmdOutcome.error err, events)
    | (Except.ok sessionID, events) =>
      if sessionID.length < 8 then (CmdOutcome.panicked, events)
      else
        let events := events ++ [CliEvent.infoStopping (sessionID.take 8)]
        let events := events ++ [CliEvent.stopSession client sessionID]
        match remote.StopSession client sessionID with
        | Except.error err => (CmdOutcome.error err, events)
        | Except.ok session =>
          if format = goStr "json" then (CmdOutcome.ok, events ++ [CliEvent.printJSON session])
          else (CmdOutcome.ok, events ++ [CliEvent.successStopped])

/-- The `RunE` of `sessionExtendCmd` on its one argument. -/
def sessionExtendCmd (quote : GoString → GoString) (remote : SessionAPI) (file : ConfigFile)
    (profileFlag format : GoString) (extendHours : Int) (id : GoString) :
    CmdOutcome × List CliEvent :=
  if extendHours ≤ 0 then
    (CmdOutcome.error (goStr "--hours is required and must be positive"), [])
  else
    match getClient quote file profileFlag with
    | Except.error err => (CmdOutcome.error err, [])
    | Except.ok client =>
      if id.length < 8 then (CmdOutcome.panicked, [])
      else
        let events := [CliEvent.infoExtending (id.take 8) extendHours]
        let events := events ++ [CliEvent.extendSession client id extendHours]
        match remote.ExtendSession client id extendHours with
        | Except.error err => (CmdOutcome.error err, events)
        | Except.ok session =>
          if format = goStr "json" then (CmdOutcome.ok, events ++ [CliEvent.printJSON session])
          else (CmdOutcome.ok, events ++ [CliEvent.successExtended session.ExpiresAt])

/-- The stop and extend requests of a command, in order: (id, hours), with no
hours for a stop. -/
def sessionRequests : List CliEvent → List (GoString × Option Int)
  | [] => []
  | CliEvent.stopSession _ id :: t => (id, none) :: sessionRequests t
  | CliEvent.extendSession _ id hours :: t => (id, some hours) :: sessionRequests t
  | _ :: t => sessionRequests t

/-! ## Directories: package path/filepath on a Unix system

`WriteConfig` hands a directory to `os.MkdirAll` and a path to `os.WriteFile`.
Which directory holds the file at a path is what `filepath.Dir` of the Go
standard library computes; two paths name the same directory when
`filepath.Clean` maps them to the same path. -/

/-- The elements of a path between its slashes (`strings.Split(path, "/")`):
the empty path has one empty element, a leading, a trailing and a doubled
slash each give an empty element. -/
def splitSlash : GoString → List GoString
  | [] => [[]]
  | b :: t =>
    if b = 47 then [] :: splitSlash t
    else
      match splitSlash t with
      | [] => [[b]]
      | e :: es => (b :: e) :: es

/-- One element of the path in `filepath.Clean`; `out` holds the elements kept
so far, the last one first. An empty element and `.` are dropped; `..` removes
the element before it when there is one that is not `..`, is dropped at the
root and is kept otherwise; any other element is kept. -/
def cleanElement (rooted : Bool) (out : List GoString) (e : GoString) : List GoString :=
  if e = [] ∨ e = goStr "." then out
  else if e = goStr ".." then
    match out with
    | [] => if rooted then [] else [e]
    | top :: rest => if top = goStr ".." then e :: out else rest
  else e :: out

/-- The function `filepath.Clean` on a Unix system: the shortest path that
names the same file by the text of the path alone. The result of a rooted path
starts with a slash; the result is `.` when nothing else is left. -/
def Clean (path : GoString) : GoString :=
  let rooted : Bool := path.head? = some 47
  let out := (splitSlash path).foldl (cleanElement rooted) []
  if rooted then 47 :: (goStr "/").intercalate out.reverse
  else if out = [] then goStr "."
  else (goStr "/").intercalate out.reverse

/-- The function `filepath.Dir` on a Unix system: `Clean` of the path up to
and including its last slash (of the empty path when there is no slash). This
is the directory that holds the file at `path`. -/
def Dir (path : GoString) : GoString :=
  Clean (path.reverse.dropWhile (fun b => b ≠ 47)).reverse

/-- Whether the path `dir` names the directory that holds the file at `path`.
The empty path names no directory (`os.MkdirAll("")` fails with
`no such file or directory`); any other path names the directory `Clean dir`. -/
def namesParentOf (dir path : GoString) : Bool :=
  decide (dir ≠ []) && decide (Clean dir = Dir path)

/-! ## Observations on traces -/

/-- The script-runner invocations of a trace, in order:
(shell, script path, first argument, second argument). -/
def spawns : List Event → List (GoString × GoString × GoString × GoString)
  | [] => []
  | Event.spawn shell scriptPath cidr description :: t =>
    (shell, scriptPath, cidr, description) :: spawns t
  | _ :: t => spawns t

/-- The reports sent in a trace, in order: (command id, request body). -/
def reports : List Event → List (GoString × CommandResultRequest)
  | [] => []
  | Event.report commandID req :: t => (commandID, req) :: reports t
  | _ :: t => reports t

/-- The per-command traces of a batch: `processCommand` on each command from
an empty trace, in the world the commands before it left. -/
def commandTraces {σ : Type} (env : Env σ) (p : Poller) : List Command → σ → List (List Event)
  | [], _ => []
  | cmd :: rest, w =>
    let s := processCommand env p cmd { world := w, trace := [] }
    s.trace :: commandTraces env p rest s.world

/-! ## Concrete environments -/

/-- An environment whose child process always leaves `o` behind, whose command
source always delivers `batch`, and whose sink accepts every report. The world
counts the calls made. -/
def fixedEnv (o : RunOutcome) (batch : List Command) : Env Nat where
  run w _ _ _ _ _ := (o, w + 1)
  PollCommands w := (Except.ok batch, w + 1)
  ReportResult w _ _ := (none, w + 1)
  durationString _ := goStr "30s"

/-- A sample executor: bash with a 30 second deadline. -/
def sampleExecutor : Executor := { shell := goStr "/bin/bash", timeout := 30000000000 }

/-- A sample poller with both scripts configured. -/
def samplePoller : Poller :=
  { executor := sampleExecutor
    scripts := { Apply := goStr "/opt/apply.sh", Revoke := goStr "/opt/revoke.sh" }
    interval := 3000000000 }

/-- A sample poller with no script configured. -/
def barePoller : Poller :=
  { executor := sampleExecutor
    scripts := { Apply := goStr "", Revoke := goStr "" }
    interval := 3000000000 }

/-- A sample command. -/
def sampleCommand (id commandType : String) : Command :=
  { ID := goStr id
    CommandType := goStr commandType
    CIDR := goStr "203.0.113.5/32"
    Description := goStr "alice-laptop"
    ResourceIdentifier := goStr "sg-1"
    ResourceType := goStr "AGENT" }

/-- A clean run printing `ok`. -/
def okOutcome : RunOutcome :=
  { stdout := goStr "ok", stderr := goStr "", err := none, ctxErr := none, elapsed := 1000000 }

/-- A clean run printing 4097 bytes, one more than the cap. -/
def longOutcome : RunOutcome :=
  { stdout := List.replicate 4097 97, stderr := goStr "", err := none, ctxErr := none,
    elapsed := 1000000 }

/-- A run that exits with status 1 after printing to both streams. -/
def failOutcome : RunOutcome :=
  { stdout := goStr "applying", stderr := goStr "iptables: denied",
    err := some (goStr "exit status 1"), ctxErr := none, elapsed := 1000000 }

/-- A run that exits with status 1 after printing 5000 bytes. -/
def longFailOutcome : RunOutcome :=
  { stdout := List.replicate 5000 97, stderr := goStr "", err := some (goStr "exit status 1"),
    ctxErr := none, elapsed := 1000000 }

/-- A run killed at the deadline. -/
def timeoutOutcome : RunOutcome :=
  { stdout := goStr "waiting", stderr := goStr "", err := some (goStr "signal: killed"),
    ctxErr := some CtxError.DeadlineExceeded, elapsed := 30000000000 }

/-- A run that returned no error although the deadline had fired when the
context was inspected. -/
def lateOutcome : RunOutcome :=
  { stdout := goStr "done", stderr := goStr "", err := none,
    ctxErr := some CtxError.DeadlineExceeded, elapsed := 30000000000 }

/-- A clean run that prints nothing. -/
def emptyOutcome : RunOutcome :=
  { stdout := goStr "", stderr := goStr "", err := none, ctxErr := none, elapsed := 1000 }

/-- An environment like `fixedEnv` whose command sink refuses every report. -/
def failingSinkEnv (o : RunOutcome) (batch : List Command) : Env Nat where
  run w _ _ _ _ _ := (o, w + 1)
  PollCommands w := (Except.ok batch, w + 1)
  ReportResult w _ _ := (some (goStr "request failed: connection refused"), w + 1)
  durationString _ := goStr "30s"

/-- An environment whose command source fails with `err`. -/
def failingSourceEnv (err : GoString) : Env Nat where
  run w _ _ _ _ _ := (okOutcome, w + 1)
  PollCommands w := (Except.error err, w + 1)
  ReportResult w _ _ := (none, w + 1)
  durationString _ := goStr "30s"

/-- The number of `PollCommands` calls in a trace. -/
def polls : List Event → Nat
  | [] => 0
  | Event.poll :: t => polls t + 1
  | _ :: t => polls t

/-- The failed-report log entries of a trace, in order: (command id, error). -/
def reportFailures : List Event → List (GoString × GoString)
  | [] => []
  | Event.log (LogEntry.reportFailed id err) :: t => (id, err) :: reportFailures t
  | _ :: t => reportFailures t

/-- An environment whose command source is the HTTP client and answers every
poll with status 503. -/
def unavailableEnv : Env Nat :=
  withHTTPSource (fixedEnv okOutcome []) (fun _ => goStr "503")
    (fun _ => Except.error (goStr "unexpected end of JSON input"))
    (fun w => (Exchange.response 503 (goStr "unavailable"), w + 1))

/-- The heartbeats sent in a trace, in order. -/
def heartbeats : List Event → List HeartbeatRequest
  | [] => []
  | Event.heartbeat req :: t => req :: heartbeats t
  | _ :: t => heartbeats t

/-- A sample response of the control plane. -/
def sampleResponse : AgentResponse :=
  { ID := goStr "a1", Name := goStr "edge-1", Status := goStr "ONLINE", AgentVersion := none,
    Hostname := none, OsInfo := none, LastHeartbeatAt := none,
    CreatedAt := goStr "2026-01-01T00:00:00Z" }

/-- An agent environment over `fixedEnv` that accepts the registration and
whose heartbeat endpoint fails on every second call. -/
def sampleAgentEnv (o : RunOutcome) (batch : List Command) : AgentEnv Nat where
  toEnv := fixedEnv o batch
  Register w _ := (Except.ok sampleResponse, w + 1)
  Heartbeat w _ :=
    (if w % 2 = 0 then Except.error (goStr "request failed: timeout")
     else Except.ok sampleResponse, w + 1)
  Hostname _ := goStr "edge-1"
  GOOS := goStr "linux"
  GOARCH := goStr "amd64"

/-- An agent environment over `fixedEnv` that refuses the registration. -/
def rejectingAgentEnv (o : RunOutcome) (batch : List Command) : AgentEnv Nat where
  toEnv := fixedEnv o batch
  Register w _ := (Except.error (goStr "API error (HTTP 401): bad key"), w + 1)
  Heartbeat w _ := (Except.ok sampleResponse, w + 1)
  Hostname _ := goStr "edge-1"
  GOOS := goStr "linux"
  GOARCH := goStr "amd64"

/-- A sample heartbeater with a 30 second interval. -/
def sampleHeartbeater : Heartbeater := { interval := 30000000000, version := goStr "dev" }

/-- The configuration `runInit` writes for a sample set of answers. -/
def sampleInitConfig : Config :=
  initConfig (goStr "https://app.entryguard.io/api/v1") (goStr "eg_key") (goStr "edge-1")
    (goStr "/etc/eg-agent/scripts/apply.sh") (goStr "/etc/eg-agent/scripts/revoke.sh")

/-- A file system that holds `data` at `path` and nothing else. -/
def singleFile (path : GoString) (data : FileData) : GoString → Except GoString FileData :=
  fun q => if q = path then Except.ok data else Except.error (goStr "no such file or directory")

/-- A configuration document that names the server, the key, the agent and the
two scripts and leaves every other key out. -/
def minimalDocument : Document :=
  { url := some (goStr "https://app.entryguard.io/api/v1")
    api_key := some (goStr "eg_key")
    name := some (goStr "edge-1")
    poll_interval := none
    heartbeat_interval := none
    apply := some (goStr "/opt/apply.sh")
    revoke := some (goStr "/opt/revoke.sh")
    timeout := none
    shell := none }

/-- The configuration `LoadConfig` returns for `minimalDocument`. -/
def minimalConfig : Config :=
  { Server := { URL := goStr "https://app.entryguard.io/api/v1", APIKey := goStr "eg_key" }
    Agent := { Name := goStr "edge-1", PollInterval := 3 * Second, HeartbeatInterval := 30 * Second }
    Scripts := { Apply := goStr "/opt/apply.sh", Revoke := goStr "/opt/revoke.sh" }
    Execution := { Timeout := 30 * Second, Shell := goStr "/bin/bash" } }

/-- The call `os.MkdirAll` on a file system where every directory can be
created: only the empty path is refused. -/
def sampleMkdirAll (dir : GoString) : Option GoString :=
  if dir = [] then some (goStr "mkdir : no such file or directory") else none

/-- A sample profile. -/
def sampleProfile : Profile :=
  { APIKey := goStr "eg_key", APIURL := goStr "https://app.entryguard.io/api/v1" }

/-- A rendering of `%q` for the samples: the string between double quotes. -/
def sampleQuote (s : GoString) : GoString := goStr "\"" ++ s ++ goStr "\""

/-- A sample session. -/
def sampleSession : Session :=
  { ID := goStr "0f8fad5b-d9cb-469f-a165-70867728950e", Status := goStr "ACTIVE"
    ExpiresAt := goStr "2026-01-01T08:00:00Z" }

/-- A remote API that accepts every request. -/
def sampleAPI : SessionAPI where
  ListSessions _ := Except.ok [sampleSession]
  StopSession _ _ := Except.ok sampleSession
  ExtendSession _ _ _ := Except.ok sampleSession

/-- A configuration file with one profile, which is the default one. -/
def sampleConfigFile : ConfigFile :=
  ConfigFile.decoded { DefaultProfile := goStr "prod", Profiles := [(goStr "prod", sampleProfile)] }

/-! ## Shared lemmas -/

theorem goStr_empty : goStr "" = [] := rfl

theorem truncationMarker_length : truncationMarker.length = 16 := rfl

theorem spawns_append (a b : List Event) : spawns (a ++ b) = spawns a ++ spawns b := by
  induction a with
  | nil => rfl
  | cons x t ih => cases x <;> simp [spawns, ih]

theorem reports_append (a b : List Event) : reports (a ++ b) = reports a ++ reports b := by
  induction a with
  | nil => rfl
  | cons x t ih => cases x <;> simp [reports, ih]

/-- The switch of `processCommand` takes the `default` branch exactly on the
types other than the two known ones. -/
theorem processCommand_unknown {σ : Type} (env : Env σ) (p : Poller) (cmd : Command) (s : St σ)
    (hA : cmd.CommandType ≠ goStr "APPLY") (hR : cmd.CommandType ≠ goStr "REVOKE") :
    processCommand env p cmd s =
      { world := (env.ReportResult s.world cmd.ID
          { Success := false
            ResultMessage := goStr "Unknown command type: " ++ cmd.CommandType }).2
        trace := s.trace ++
          [Event.log (LogEntry.unknownCommandType cmd.CommandType cmd.ID),
           Event.report cmd.ID
            { Success := false
              ResultMessage := goStr "Unknown command type: " ++ cmd.CommandType }] } := by
  simp [processCommand, hA, hR, ReportResult, logPrintf]

/-- A known type whose configured path is empty: a log line, one failure
report, no child process. -/
theorem processCommand_noScript {σ : Type} (env : Env σ) (p : Poller) (cmd : Command) (s : St σ)
    (scriptPath : GoString)
    (hT : (cmd.CommandType = goStr "APPLY" ∧ scriptPath = p.scripts.Apply) ∨
      (cmd.CommandType = goStr "REVOKE" ∧ scriptPath = p.scripts.Revoke))
    (hE : scriptPath = goStr "") :
    processCommand env p cmd s =
      { world := (env.ReportResult s.world cmd.ID
          { Success := false
            ResultMessage := goStr "No script configured for " ++ cmd.CommandType }).2
        trace := s.trace ++
          [Event.log (LogEntry.noScriptConfigured cmd.CommandType cmd.ID),
           Event.report cmd.ID
            { Success := false
              ResultMessage := goStr "No script configured for " ++ cmd.CommandType }] } := by
  have hne : goStr "REVOKE" ≠ goStr "APPLY" := by decide
  rcases hT with ⟨hT, hS⟩ | ⟨hT, hS⟩
  · subst hS
    simp [processCommand, hT, hE, ReportResult, logPrintf]
  · subst hS
    simp [processCommand, hT, hE, hne, ReportResult, logPrintf]

/-- A known type with a configured script: the exact trace of the executing
path. -/
theorem processCommand_exec {σ : Type} (env : Env σ) (p : Poller) (cmd : Command) (s : St σ)
    (scriptPath : GoString)
    (hT : (cmd.CommandType = goStr "APPLY" ∧ scriptPath = p.scripts.Apply) ∨
      (cmd.CommandType = goStr "REVOKE" ∧ scriptPath = p.scripts.Revoke))
    (hE : scriptPath ≠ goStr "")
    (result : ExecutionResult) (w : σ)
    (hX : Execute env p.executor scriptPath cmd.CIDR cmd.Description
      { world := s.world, trace := [] } =
        (result, { world := w,
                   trace := [Event.spawn p.executor.shell scriptPath cmd.CIDR cmd.Description] })) :
    processCommand env p cmd s =
      { world := (env.ReportResult w cmd.ID (buildReport cmd result)).2
        trace := s.trace ++
          [Event.log (LogEntry.executing cmd.CommandType cmd.CIDR cmd.ResourceIdentifier cmd.ID),
           Event.spawn p.executor.shell scriptPath cmd.CIDR cmd.Description,
           Event.log (LogEntry.result cmd.CommandType result.Success result.Duration cmd.ID)] ++
          (if result.Output ≠ goStr "" then [Event.log (LogEntry.output result.Output)] else []) ++
          [Event.report cmd.ID (buildReport cmd result)] ++
          (match (env.ReportResult w cmd.ID (buildReport cmd result)).1 with
            | some err => [Event.log (LogEntry.reportFailed cmd.ID err)]
            | none => []) } := by
  have hne : goStr "REVOKE" ≠ goStr "APPLY" := by decide
  simp only [Execute, List.nil_append, Prod.mk.injEq, St.mk.injEq, and_true] at hX
  obtain ⟨hr, hw⟩ := hX
  rcases hT with ⟨hT, hS⟩ | ⟨hT, hS⟩
  · subst hS
    simp only [processCommand, hT, if_true, if_neg hE, Execute, logPrintf, ReportResult, hr, hw]
    by_cases hO : result.Output = goStr "" <;>
      cases hRep : (env.ReportResult w cmd.ID (buildReport cmd result)).1 <;>
      simp [hO, hRep, logPrintf]
  · subst hS
    simp only [processCommand, hT, if_neg hne, if_true, if_neg hE, Execute, logPrintf,
      ReportResult, hr, hw]
    by_cases hO : result.Output = goStr "" <;>
      cases hRep : (env.ReportResult w cmd.ID (buildReport cmd result)).1 <;>
      simp [hO, hRep, logPrintf]

/-- The method `processCommand` only appends to the trace, and what it appends and the
world it leaves do not depend on the trace it started from. -/
theorem processCommand_frame {σ : Type} (env : Env σ) (p : Poller) (cmd : Command)
    (w : σ) (t : List Event) :
    processCommand env p cmd { world := w, trace := t } =
      { world := (processCommand env p cmd { world := w, trace := [] }).world
        trace := t ++ (processCommand env p cmd { world := w, trace := [] }).trace } := by
  by_cases hA : cmd.CommandType = goStr "APPLY"
  · by_cases hE : p.scripts.Apply = goStr ""
    · rw [processCommand_noScript env p cmd _ _ (Or.inl ⟨hA, rfl⟩) hE,
        processCommand_noScript env p cmd _ _ (Or.inl ⟨hA, rfl⟩) hE]
      simp
    · rw [processCommand_exec env p cmd _ _ (Or.inl ⟨hA, rfl⟩) hE _ _ rfl,
        processCommand_exec env p cmd _ _ (Or.inl ⟨hA, rfl⟩) hE _ _ rfl]
      simp
  · by_cases hR : cmd.CommandType = goStr "REVOKE"
    · by_cases hE : p.scripts.Revoke = goStr ""
      · rw [processCommand_noScript env p cmd _ _ (Or.inr ⟨hR, rfl⟩) hE,
          processCommand_noScript env p cmd _ _ (Or.inr ⟨hR, rfl⟩) hE]
        simp
      · rw [processCommand_exec env p cmd _ _ (Or.inr ⟨hR, rfl⟩) hE _ _ rfl,
          processCommand_exec env p cmd _ _ (Or.inr ⟨hR, rfl⟩) hE _ _ rfl]
        simp
    · rw [processCommand_unknown env p cmd _ hA hR, processCommand_unknown env p cmd _ hA hR]
      simp

/-- The `for ... range` loop of `poll` appends the per-command traces in batch
order. -/
theorem dispatch_trace {σ : Type} (env : Env σ) (p : Poller) (commands : List Command)
    (w : σ) (t : List Event) :
    (commands.foldl (fun s cmd => processCommand env p cmd s) { world := w, trace := t }).trace =
      t ++ (commandTraces env p commands w).flatten := by
  induction commands generalizing w t with
  | nil => simp [commandTraces]
  | cons cmd rest ih =>
    rw [List.foldl_cons, processCommand_frame, ih]
    simp [commandTraces]

theorem commandTraces_length {σ : Type} (env : Env σ) (p : Poller) (commands : List Command)
    (w : σ) : (commandTraces env p commands w).length = commands.length := by
  induction commands generalizing w with
  | nil => rfl
  | cons cmd rest ih => simp [commandTraces, ih]

/-- The loop of `poll` only appends to the trace, and what it appends and the
world it leaves do not depend on the trace it started from. -/
theorem dispatch_frame {σ : Type} (env : Env σ) (p : Poller) (commands : List Command)
    (w : σ) (t : List Event) :
    commands.foldl (fun s cmd => processCommand env p cmd s) { world := w, trace := t } =
      { world := (commands.foldl (fun s cmd => processCommand env p cmd s)
          { world := w, trace := [] }).world
        trace := t ++ (commands.foldl (fun s cmd => processCommand env p cmd s)
          { world := w, trace := [] }).trace } := by
  induction commands generalizing w t with
  | nil => simp
  | cons cmd rest ih =>
    rw [List.foldl_cons, List.foldl_cons, processCommand_frame env p cmd w t]
    generalize processCommand env p cmd { world := w, trace := [] } = s1
    obtain ⟨w1, t1⟩ := s1
    rw [ih w1 (t ++ t1), ih w1 t1]
    simp

/-- Splitting a batch splits its per-command traces; the second part starts in
the world the loop is in after the first part. -/
theorem commandTraces_append {σ : Type} (env : Env σ) (p : Poller) (pre post : List Command)
    (w : σ) :
    commandTraces env p (pre ++ post) w =
      commandTraces env p pre w ++
        commandTraces env p post
          (pre.foldl (fun s cmd => processCommand env p cmd s) { world := w, trace := [] }).world := by
  induction pre generalizing w with
  | nil => simp [commandTraces]
  | cons cmd rest ih =>
    have hStep : commandTraces env p (cmd :: rest ++ post) w =
        (processCommand env p cmd { world := w, trace := [] }).trace ::
          commandTraces env p (rest ++ post)
            (processCommand env p cmd { world := w, trace := [] }).world := rfl
    have hHead : commandTraces env p (cmd :: rest) w =
        (processCommand env p cmd { world := w, trace := [] }).trace ::
          commandTraces env p rest (processCommand env p cmd { world := w, trace := [] }).world := rfl
    rw [hStep, hHead, ih, List.foldl_cons]
    generalize processCommand env p cmd { world := w, trace := [] } = s1
    obtain ⟨w1, t1⟩ := s1
    rw [dispatch_frame env p rest w1 t1]
    simp [commandTraces]

theorem spawns_flatten (ts : List (List Event)) :
    spawns ts.flatten = (ts.map spawns).flatten := by
  induction ts with
  | nil => rfl
  | cons t rest ih => simp [spawns_append, ih]

theorem reports_flatten (ts : List (List Event)) :
    reports ts.flatten = (ts.map reports).flatten := by
  induction ts with
  | nil => rfl
  | cons t rest ih => simp [reports_append, ih]

/-! ## Ordering of a batch -/

/-- C1: when `PollCommands` succeeds with a batch, the trace `poll` produces is
the poll request followed by the traces of `processCommand` for each command,
concatenated in batch order, one per command, and so are its script-runner
invocations and its report sends: at every position of the batch, all effects
of the commands before it come first, then exactly the effects of
`processCommand` on that command (in the world those left), then the effects of
the commands after it. -/
theorem poll_processes_batch_in_order {σ : Type} (env : Env σ) (p : Poller) (s : St σ)
    (commands : List Command) (w : σ)
    (hPoll : env.PollCommands s.world = (Except.ok commands, w)) :
    (commandTraces env p commands w).length = commands.length ∧
    (poll env p s).trace = s.trace ++ [Event.poll] ++ (commandTraces env p commands w).flatten ∧
    spawns (poll env p s).trace =
      spawns s.trace ++ ((commandTraces env p commands w).map spawns).flatten ∧
    reports (poll env p s).trace =
      reports s.trace ++ ((commandTraces env p commands w).map reports).flatten ∧
    ∀ (pre post : List Command) (cmd : Command), commands = pre ++ cmd :: post →
      ∃ wi : σ,
        wi = (pre.foldl (fun s cmd => processCommand env p cmd s)
          { world := w, trace := [] }).world ∧
        (poll env p s).trace =
          s.trace ++ [Event.poll] ++ (commandTraces env p pre w).flatten ++
            (processCommand env p cmd { world := wi, trace := [] }).trace ++
            (commandTraces env p post
              (processCommand env p cmd { world := wi, trace := [] }).world).flatten := by
  have hTrace : (poll env p s).trace =
      s.trace ++ [Event.poll] ++ (commandTraces env p commands w).flatten := by
    simp only [poll, PollCommands, hPoll]
    rw [dispatch_trace]
  refine ⟨commandTraces_length env p commands w, hTrace, ?_, ?_, ?_⟩
  · rw [hTrace, spawns_append, spawns_append, spawns_flatten]
    simp [spawns]
  · rw [hTrace, reports_append, reports_append, reports_flatten]
    simp [reports]
  intro pre post cmd hSplit
  refine ⟨_, rfl, ?_⟩
  rw [hTrace, hSplit, commandTraces_append]
  simp [commandTraces, List.append_assoc]

/-- C1 at a concrete batch of two commands. -/
theorem poll_processes_batch_in_order_witness :
    (fixedEnv okOutcome [sampleCommand "c1" "APPLY", sampleCommand "c2" "REVOKE"]).PollCommands 0 =
      (Except.ok [sampleCommand "c1" "APPLY", sampleCommand "c2" "REVOKE"], 1) ∧
    (poll (fixedEnv okOutcome [sampleCommand "c1" "APPLY", sampleCommand "c2" "REVOKE"])
      samplePoller { world := 0, trace := [] }).trace =
      [] ++ [Event.poll] ++
        (commandTraces (fixedEnv okOutcome [sampleCommand "c1" "APPLY", sampleCommand "c2" "REVOKE"])
          samplePoller [sampleCommand "c1" "APPLY", sampleCommand "c2" "REVOKE"] 1).flatten :=
  ⟨rfl, (poll_processes_batch_in_order _ samplePoller { world := 0, trace := [] } _ 1 rfl).2.1⟩

/-! ## The script runner -/

/-- The result of `Execute` is the classification of the capped combined
output of the run. -/
theorem Execute_result {σ : Type} (env : Env σ) (e : Executor)
    (scriptPath cidr description : GoString) (s : St σ) (o : RunOutcome) (w : σ)
    (hRun : env.run s.world e.shell scriptPath cidr description e.timeout = (o, w)) :
    Execute env e scriptPath cidr description s =
      (classify env.durationString e.timeout o (capOutput (combineOutput o.stdout o.stderr)),
       { world := w, trace := s.trace ++ [Event.spawn e.shell scriptPath cidr description] }) := by
  simp [Execute, hRun]

theorem classify_clean (durationString : Duration → GoString) (timeout : Duration)
    (o : RunOutcome) (output : GoString)
    (hD : o.ctxErr ≠ some CtxError.DeadlineExceeded) (hErr : o.err = none) :
    classify durationString timeout o output =
      { Success := true, Output := output, Duration := o.elapsed } := by
  simp [classify, hD, hErr]

theorem classify_failed (durationString : Duration → GoString) (timeout : Duration)
    (o : RunOutcome) (output err : GoString)
    (hD : o.ctxErr ≠ some CtxError.DeadlineExceeded) (hErr : o.err = some err) :
    classify durationString timeout o output =
      { Success := false, Output := goStr "Script failed: " ++ err ++ goStr "\n" ++ output,
        Duration := o.elapsed } := by
  simp [classify, hD, hErr]

theorem classify_timeout (durationString : Duration → GoString) (timeout : Duration)
    (o : RunOutcome) (output : GoString)
    (hD : o.ctxErr = some CtxError.DeadlineExceeded) :
    classify durationString timeout o output =
      { Success := false
        Output := goStr "Script timed out after " ++ durationString timeout ++ goStr "\n" ++ output
        Duration := o.elapsed } := by
  simp [classify, hD]

theorem capOutput_length_le (output : GoString) :
    (capOutput output).length ≤ outputCap + truncationMarker.length := by
  unfold capOutput
  split
  · simp [List.length_take]
  · omega

theorem capOutput_of_long (output : GoString) (h : output.length > outputCap) :
    capOutput output = output.take outputCap ++ truncationMarker := by
  simp [capOutput, h]

theorem capOutput_of_short (output : GoString) (h : output.length ≤ outputCap) :
    capOutput output = output := by
  have : ¬ output.length > outputCap := by omega
  simp [capOutput, this]

theorem combineOutput_cases (stdout stderr : GoString) :
    (stderr = goStr "" → combineOutput stdout stderr = stdout) ∧
    (stdout = goStr "" → combineOutput stdout stderr = stderr) ∧
    (stdout ≠ goStr "" → stderr ≠ goStr "" →
      combineOutput stdout stderr = stdout ++ goStr "\n" ++ stderr) := by
  refine ⟨?_, ?_, ?_⟩
  · intro h
    simp [combineOutput, h, goStr_empty]
  · intro h
    cases stderr <;> simp [combineOutput, h, goStr_empty]
  · intro hs he
    rw [goStr_empty] at hs he
    cases stderr with
    | nil => exact absurd rfl he
    | cons x t => simp [combineOutput, hs]

/-- C7: the text `Execute` caps and classifies is the combination of the
stdout `s` and stderr `e` of the run, which is `s` when `e` is empty, `e` when `s` is
empty, and `s`, a single newline byte, then `e` when both are non-empty. -/
theorem combined_output_stdout_then_stderr {σ : Type} (env : Env σ) (e : Executor)
    (scriptPath cidr description : GoString) (s : St σ) (o : RunOutcome) (w : σ)
    (hRun : env.run s.world e.shell scriptPath cidr description e.timeout = (o, w)) :
    (Execute env e scriptPath cidr description s).1 =
      classify env.durationString e.timeout o (capOutput (combineOutput o.stdout o.stderr)) ∧
    (o.stderr = goStr "" → combineOutput o.stdout o.stderr = o.stdout) ∧
    (o.stdout = goStr "" → combineOutput o.stdout o.stderr = o.stderr) ∧
    (o.stdout ≠ goStr "" → o.stderr ≠ goStr "" →
      combineOutput o.stdout o.stderr = o.stdout ++ goStr "\n" ++ o.stderr) ∧
    goStr "\n" = [10] := by
  obtain ⟨h1, h2, h3⟩ := combineOutput_cases o.stdout o.stderr
  refine ⟨?_, h1, h2, h3, rfl⟩
  rw [Execute_result env e scriptPath cidr description s o w hRun]

/-- C7 on a failing run that printed to both streams. -/
theorem combined_output_stdout_then_stderr_witness :
    (fixedEnv failOutcome []).run 0 sampleExecutor.shell (goStr "/opt/apply.sh")
      (goStr "203.0.113.5/32") (goStr "alice-laptop") sampleExecutor.timeout = (failOutcome, 1) ∧
    combineOutput failOutcome.stdout failOutcome.stderr = goStr "applying\niptables: denied" :=
  ⟨rfl,
   ((combined_output_stdout_then_stderr (fixedEnv failOutcome []) sampleExecutor
      (goStr "/opt/apply.sh") (goStr "203.0.113.5/32") (goStr "alice-laptop")
      { world := 0, trace := [] } failOutcome 1 rfl).2.2.2.1 (by decide) (by decide)).trans
      (by decide)⟩

/-- C4: when the deadline has fired, whatever `Run` returned, the result is a
failure whose output is the timeout notice with the configured timeout, a
newline, and the capped combined output; the generic failure text is not
used. -/
theorem timeout_takes_precedence {σ : Type} (env : Env σ) (e : Executor)
    (scriptPath cidr description : GoString) (s : St σ) (o : RunOutcome) (w : σ)
    (hRun : env.run s.world e.shell scriptPath cidr description e.timeout = (o, w))
    (hDeadline : o.ctxErr = some CtxError.DeadlineExceeded) :
    (Execute env e scriptPath cidr description s).1.Success = false ∧
    (Execute env e scriptPath cidr description s).1.Output =
      goStr "Script timed out after " ++ env.durationString e.timeout ++ goStr "\n" ++
        capOutput (combineOutput o.stdout o.stderr) := by
  rw [Execute_result env e scriptPath cidr description s o w hRun]
  simp [classify, hDeadline]

/-- C4 on a run killed at the deadline and on a run that returned no error. -/
theorem timeout_takes_precedence_witness :
    (timeoutOutcome.ctxErr = some CtxError.DeadlineExceeded ∧
      timeoutOutcome.err = some (goStr "signal: killed") ∧
      (Execute (fixedEnv timeoutOutcome []) sampleExecutor (goStr "/opt/apply.sh")
        (goStr "203.0.113.5/32") (goStr "alice-laptop") { world := 0, trace := [] }).1.Output =
        goStr "Script timed out after 30s\nwaiting") ∧
    (lateOutcome.ctxErr = some CtxError.DeadlineExceeded ∧ lateOutcome.err = none ∧
      (Execute (fixedEnv lateOutcome []) sampleExecutor (goStr "/opt/apply.sh")
        (goStr "203.0.113.5/32") (goStr "alice-laptop") { world := 0, trace := [] }).1.Success =
        false) :=
  ⟨⟨rfl, rfl,
    (timeout_takes_precedence (fixedEnv timeoutOutcome []) sampleExecutor (goStr "/opt/apply.sh")
      (goStr "203.0.113.5/32") (goStr "alice-laptop") { world := 0, trace := [] }
      timeoutOutcome 1 rfl rfl).2.trans (by decide)⟩,
   ⟨rfl, rfl,
    (timeout_takes_precedence (fixedEnv lateOutcome []) sampleExecutor (goStr "/opt/apply.sh")
      (goStr "203.0.113.5/32") (goStr "alice-laptop") { world := 0, trace := [] }
      lateOutcome 1 rfl rfl).1⟩⟩

/-- C5: `Execute` is a total function into `ExecutionResult`; its result is a
success exactly when `Run` returned no error and the deadline did not fire, and
then the output is the combined captured text, whole when it is at most 4096
bytes long and otherwise its first 4096 bytes followed by the truncation
marker, with nothing in front. -/
theorem success_iff_clean_run {σ : Type} (env : Env σ) (e : Executor)
    (scriptPath cidr description : GoString) (s : St σ) (o : RunOutcome) (w : σ)
    (hRun : env.run s.world e.shell scriptPath cidr description e.timeout = (o, w)) :
    ((Execute env e scriptPath cidr description s).1.Success = true ↔
      (o.err = none ∧ o.ctxErr ≠ some CtxError.DeadlineExceeded)) ∧
    ((Execute env e scriptPath cidr description s).1.Success = true →
      (Execute env e scriptPath cidr description s).1.Output =
        if (combineOutput o.stdout o.stderr).length ≤ 4096 then combineOutput o.stdout o.stderr
        else (combineOutput o.stdout o.stderr).take 4096 ++ goStr "\n... (truncated)") := by
  rw [Execute_result env e scriptPath cidr description s o w hRun]
  by_cases hD : o.ctxErr = some CtxError.DeadlineExceeded
  · simp [classify, hD]
  · cases hErr : o.err with
    | some err => simp [classify, hD, hErr]
    | none =>
      simp only [classify, hD, hErr, if_false, true_and, not_false_eq_true, forall_true_left,
        iff_true, capOutput, outputCap, truncationMarker, gt_iff_lt]
      by_cases hLen : (combineOutput o.stdout o.stderr).length ≤ 4096
      · have : ¬ 4096 < (combineOutput o.stdout o.stderr).length := by omega
        simp [hLen, this, hD]
      · have : 4096 < (combineOutput o.stdout o.stderr).length := by omega
        simp [hLen, this, hD]

/-- C5 on a clean run. -/
theorem success_iff_clean_run_witness :
    (fixedEnv okOutcome []).run 0 sampleExecutor.shell (goStr "/opt/apply.sh")
      (goStr "203.0.113.5/32") (goStr "alice-laptop") sampleExecutor.timeout = (okOutcome, 1) ∧
    (Execute (fixedEnv okOutcome []) sampleExecutor (goStr "/opt/apply.sh")
      (goStr "203.0.113.5/32") (goStr "alice-laptop") { world := 0, trace := [] }).1.Success =
      true :=
  ⟨rfl,
   (success_iff_clean_run (fixedEnv okOutcome []) sampleExecutor (goStr "/opt/apply.sh")
      (goStr "203.0.113.5/32") (goStr "alice-laptop") { world := 0, trace := [] }
      okOutcome 1 rfl).1.mpr ⟨rfl, by decide⟩⟩

/-- C6: when `Run` returned an error and the deadline did not fire, the result
is a failure whose output is the failure notice with the text of the error, a
newline, and the capped combined output. -/
theorem failure_output_has_error_notice {σ : Type} (env : Env σ) (e : Executor)
    (scriptPath cidr description : GoString) (s : St σ) (o : RunOutcome) (w : σ)
    (hRun : env.run s.world e.shell scriptPath cidr description e.timeout = (o, w))
    (err : GoString) (hErr : o.err = some err)
    (hDeadline : o.ctxErr ≠ some CtxError.DeadlineExceeded) :
    (Execute env e scriptPath cidr description s).1.Success = false ∧
    (Execute env e scriptPath cidr description s).1.Output =
      goStr "Script failed: " ++ err ++ goStr "\n" ++
        capOutput (combineOutput o.stdout o.stderr) := by
  rw [Execute_result env e scriptPath cidr description s o w hRun]
  simp [classify, hDeadline, hErr]

/-- C6 on a run that exits with status 1. -/
theorem failure_output_has_error_notice_witness :
    failOutcome.err = some (goStr "exit status 1") ∧
    failOutcome.ctxErr ≠ some CtxError.DeadlineExceeded ∧
    (Execute (fixedEnv failOutcome []) sampleExecutor (goStr "/opt/apply.sh")
      (goStr "203.0.113.5/32") (goStr "alice-laptop") { world := 0, trace := [] }).1.Output =
      goStr "Script failed: exit status 1\napplying\niptables: denied" :=
  ⟨rfl, by decide,
   (failure_output_has_error_notice (fixedEnv failOutcome []) sampleExecutor
      (goStr "/opt/apply.sh") (goStr "203.0.113.5/32") (goStr "alice-laptop")
      { world := 0, trace := [] } failOutcome 1 rfl (goStr "exit status 1") rfl
      (by decide)).2.trans (by decide)⟩

/-! ## The size of the reported output -/

/-- On the executing path `processCommand` sends exactly one report, built
from the result of `Execute`. -/
theorem processCommand_exec_reports {σ : Type} (env : Env σ) (p : Poller) (cmd : Command)
    (s : St σ) (scriptPath : GoString)
    (hT : (cmd.CommandType = goStr "APPLY" ∧ scriptPath = p.scripts.Apply) ∨
      (cmd.CommandType = goStr "REVOKE" ∧ scriptPath = p.scripts.Revoke))
    (hE : scriptPath ≠ goStr "") :
    reports (processCommand env p cmd s).trace =
      reports s.trace ++
        [(cmd.ID, buildReport cmd
          (Execute env p.executor scriptPath cmd.CIDR cmd.Description s).1)] := by
  have hX : (Execute env p.executor scriptPath cmd.CIDR cmd.Description s).1 =
      (Execute env p.executor scriptPath cmd.CIDR cmd.Description
        { world := s.world, trace := [] }).1 := rfl
  rw [processCommand_exec env p cmd s scriptPath hT hE _ _ rfl, hX]
  simp only [reports_append]
  split <;> split <;> simp [reports] <;> rfl

/-- C2, refuted as stated: a clean run that prints 4097 bytes yields an output
of 4112 bytes, more than 4096. -/
theorem output_exceeds_cap :
    (Execute (fixedEnv longOutcome []) sampleExecutor (goStr "/opt/apply.sh")
      (goStr "203.0.113.5/32") (goStr "alice-laptop") { world := 0, trace := [] }).1.Output.length =
      4112 ∧
    ¬ (Execute (fixedEnv longOutcome []) sampleExecutor (goStr "/opt/apply.sh")
      (goStr "203.0.113.5/32") (goStr "alice-laptop") { world := 0, trace := [] }).1.Output.length ≤
      4096 := by
  have h : (Execute (fixedEnv longOutcome []) sampleExecutor (goStr "/opt/apply.sh")
      (goStr "203.0.113.5/32") (goStr "alice-laptop")
      { world := 0, trace := [] }).1.Output.length = 4112 := by
    have hc : combineOutput longOutcome.stdout longOutcome.stderr = longOutcome.stdout :=
      (combineOutput_cases _ _).1 rfl
    have hl : longOutcome.stdout.length = 4097 := List.length_replicate 4097 97
    rw [Execute_result (fixedEnv longOutcome []) sampleExecutor (goStr "/opt/apply.sh")
      (goStr "203.0.113.5/32") (goStr "alice-laptop") { world := 0, trace := [] } longOutcome 1 rfl]
    rw [classify_clean _ _ _ _ (by decide) rfl, hc, capOutput_of_long _ (by rw [hl]; decide),
      List.length_append, List.length_take, hl, truncationMarker_length]
    rfl
  exact ⟨h, by omega⟩

/-- C2, amended: the output is at most 4096 bytes plus the 16 bytes of the
truncation marker on a success, and at most that plus the length of the timeout
or failure notice otherwise; it is at most 4096 bytes on a success whose
combined output is at most 4096 bytes. On the executing path `processCommand` sends one report whose
`ResultMessage` is that output, unchanged. -/
theorem output_bounded_by_cap_marker_and_notice {σ : Type} (env : Env σ) (e : Executor)
    (scriptPath cidr description : GoString) (s : St σ) (o : RunOutcome) (w : σ)
    (hRun : env.run s.world e.shell scriptPath cidr description e.timeout = (o, w)) :
    truncationMarker.length = 16 ∧
    (o.ctxErr ≠ some CtxError.DeadlineExceeded → o.err = none →
      (Execute env e scriptPath cidr description s).1.Output.length ≤ 4096 + 16) ∧
    (o.ctxErr ≠ some CtxError.DeadlineExceeded → o.err = none →
      (combineOutput o.stdout o.stderr).length ≤ 4096 →
      (Execute env e scriptPath cidr description s).1.Output.length ≤ 4096) ∧
    (o.ctxErr = some CtxError.DeadlineExceeded →
      (Execute env e scriptPath cidr description s).1.Output.length ≤
        (goStr "Script timed out after " ++ env.durationString e.timeout ++ goStr "\n").length +
          (4096 + 16)) ∧
    (∀ err : GoString, o.ctxErr ≠ some CtxError.DeadlineExceeded → o.err = some err →
      (Execute env e scriptPath cidr description s).1.Output.length ≤
        (goStr "Script failed: " ++ err ++ goStr "\n").length + (4096 + 16)) ∧
    (∀ (p : Poller) (cmd : Command), p.executor = e → cidr = cmd.CIDR →
      description = cmd.Description →
      ((cmd.CommandType = goStr "APPLY" ∧ scriptPath = p.scripts.Apply) ∨
        (cmd.CommandType = goStr "REVOKE" ∧ scriptPath = p.scripts.Revoke)) →
      scriptPath ≠ goStr "" →
      ∃ req : CommandResultRequest,
        reports (processCommand env p cmd s).trace = reports s.trace ++ [(cmd.ID, req)] ∧
        req.ResultMessage = (Execute env e scriptPath cidr description s).1.Output) := by
  have hCap := capOutput_length_le (combineOutput o.stdout o.stderr)
  rw [truncationMarker_length] at hCap
  simp only [outputCap] at hCap
  refine ⟨rfl, ?_, ?_, ?_, ?_, ?_⟩
  · intro hD hErr
    rw [Execute_result env e scriptPath cidr description s o w hRun]
    simpa [classify, hD, hErr] using hCap
  · intro hD hErr hLen
    rw [Execute_result env e scriptPath cidr description s o w hRun,
      capOutput_of_short _ hLen]
    simpa [classify, hD, hErr] using hLen
  · intro hD
    rw [Execute_result env e scriptPath cidr description s o w hRun]
    simp only [classify, hD, if_true, List.length_append] at hCap ⊢
    omega
  · intro err hD hErr
    rw [Execute_result env e scriptPath cidr description s o w hRun]
    simp only [classify, hD, hErr, if_false, List.length_append] at hCap ⊢
    omega
  · intro p cmd hp hc hd hT hE
    subst hp hc hd
    refine ⟨_, processCommand_exec_reports env p cmd s scriptPath hT hE, ?_⟩
    unfold buildReport
    split <;> rfl

/-- C2, amended, on the clean run that prints 4097 bytes. -/
theorem output_bounded_by_cap_marker_and_notice_witness :
    (fixedEnv longOutcome []).run 0 sampleExecutor.shell (goStr "/opt/apply.sh")
      (goStr "203.0.113.5/32") (goStr "alice-laptop") sampleExecutor.timeout = (longOutcome, 1) ∧
    (Execute (fixedEnv longOutcome []) sampleExecutor (goStr "/opt/apply.sh")
      (goStr "203.0.113.5/32") (goStr "alice-laptop") { world := 0, trace := [] }).1.Output.length ≤
      4096 + 16 :=
  ⟨rfl,
   (output_bounded_by_cap_marker_and_notice (fixedEnv longOutcome []) sampleExecutor
      (goStr "/opt/apply.sh") (goStr "203.0.113.5/32") (goStr "alice-laptop")
      { world := 0, trace := [] } longOutcome 1 rfl).2.1 (by decide) rfl⟩

/-- C3, refuted as stated: a run that exits with status 1 after printing 5000
bytes has a combined output longer than 4096, and its reported output is 4141
bytes long, not 4096 plus the 16 bytes of the marker. -/
theorem failed_truncated_output_is_longer :
    (combineOutput longFailOutcome.stdout longFailOutcome.stderr).length > 4096 ∧
    (Execute (fixedEnv longFailOutcome []) sampleExecutor (goStr "/opt/apply.sh")
      (goStr "203.0.113.5/32") (goStr "alice-laptop") { world := 0, trace := [] }).1.Output.length =
      4141 ∧
    (Execute (fixedEnv longFailOutcome []) sampleExecutor (goStr "/opt/apply.sh")
      (goStr "203.0.113.5/32") (goStr "alice-laptop") { world := 0, trace := [] }).1.Output.length ≠
      4096 + (goStr "\n... (truncated)").length := by
  have hc : combineOutput longFailOutcome.stdout longFailOutcome.stderr = longFailOutcome.stdout :=
    (combineOutput_cases _ _).1 rfl
  have hl : longFailOutcome.stdout.length = 5000 := List.length_replicate 5000 97
  have hm : (goStr "\n... (truncated)").length = 16 := rfl
  have h : (Execute (fixedEnv longFailOutcome []) sampleExecutor (goStr "/opt/apply.sh")
      (goStr "203.0.113.5/32") (goStr "alice-laptop")
      { world := 0, trace := [] }).1.Output.length = 4141 := by
    rw [Execute_result (fixedEnv longFailOutcome []) sampleExecutor (goStr "/opt/apply.sh")
      (goStr "203.0.113.5/32") (goStr "alice-laptop") { world := 0, trace := [] }
      longFailOutcome 1 rfl]
    rw [classify_failed _ _ _ _ (goStr "exit status 1") (by decide) rfl, hc,
      capOutput_of_long _ (by rw [hl]; decide)]
    simp only [List.length_append, List.length_take, hl, truncationMarker_length]
    rfl
  refine ⟨by rw [hc, hl]; decide, h, ?_⟩
  rw [h, hm]
  decide

/-- C3, amended: when the combined captured output is longer than 4096 bytes,
the output ends with the truncation marker for every outcome; its length is
exactly 4096 plus the 16 bytes of the marker on a success, and that plus the length
of the timeout or failure notice in front of it otherwise. -/
theorem truncated_output_ends_with_marker {σ : Type} (env : Env σ) (e : Executor)
    (scriptPath cidr description : GoString) (s : St σ) (o : RunOutcome) (w : σ)
    (hRun : env.run s.world e.shell scriptPath cidr description e.timeout = (o, w))
    (hLong : (combineOutput o.stdout o.stderr).length > 4096) :
    (goStr "\n... (truncated)").length = 16 ∧
    goStr "\n... (truncated)" <:+ (Execute env e scriptPath cidr description s).1.Output ∧
    (o.ctxErr ≠ some CtxError.DeadlineExceeded → o.err = none →
      (Execute env e scriptPath cidr description s).1.Output =
        (combineOutput o.stdout o.stderr).take 4096 ++ goStr "\n... (truncated)" ∧
      (Execute env e scriptPath cidr description s).1.Output.length =
        4096 + (goStr "\n... (truncated)").length) ∧
    (o.ctxErr = some CtxError.DeadlineExceeded →
      (Execute env e scriptPath cidr description s).1.Output.length =
        (goStr "Script timed out after " ++ env.durationString e.timeout ++ goStr "\n").length +
          (4096 + (goStr "\n... (truncated)").length)) ∧
    (∀ err : GoString, o.ctxErr ≠ some CtxError.DeadlineExceeded → o.err = some err →
      (Execute env e scriptPath cidr description s).1.Output.length =
        (goStr "Script failed: " ++ err ++ goStr "\n").length +
          (4096 + (goStr "\n... (truncated)").length)) := by
  have hm : goStr "\n... (truncated)" = truncationMarker := rfl
  have hCap : capOutput (combineOutput o.stdout o.stderr) =
      (combineOutput o.stdout o.stderr).take 4096 ++ truncationMarker :=
    capOutput_of_long _ hLong
  have hTake : ((combineOutput o.stdout o.stderr).take 4096).length = 4096 := by
    rw [List.length_take]
    omega
  rw [Execute_result env e scriptPath cidr description s o w hRun, hm, hCap]
  refine ⟨rfl, ?_, ?_, ?_, ?_⟩
  · by_cases hD : o.ctxErr = some CtxError.DeadlineExceeded
    · rw [classify_timeout _ _ _ _ hD]
      exact ⟨_ ++ List.take 4096 (combineOutput o.stdout o.stderr), List.append_assoc _ _ _⟩
    · cases hErr : o.err with
      | none =>
        rw [classify_clean _ _ _ _ hD hErr]
        exact List.suffix_append _ _
      | some err =>
        rw [classify_failed _ _ _ _ err hD hErr]
        exact ⟨_ ++ List.take 4096 (combineOutput o.stdout o.stderr), List.append_assoc _ _ _⟩
  · intro hD hErr
    rw [classify_clean _ _ _ _ hD hErr]
    exact ⟨rfl, by simp only [List.length_append, hTake]⟩
  · intro hD
    rw [classify_timeout _ _ _ _ hD]
    simp only [List.length_append, hTake]
  · intro err hD hErr
    rw [classify_failed _ _ _ _ err hD hErr]
    simp only [List.length_append, hTake]

/-- C3, amended, on the clean run that prints 4097 bytes. -/
theorem truncated_output_ends_with_marker_witness :
    (fixedEnv longOutcome []).run 0 sampleExecutor.shell (goStr "/opt/apply.sh")
      (goStr "203.0.113.5/32") (goStr "alice-laptop") sampleExecutor.timeout = (longOutcome, 1) ∧
    (combineOutput longOutcome.stdout longOutcome.stderr).length > 4096 ∧
    goStr "\n... (truncated)" <:+
      (Execute (fixedEnv longOutcome []) sampleExecutor (goStr "/opt/apply.sh")
        (goStr "203.0.113.5/32") (goStr "alice-laptop") { world := 0, trace := [] }).1.Output :=
  have hLong : (combineOutput longOutcome.stdout longOutcome.stderr).length > 4096 := by
    rw [(combineOutput_cases longOutcome.stdout longOutcome.stderr).1 rfl,
      show longOutcome.stdout.length = 4097 from List.length_replicate 4097 97]
    decide
  ⟨rfl, hLong,
   (truncated_output_ends_with_marker (fixedEnv longOutcome []) sampleExecutor
      (goStr "/opt/apply.sh") (goStr "203.0.113.5/32") (goStr "alice-laptop")
      { world := 0, trace := [] } longOutcome 1 rfl hLong).2.1⟩

/-! ## Dispatch of one command -/

/-- C8: for a command whose type is neither `APPLY` nor `REVOKE`,
`processCommand` starts no child process and sends exactly one report, for the
id of the command, with `Success = false`, the message `Unknown command type: `
followed by the type, and no `ProviderRuleID`. -/
theorem unknown_type_reported_without_spawn {σ : Type} (env : Env σ) (p : Poller)
    (cmd : Command) (s : St σ)
    (hA : cmd.CommandType ≠ goStr "APPLY") (hR : cmd.CommandType ≠ goStr "REVOKE") :
    spawns (processCommand env p cmd s).trace = spawns s.trace ∧
    reports (processCommand env p cmd s).trace =
      reports s.trace ++
        [(cmd.ID, { Success := false
                    ResultMessage := goStr "Unknown command type: " ++ cmd.CommandType
                    ProviderRuleID := goStr "" })] ∧
    (processCommand env p cmd s).trace =
      s.trace ++
        [Event.log (LogEntry.unknownCommandType cmd.CommandType cmd.ID),
         Event.report cmd.ID
          { Success := false
            ResultMessage := goStr "Unknown command type: " ++ cmd.CommandType
            ProviderRuleID := goStr "" }] := by
  rw [processCommand_unknown env p cmd s hA hR]
  refine ⟨?_, ?_, rfl⟩
  · simp [spawns_append, spawns]
  · simp [reports_append, reports, goStr_empty]

/-- C8 on the lower-case spelling and on the empty type. -/
theorem unknown_type_reported_without_spawn_witness :
    (reports (processCommand (fixedEnv okOutcome []) samplePoller (sampleCommand "c2" "apply")
      { world := 0, trace := [] }).trace =
      [(goStr "c2", { Success := false
                      ResultMessage := goStr "Unknown command type: apply"
                      ProviderRuleID := goStr "" })] ∧
     spawns (processCommand (fixedEnv okOutcome []) samplePoller (sampleCommand "c2" "apply")
      { world := 0, trace := [] }).trace = []) ∧
    reports (processCommand (fixedEnv okOutcome []) samplePoller (sampleCommand "c3" "")
      { world := 0, trace := [] }).trace =
      [(goStr "c3", { Success := false
                      ResultMessage := goStr "Unknown command type: "
                      ProviderRuleID := goStr "" })] :=
  ⟨⟨(unknown_type_reported_without_spawn (fixedEnv okOutcome []) samplePoller
      (sampleCommand "c2" "apply") { world := 0, trace := [] } (by decide) (by decide)).2.1,
    (unknown_type_reported_without_spawn (fixedEnv okOutcome []) samplePoller
      (sampleCommand "c2" "apply") { world := 0, trace := [] } (by decide) (by decide)).1⟩,
   (unknown_type_reported_without_spawn (fixedEnv okOutcome []) samplePoller
      (sampleCommand "c3" "") { world := 0, trace := [] } (by decide) (by decide)).2.1⟩

/-- C9: for a command of type `APPLY` or `REVOKE` whose configured script path
is empty, `processCommand` starts no child process and sends exactly one
report, for the id of the command, with `Success = false`, the message
`No script configured for ` followed by the type, and no `ProviderRuleID`. -/
theorem missing_script_reported_without_spawn {σ : Type} (env : Env σ) (p : Poller)
    (cmd : Command) (s : St σ)
    (hT : (cmd.CommandType = goStr "APPLY" ∧ p.scripts.Apply = goStr "") ∨
      (cmd.CommandType = goStr "REVOKE" ∧ p.scripts.Revoke = goStr "")) :
    spawns (processCommand env p cmd s).trace = spawns s.trace ∧
    reports (processCommand env p cmd s).trace =
      reports s.trace ++
        [(cmd.ID, { Success := false
                    ResultMessage := goStr "No script configured for " ++ cmd.CommandType
                    ProviderRuleID := goStr "" })] ∧
    (processCommand env p cmd s).trace =
      s.trace ++
        [Event.log (LogEntry.noScriptConfigured cmd.CommandType cmd.ID),
         Event.report cmd.ID
          { Success := false
            ResultMessage := goStr "No script configured for " ++ cmd.CommandType
            ProviderRuleID := goStr "" }] := by
  have hEq : processCommand env p cmd s =
      { world := (env.ReportResult s.world cmd.ID
          { Success := false
            ResultMessage := goStr "No script configured for " ++ cmd.CommandType }).2
        trace := s.trace ++
          [Event.log (LogEntry.noScriptConfigured cmd.CommandType cmd.ID),
           Event.report cmd.ID
            { Success := false
              ResultMessage := goStr "No script configured for " ++ cmd.CommandType }] } := by
    rcases hT with ⟨hT, hE⟩ | ⟨hT, hE⟩
    · exact processCommand_noScript env p cmd s _ (Or.inl ⟨hT, rfl⟩) hE
    · exact processCommand_noScript env p cmd s _ (Or.inr ⟨hT, rfl⟩) hE
  rw [hEq]
  refine ⟨?_, ?_, rfl⟩
  · simp [spawns_append, spawns]
  · simp [reports_append, reports, goStr_empty]

/-- C9 on an `APPLY` and a `REVOKE` command with no script configured. -/
theorem missing_script_reported_without_spawn_witness :
    reports (processCommand (fixedEnv okOutcome []) barePoller (sampleCommand "c1" "APPLY")
      { world := 0, trace := [] }).trace =
      [(goStr "c1", { Success := false
                      ResultMessage := goStr "No script configured for APPLY"
                      ProviderRuleID := goStr "" })] ∧
    spawns (processCommand (fixedEnv okOutcome []) barePoller (sampleCommand "c4" "REVOKE")
      { world := 0, trace := [] }).trace = [] :=
  ⟨(missing_script_reported_without_spawn (fixedEnv okOutcome []) barePoller
      (sampleCommand "c1" "APPLY") { world := 0, trace := [] } (Or.inl ⟨rfl, rfl⟩)).2.1,
   (missing_script_reported_without_spawn (fixedEnv okOutcome []) barePoller
      (sampleCommand "c4" "REVOKE") { world := 0, trace := [] } (Or.inr ⟨rfl, rfl⟩)).1⟩

/-- C10: for a command of type `APPLY` (resp. `REVOKE`) whose configured apply
(resp. revoke) script path is non-empty, `processCommand` starts exactly one
child process: the configured shell on that script path, with the CIDR of the
command as first argument and its Description as second. No other script path is
run for the command. -/
theorem known_type_runs_its_script_once {σ : Type} (env : Env σ) (p : Poller)
    (cmd : Command) (s : St σ) (scriptPath : GoString)
    (hT : (cmd.CommandType = goStr "APPLY" ∧ scriptPath = p.scripts.Apply) ∨
      (cmd.CommandType = goStr "REVOKE" ∧ scriptPath = p.scripts.Revoke))
    (hE : scriptPath ≠ goStr "") :
    spawns (processCommand env p cmd s).trace =
      spawns s.trace ++ [(p.executor.shell, scriptPath, cmd.CIDR, cmd.Description)] ∧
    spawns (processCommand env p cmd { world := s.world, trace := [] }).trace =
      [(p.executor.shell, scriptPath, cmd.CIDR, cmd.Description)] ∧
    ∀ other : GoString, other ≠ scriptPath →
      ∀ x ∈ spawns (processCommand env p cmd { world := s.world, trace := [] }).trace,
        x.2.1 ≠ other := by
  have hSp : ∀ s0 : St σ, spawns (processCommand env p cmd s0).trace =
      spawns s0.trace ++ [(p.executor.shell, scriptPath, cmd.CIDR, cmd.Description)] := by
    intro s0
    rw [processCommand_exec env p cmd s0 scriptPath hT hE _ _ rfl]
    simp only [spawns_append]
    split <;> split <;> simp [spawns]
  refine ⟨hSp s, by simpa [spawns] using hSp { world := s.world, trace := [] }, ?_⟩
  intro other hO x hx
  rw [hSp { world := s.world, trace := [] }] at hx
  simp only [spawns, List.nil_append, List.mem_singleton] at hx
  subst hx
  exact fun h => hO h.symm

/-- C10 on an `APPLY` and a `REVOKE` command with both scripts configured. -/
theorem known_type_runs_its_script_once_witness :
    spawns (processCommand (fixedEnv okOutcome []) samplePoller (sampleCommand "c1" "APPLY")
      { world := 0, trace := [] }).trace =
      [(goStr "/bin/bash", goStr "/opt/apply.sh", goStr "203.0.113.5/32",
        goStr "alice-laptop")] ∧
    spawns (processCommand (fixedEnv okOutcome []) samplePoller (sampleCommand "c4" "REVOKE")
      { world := 0, trace := [] }).trace =
      [(goStr "/bin/bash", goStr "/opt/revoke.sh", goStr "203.0.113.5/32",
        goStr "alice-laptop")] :=
  ⟨(known_type_runs_its_script_once (fixedEnv okOutcome []) samplePoller
      (sampleCommand "c1" "APPLY") { world := 0, trace := [] } (goStr "/opt/apply.sh")
      (Or.inl ⟨rfl, rfl⟩) (by decide)).2.1,
   (known_type_runs_its_script_once (fixedEnv okOutcome []) samplePoller
      (sampleCommand "c4" "REVOKE") { world := 0, trace := [] } (goStr "/opt/revoke.sh")
      (Or.inr ⟨rfl, rfl⟩) (by decide)).2.1⟩

/-! ## Reports -/

/-- Whatever the branch taken, `processCommand` sends exactly one report, for
the id of the command. -/
theorem processCommand_reports_one {σ : Type} (env : Env σ) (p : Poller) (cmd : Command)
    (s : St σ) :
    ∃ req : CommandResultRequest,
      reports (processCommand env p cmd s).trace = reports s.trace ++ [(cmd.ID, req)] := by
  by_cases hA : cmd.CommandType = goStr "APPLY"
  · by_cases hE : p.scripts.Apply = goStr ""
    · rw [processCommand_noScript env p cmd s _ (Or.inl ⟨hA, rfl⟩) hE]
      exact ⟨_, by simp only [reports_append, reports]; rfl⟩
    · exact ⟨_, processCommand_exec_reports env p cmd s _ (Or.inl ⟨hA, rfl⟩) hE⟩
  · by_cases hR : cmd.CommandType = goStr "REVOKE"
    · by_cases hE : p.scripts.Revoke = goStr ""
      · rw [processCommand_noScript env p cmd s _ (Or.inr ⟨hR, rfl⟩) hE]
        exact ⟨_, by simp only [reports_append, reports]; rfl⟩
      · exact ⟨_, processCommand_exec_reports env p cmd s _ (Or.inr ⟨hR, rfl⟩) hE⟩
    · rw [processCommand_unknown env p cmd s hA hR]
      exact ⟨_, by simp only [reports_append, reports]; rfl⟩

/-- Whatever the branch taken, `processCommand` starts at most one child
process. -/
theorem processCommand_spawns_le_one {σ : Type} (env : Env σ) (p : Poller) (cmd : Command)
    (s : St σ) :
    (spawns (processCommand env p cmd s).trace).length ≤ (spawns s.trace).length + 1 := by
  have hExec : ∀ scriptPath : GoString,
      ((cmd.CommandType = goStr "APPLY" ∧ scriptPath = p.scripts.Apply) ∨
        (cmd.CommandType = goStr "REVOKE" ∧ scriptPath = p.scripts.Revoke)) →
      scriptPath ≠ goStr "" →
      (spawns (processCommand env p cmd s).trace).length ≤ (spawns s.trace).length + 1 := by
    intro scriptPath hT hE
    rw [processCommand_exec env p cmd s scriptPath hT hE _ _ rfl]
    simp only [spawns_append]
    split <;> split <;> simp [spawns]
  by_cases hA : cmd.CommandType = goStr "APPLY"
  · by_cases hE : p.scripts.Apply = goStr ""
    · rw [processCommand_noScript env p cmd s _ (Or.inl ⟨hA, rfl⟩) hE]
      simp [spawns_append, spawns]
    · exact hExec _ (Or.inl ⟨hA, rfl⟩) hE
  · by_cases hR : cmd.CommandType = goStr "REVOKE"
    · by_cases hE : p.scripts.Revoke = goStr ""
      · rw [processCommand_noScript env p cmd s _ (Or.inr ⟨hR, rfl⟩) hE]
        simp [spawns_append, spawns]
      · exact hExec _ (Or.inr ⟨hR, rfl⟩) hE
    · rw [processCommand_unknown env p cmd s hA hR]
      simp [spawns_append, spawns]

/-- C11: for a command that is executed by the script runner, the one report
sent carries the `Success` and the `Output` of the execution result, and its
`ProviderRuleID` is `agent-` followed by the command id on a success and empty
on a failure. -/
theorem report_mirrors_execution_result {σ : Type} (env : Env σ) (p : Poller)
    (cmd : Command) (s : St σ) (scriptPath : GoString)
    (hT : (cmd.CommandType = goStr "APPLY" ∧ scriptPath = p.scripts.Apply) ∨
      (cmd.CommandType = goStr "REVOKE" ∧ scriptPath = p.scripts.Revoke))
    (hE : scriptPath ≠ goStr "") :
    ∃ req : CommandResultRequest,
      reports (processCommand env p cmd s).trace = reports s.trace ++ [(cmd.ID, req)] ∧
      req.Success = (Execute env p.executor scriptPath cmd.CIDR cmd.Description s).1.Success ∧
      req.ResultMessage =
        (Execute env p.executor scriptPath cmd.CIDR cmd.Description s).1.Output ∧
      ((Execute env p.executor scriptPath cmd.CIDR cmd.Description s).1.Success = true →
        req.ProviderRuleID = goStr "agent-" ++ cmd.ID) ∧
      ((Execute env p.executor scriptPath cmd.CIDR cmd.Description s).1.Success = false →
        req.ProviderRuleID = goStr "") := by
  refine ⟨_, processCommand_exec_reports env p cmd s scriptPath hT hE, ?_, ?_, ?_, ?_⟩
  · unfold buildReport
    split <;> rfl
  · unfold buildReport
    split <;> rfl
  · intro hS
    simp [buildReport, hS]
  · intro hS
    simp [buildReport, hS, goStr_empty]

/-- C11 on the command `c1` of type `APPLY` with a clean run that prints
nothing. -/
theorem report_mirrors_execution_result_witness :
    ∃ req : CommandResultRequest,
      reports (processCommand (fixedEnv emptyOutcome []) samplePoller (sampleCommand "c1" "APPLY")
        { world := 0, trace := [] }).trace = [(goStr "c1", req)] ∧
      req = { Success := true, ResultMessage := goStr "", ProviderRuleID := goStr "agent-c1" } := by
  obtain ⟨req, hRep, hS, hM, hId, _⟩ :=
    report_mirrors_execution_result (fixedEnv emptyOutcome []) samplePoller
      (sampleCommand "c1" "APPLY") { world := 0, trace := [] } (goStr "/opt/apply.sh")
      (Or.inl ⟨rfl, rfl⟩) (by decide)
  refine ⟨req, hRep, ?_⟩
  have hSucc : (Execute (fixedEnv emptyOutcome []) samplePoller.executor (goStr "/opt/apply.sh")
      (sampleCommand "c1" "APPLY").CIDR (sampleCommand "c1" "APPLY").Description
      { world := 0, trace := [] }).1.Success = true := rfl
  have hOut : (Execute (fixedEnv emptyOutcome []) samplePoller.executor (goStr "/opt/apply.sh")
      (sampleCommand "c1" "APPLY").CIDR (sampleCommand "c1" "APPLY").Description
      { world := 0, trace := [] }).1.Output = goStr "" := rfl
  obtain ⟨a, b, c⟩ := req
  simp only at hS hM hId
  rw [hSucc] at hS
  rw [hOut] at hM
  have hI := hId hSucc
  subst hS hM hI
  rfl

/-- The trace of `poll` on a successful `PollCommands`. -/
theorem poll_ok_trace {σ : Type} (env : Env σ) (p : Poller) (s : St σ)
    (commands : List Command) (w : σ)
    (hPoll : env.PollCommands s.world = (Except.ok commands, w)) :
    (poll env p s).trace =
      s.trace ++ [Event.poll] ++ (commandTraces env p commands w).flatten := by
  simp only [poll, PollCommands, hPoll]
  rw [dispatch_trace]

/-- Each per-command trace of a batch holds exactly one report, for the id of
its command, and at most one child process. -/
theorem commandTraces_one_report_each {σ : Type} (env : Env σ) (p : Poller)
    (commands : List Command) (w : σ) :
    (commandTraces env p commands w).map (fun t => (reports t).map Prod.fst) =
      commands.map (fun cmd => [cmd.ID]) ∧
    ∀ t ∈ commandTraces env p commands w, (spawns t).length ≤ 1 := by
  induction commands generalizing w with
  | nil => simp [commandTraces]
  | cons cmd rest ih =>
    obtain ⟨req, hReq⟩ := processCommand_reports_one env p cmd { world := w, trace := [] }
    have hSp := processCommand_spawns_le_one env p cmd { world := w, trace := [] }
    obtain ⟨ih1, ih2⟩ := ih (processCommand env p cmd { world := w, trace := [] }).world
    refine ⟨?_, ?_⟩
    · simp only [commandTraces, List.map_cons, ih1, hReq]
      simp [reports]
    · intro t ht
      simp only [commandTraces, List.mem_cons] at ht
      rcases ht with ht | ht
      · subst ht
        simpa [spawns] using hSp
      · exact ih2 t ht

theorem flatten_map_singleton {α β : Type} (f : α → β) (l : List α) :
    (l.map (fun a => [f a])).flatten = l.map f := by
  induction l with
  | nil => rfl
  | cons a t ih => simp [ih]

theorem length_flatten_le {α : Type} (ts : List (List α)) (h : ∀ t ∈ ts, t.length ≤ 1) :
    ts.flatten.length ≤ ts.length := by
  induction ts with
  | nil => simp
  | cons t rest ih =>
    have h1 := h t (List.mem_cons_self _ _)
    have h2 := ih (fun u hu => h u (List.mem_cons_of_mem _ hu))
    simp only [List.flatten_cons, List.length_append, List.length_cons]
    omega

/-- C12: whatever the command sink answers, `poll` on a batch makes exactly
one report attempt per command, addressed to the id of that command and in
batch order, and starts at most one child process per command: the per-command
trace of every command holds one report and at most one child process, so no
command is dropped, reported twice or executed twice, and a failed send does
not stop the commands after it. -/
theorem one_report_attempt_per_command {σ : Type} (env : Env σ) (p : Poller) (s : St σ)
    (commands : List Command) (w : σ)
    (hPoll : env.PollCommands s.world = (Except.ok commands, w)) :
    (reports (poll env p s).trace).map Prod.fst =
      (reports s.trace).map Prod.fst ++ commands.map Command.ID ∧
    (commandTraces env p commands w).length = commands.length ∧
    (commandTraces env p commands w).map (fun t => (reports t).map Prod.fst) =
      commands.map (fun cmd => [cmd.ID]) ∧
    (∀ t ∈ commandTraces env p commands w, (spawns t).length ≤ 1) ∧
    (spawns (poll env p s).trace).length ≤ (spawns s.trace).length + commands.length := by
  obtain ⟨hIds, hSp⟩ := commandTraces_one_report_each env p commands w
  have hTrace := poll_ok_trace env p s commands w hPoll
  refine ⟨?_, commandTraces_length env p commands w, hIds, hSp, ?_⟩
  · rw [hTrace, reports_append, reports_append, reports_flatten]
    simp only [reports, List.append_nil, List.map_append, List.map_flatten, List.map_map]
    have hComp : (commandTraces env p commands w).map (List.map Prod.fst ∘ reports) =
        commands.map (fun cmd => [cmd.ID]) := hIds
    rw [hComp, flatten_map_singleton]
  · rw [hTrace, spawns_append, spawns_append, spawns_flatten]
    have hLe : ((commandTraces env p commands w).map spawns).flatten.length ≤
        ((commandTraces env p commands w).map spawns).length := by
      apply length_flatten_le
      intro t ht
      obtain ⟨u, hu, rfl⟩ := List.mem_map.mp ht
      exact hSp u hu
    rw [List.length_map, commandTraces_length] at hLe
    simp only [spawns, List.append_nil, List.length_append]
    omega

/-- C12 on a batch of three commands whose reports are all refused. -/
theorem one_report_attempt_per_command_witness :
    (failingSinkEnv okOutcome
      [sampleCommand "c1" "APPLY", sampleCommand "c2" "apply", sampleCommand "c3" "REVOKE"]).PollCommands
        0 =
      (Except.ok [sampleCommand "c1" "APPLY", sampleCommand "c2" "apply",
        sampleCommand "c3" "REVOKE"], 1) ∧
    (reports (poll (failingSinkEnv okOutcome
      [sampleCommand "c1" "APPLY", sampleCommand "c2" "apply", sampleCommand "c3" "REVOKE"])
      samplePoller { world := 0, trace := [] }).trace).map Prod.fst =
      [goStr "c1", goStr "c2", goStr "c3"] :=
  ⟨rfl,
   (one_report_attempt_per_command (failingSinkEnv okOutcome
      [sampleCommand "c1" "APPLY", sampleCommand "c2" "apply", sampleCommand "c3" "REVOKE"])
      samplePoller { world := 0, trace := [] } _ 1 rfl).1⟩

/-- C13, at commands whose report the sink refuses: for a command of unknown
type and for a command whose script is not configured, `processCommand` sends
the report, drops the error that `ReportResult` returns and logs nothing about
it, while on the executing path the same failure is logged. -/
theorem failed_report_logged_only_on_executing_path :
    ((failingSinkEnv okOutcome []).ReportResult 0 (goStr "c2")
      { Success := false, ResultMessage := goStr "Unknown command type: apply" }).1 =
      some (goStr "request failed: connection refused") ∧
    (processCommand (failingSinkEnv okOutcome []) samplePoller (sampleCommand "c2" "apply")
      { world := 0, trace := [] }).trace =
      [Event.log (LogEntry.unknownCommandType (goStr "apply") (goStr "c2")),
       Event.report (goStr "c2")
        { Success := false, ResultMessage := goStr "Unknown command type: apply" }] ∧
    reportFailures (processCommand (failingSinkEnv okOutcome []) samplePoller
      (sampleCommand "c2" "apply") { world := 0, trace := [] }).trace = [] ∧
    (processCommand (failingSinkEnv okOutcome []) barePoller (sampleCommand "c1" "APPLY")
      { world := 0, trace := [] }).trace =
      [Event.log (LogEntry.noScriptConfigured (goStr "APPLY") (goStr "c1")),
       Event.report (goStr "c1")
        { Success := false, ResultMessage := goStr "No script configured for APPLY" }] ∧
    reportFailures (processCommand (failingSinkEnv okOutcome []) barePoller
      (sampleCommand "c1" "APPLY") { world := 0, trace := [] }).trace = [] ∧
    reportFailures (processCommand (failingSinkEnv okOutcome []) samplePoller
      (sampleCommand "c1" "APPLY") { world := 0, trace := [] }).trace =
      [(goStr "c1", goStr "request failed: connection refused")] := by
  refine ⟨rfl, ?_, ?_, ?_, ?_, ?_⟩ <;> decide

/-! ## Polling rounds -/

theorem polls_append (a b : List Event) : polls (a ++ b) = polls a + polls b := by
  induction a with
  | nil => simp [polls]
  | cons x t ih =>
    cases x <;> simp [polls, ih]
    omega

/-- The method `processCommand` never calls `PollCommands`. -/
theorem processCommand_polls {σ : Type} (env : Env σ) (p : Poller) (cmd : Command) (s : St σ) :
    polls (processCommand env p cmd s).trace = polls s.trace := by
  have hExec : ∀ scriptPath : GoString,
      ((cmd.CommandType = goStr "APPLY" ∧ scriptPath = p.scripts.Apply) ∨
        (cmd.CommandType = goStr "REVOKE" ∧ scriptPath = p.scripts.Revoke)) →
      scriptPath ≠ goStr "" →
      polls (processCommand env p cmd s).trace = polls s.trace := by
    intro scriptPath hT hE
    rw [processCommand_exec env p cmd s scriptPath hT hE _ _ rfl]
    simp only [polls_append]
    split <;> split <;> simp [polls]
  by_cases hA : cmd.CommandType = goStr "APPLY"
  · by_cases hE : p.scripts.Apply = goStr ""
    · rw [processCommand_noScript env p cmd s _ (Or.inl ⟨hA, rfl⟩) hE]
      simp [polls_append, polls]
    · exact hExec _ (Or.inl ⟨hA, rfl⟩) hE
  · by_cases hR : cmd.CommandType = goStr "REVOKE"
    · by_cases hE : p.scripts.Revoke = goStr ""
      · rw [processCommand_noScript env p cmd s _ (Or.inr ⟨hR, rfl⟩) hE]
        simp [polls_append, polls]
      · exact hExec _ (Or.inr ⟨hR, rfl⟩) hE
    · rw [processCommand_unknown env p cmd s hA hR]
      simp [polls_append, polls]

theorem dispatch_polls {σ : Type} (env : Env σ) (p : Poller) (commands : List Command)
    (s : St σ) :
    polls (commands.foldl (fun s cmd => processCommand env p cmd s) s).trace = polls s.trace := by
  induction commands generalizing s with
  | nil => rfl
  | cons cmd rest ih => rw [List.foldl_cons, ih, processCommand_polls]

/-- The trace of `poll` when `PollCommands` fails. -/
theorem poll_error {σ : Type} (env : Env σ) (p : Poller) (s : St σ) (err : GoString) (w : σ)
    (hPoll : env.PollCommands s.world = (Except.error err, w)) :
    poll env p s =
      { world := w
        trace := s.trace ++ [Event.poll, Event.log (LogEntry.pollFailed err)] } := by
  simp [poll, PollCommands, hPoll, logPrintf]

/-- One call of `poll` is one call of `PollCommands`. -/
theorem poll_polls_once {σ : Type} (env : Env σ) (p : Poller) (s : St σ) :
    polls (poll env p s).trace = polls s.trace + 1 := by
  cases hPoll : env.PollCommands s.world with
  | mk r w =>
    cases r with
    | error err =>
      rw [poll_error env p s err w hPoll]
      simp [polls_append, polls]
    | ok commands =>
      simp only [poll, PollCommands, hPoll]
      rw [dispatch_polls]
      simp [polls_append, polls]

/-- C14: when `PollCommands` returns an error, `poll` calls it once, logs the
failure and returns: no child process, no report, no second call; the loop of
`Run` goes on with its next select case from the state so reached. The three
failures named (transport failure, status outside 200-299, body that does not
parse) each make `PollCommands` return an error. -/
theorem failed_poll_is_an_empty_round {σ : Type} (env : Env σ) (p : Poller) (s : St σ)
    (err : GoString) (w : σ)
    (hPoll : env.PollCommands s.world = (Except.error err, w)) :
    poll env p s =
      { world := w
        trace := s.trace ++ [Event.poll, Event.log (LogEntry.pollFailed err)] } ∧
    spawns (poll env p s).trace = spawns s.trace ∧
    reports (poll env p s).trace = reports s.trace ∧
    polls (poll env p s).trace = polls s.trace + 1 ∧
    (∀ rest : List SelectCase,
      (runLoop env p (SelectCase.tick :: rest) s).status =
        (runLoop env p rest
          { world := w
            trace := s.trace ++ [Event.poll, Event.log (LogEntry.pollFailed err)] }).status ∧
      (runLoop env p (SelectCase.tick :: rest) s).st =
        (runLoop env p rest
          { world := w
            trace := s.trace ++ [Event.poll, Event.log (LogEntry.pollFailed err)] }).st) ∧
    (∀ (itoa : Int → GoString) (unmarshal : GoString → Except GoString (List Command)),
      (∀ e : GoString, Client.PollCommands itoa unmarshal (Exchange.transportError e) =
        Except.error (goStr "request failed: " ++ e)) ∧
      (∀ (status : Int) (body : GoString), status < 200 ∨ status ≥ 300 →
        Client.PollCommands itoa unmarshal (Exchange.response status body) =
          Except.error (goStr "API error (HTTP " ++ itoa status ++ goStr "): " ++ body)) ∧
      (∀ (status : Int) (body e : GoString), 200 ≤ status → status < 300 →
        body ≠ goStr "" → unmarshal body = Except.error e →
        Client.PollCommands itoa unmarshal (Exchange.response status body) =
          Except.error (goStr "failed to parse response: " ++ e))) := by
  have hEq := poll_error env p s err w hPoll
  refine ⟨hEq, ?_, ?_, poll_polls_once env p s, ?_, ?_⟩
  · rw [hEq]
    simp [spawns_append, spawns]
  · rw [hEq]
    simp [reports_append, reports]
  · intro rest
    simp only [runLoop, hEq, and_self]
  · intro itoa unmarshal
    refine ⟨fun e => rfl, ?_, ?_⟩
    · intro status body h
      simp [Client.PollCommands, Client.doJSON, h]
    · intro status body e h1 h2 hb hu
      have hn : ¬ (status < 200 ∨ status ≥ 300) := by omega
      have hl : body.length > 0 := by
        cases body with
        | nil => exact absurd rfl hb
        | cons x t => simp
      simp [Client.PollCommands, Client.doJSON, hn, hl, hu]

/-- C14 on a command source that answers with status 503. -/
theorem failed_poll_is_an_empty_round_witness :
    unavailableEnv.PollCommands 0 =
      (Except.error (goStr "API error (HTTP 503): unavailable"), 1) ∧
    poll unavailableEnv samplePoller { world := 0, trace := [] } =
      { world := 1
        trace := [] ++ [Event.poll,
          Event.log (LogEntry.pollFailed (goStr "API error (HTTP 503): unavailable"))] } :=
  ⟨rfl,
   (failed_poll_is_an_empty_round unavailableEnv samplePoller { world := 0, trace := [] }
      (goStr "API error (HTTP 503): unavailable") 1 rfl).1⟩

/-! ## The loop of Run -/

/-- The method `poll` only appends to the trace. -/
theorem poll_extends {σ : Type} (env : Env σ) (p : Poller) (s : St σ) :
    ∃ t : List Event, (poll env p s).trace = s.trace ++ t := by
  cases hPoll : env.PollCommands s.world with
  | mk r w =>
    cases r with
    | error err => exact ⟨_, by rw [poll_error env p s err w hPoll]⟩
    | ok commands =>
      exact ⟨_, by rw [poll_ok_trace env p s commands w hPoll, List.append_assoc]⟩

theorem runLoop_extends {σ : Type} (env : Env σ) (p : Poller) (cases : List SelectCase)
    (s : St σ) : ∃ t : List Event, (runLoop env p cases s).st.trace = s.trace ++ t := by
  induction cases generalizing s with
  | nil => exact ⟨[], by simp [runLoop]⟩
  | cons c rest ih =>
    cases c with
    | tick =>
      obtain ⟨t1, h1⟩ := poll_extends env p s
      obtain ⟨t2, h2⟩ := ih (poll env p s)
      exact ⟨t1 ++ t2, by simp only [runLoop, h2, h1, List.append_assoc]⟩
    | stop => exact ⟨[Event.log LogEntry.pollerStopped], by simp only [runLoop, logPrintf]⟩

theorem runLoop_tick {σ : Type} (env : Env σ) (p : Poller) (rest : List SelectCase) (s : St σ) :
    runLoop env p (SelectCase.tick :: rest) s =
      { status := (runLoop env p rest (poll env p s)).status
        observed := SelectCase.tick :: (runLoop env p rest (poll env p s)).observed
        st := (runLoop env p rest (poll env p s)).st } := rfl

theorem replicate_succ_append {α : Type} (n : Nat) (a : α) (l : List α) :
    List.replicate (n + 1) a ++ l = a :: (List.replicate n a ++ l) := by
  simp [List.replicate_succ]

/-- The loop of `Run` on `n` ticks followed by the stop case: it returns after
`n` polls, and the cases after the stop case play no part. -/
theorem runLoop_ticks_stop {σ : Type} (env : Env σ) (p : Poller) (n : Nat)
    (rest : List SelectCase) (s : St σ) :
    (runLoop env p (List.replicate n SelectCase.tick ++ SelectCase.stop :: rest) s).status =
      LoopStatus.returned ∧
    (runLoop env p (List.replicate n SelectCase.tick ++ SelectCase.stop :: rest) s).observed =
      List.replicate n SelectCase.tick ++ [SelectCase.stop] ∧
    polls (runLoop env p
      (List.replicate n SelectCase.tick ++ SelectCase.stop :: rest) s).st.trace =
      polls s.trace + n ∧
    runLoop env p (List.replicate n SelectCase.tick ++ SelectCase.stop :: rest) s =
      runLoop env p (List.replicate n SelectCase.tick ++ [SelectCase.stop]) s := by
  induction n generalizing s with
  | zero => simp [runLoop, logPrintf, polls_append, polls]
  | succ n ih =>
    obtain ⟨h1, h2, h3, h4⟩ := ih (poll env p s)
    have hP := poll_polls_once env p s
    rw [replicate_succ_append, replicate_succ_append, runLoop_tick, runLoop_tick, ← h4]
    refine ⟨h1, by rw [h2], ?_, rfl⟩
    show polls (runLoop env p _ (poll env p s)).st.trace = _
    rw [h3, hP]
    omega

/-- The loop of `Run` has observed `n` ticks and then the stop case only when
these are the first cases its `select` takes. -/
theorem runLoop_observed_stop {σ : Type} (env : Env σ) (p : Poller) (cases : List SelectCase)
    (s : St σ) (n : Nat)
    (h : (runLoop env p cases s).observed = List.replicate n SelectCase.tick ++ [SelectCase.stop]) :
    ∃ rest : List SelectCase, cases = List.replicate n SelectCase.tick ++ SelectCase.stop :: rest := by
  induction cases generalizing s n with
  | nil =>
    cases n <;> simp [runLoop, List.replicate_succ] at h
  | cons c rest ih =>
    cases c with
    | tick =>
      cases n with
      | zero => simp [runLoop] at h
      | succ n =>
        simp only [runLoop, List.replicate_succ, List.cons_append, List.cons.injEq,
          true_and] at h
        obtain ⟨rest2, h2⟩ := ih (poll env p s) n h
        exact ⟨rest2, by simp [List.replicate_succ, h2]⟩
    | stop =>
      cases n with
      | zero => exact ⟨rest, rfl⟩
      | succ n => simp [runLoop, List.replicate_succ] at h

/-- The loop of `Run` that is blocked in its `select` after `n` ticks has
polled `n` times. -/
theorem runLoop_waiting {σ : Type} (env : Env σ) (p : Poller) (cases : List SelectCase)
    (s : St σ) (n : Nat)
    (hS : (runLoop env p cases s).status = LoopStatus.waiting)
    (h : (runLoop env p cases s).observed = List.replicate n SelectCase.tick) :
    polls (runLoop env p cases s).st.trace = polls s.trace + n := by
  induction cases generalizing s n with
  | nil =>
    cases n with
    | zero => simp [runLoop]
    | succ n => simp [runLoop, List.replicate_succ] at h
  | cons c rest ih =>
    cases c with
    | tick =>
      cases n with
      | zero => simp [runLoop] at h
      | succ n =>
        simp only [runLoop, List.replicate_succ, List.cons.injEq, true_and] at h hS
        simp only [runLoop]
        rw [ih (poll env p s) n hS h, poll_polls_once]
        omega
    | stop => simp [runLoop] at hS

/-- The method `Run` with a positive interval is the loop after the start log
line and the startup poll. -/
theorem Run_of_pos {σ : Type} (env : Env σ) (p : Poller) (cases : List SelectCase) (s : St σ)
    (hI : 0 < p.interval) :
    Run env p cases s =
      runLoop env p cases (poll env p (logPrintf (LogEntry.pollerStarting p.interval) s)) := by
  have : ¬ p.interval ≤ 0 := Int.not_le.mpr hI
  simp [Run, this]

/-- The method `Run` with an interval that is not positive panics in
`time.NewTicker`, before any poll. -/
theorem Run_of_nonpos {σ : Type} (env : Env σ) (p : Poller) (cases : List SelectCase) (s : St σ)
    (hI : p.interval ≤ 0) :
    Run env p cases s =
      { status := LoopStatus.panicked, observed := []
        st := logPrintf (LogEntry.pollerStarting p.interval) s } := by
  simp [Run, hI]

/-- C16: a `Run` that observes `n` ticks and then the stop signal returns and
has performed exactly `n + 1` polls, whatever its `select` could have taken
after the stop signal; a `Run` that is waiting in its `select` after `n` ticks
has performed `n + 1` polls; the first of them is the startup poll, which comes
right after the start log line and before any select case is taken. -/
theorem run_polls_at_startup_and_once_per_tick {σ : Type} (env : Env σ) (p : Poller)
    (cases : List SelectCase) (s : St σ) (n : Nat) :
    ((Run env p cases s).observed = List.replicate n SelectCase.tick ++ [SelectCase.stop] →
      (Run env p cases s).status = LoopStatus.returned ∧
      polls (Run env p cases s).st.trace = polls s.trace + (n + 1) ∧
      (∃ rest : List SelectCase,
        cases = List.replicate n SelectCase.tick ++ SelectCase.stop :: rest) ∧
      ∀ more : List SelectCase,
        Run env p (List.replicate n SelectCase.tick ++ SelectCase.stop :: more) s =
          Run env p cases s) ∧
    ((Run env p cases s).status = LoopStatus.waiting →
      (Run env p cases s).observed = List.replicate n SelectCase.tick →
      polls (Run env p cases s).st.trace = polls s.trace + (n + 1)) ∧
    ((Run env p cases s).status ≠ LoopStatus.panicked →
      ∃ t : List Event,
        (Run env p cases s).st.trace =
          (poll env p (logPrintf (LogEntry.pollerStarting p.interval) s)).trace ++ t ∧
        polls (poll env p (logPrintf (LogEntry.pollerStarting p.interval) s)).trace =
          polls s.trace + 1) := by
  have hStart : polls (poll env p (logPrintf (LogEntry.pollerStarting p.interval) s)).trace =
      polls s.trace + 1 := by
    rw [poll_polls_once]
    simp [logPrintf, polls_append, polls]
  by_cases hI : p.interval ≤ 0
  · rw [Run_of_nonpos env p cases s hI]
    refine ⟨?_, ?_, ?_⟩
    · intro h
      cases n <;> simp [List.replicate_succ] at h
    · intro h
      simp at h
    · intro h
      simp at h
  · have hPos : 0 < p.interval := Int.not_le.mp hI
    rw [Run_of_pos env p cases s hPos]
    refine ⟨?_, ?_, ?_⟩
    · intro hObs
      obtain ⟨rest, hRest⟩ := runLoop_observed_stop env p cases _ n hObs
      subst hRest
      obtain ⟨h1, _, h3, h4⟩ := runLoop_ticks_stop env p n rest
        (poll env p (logPrintf (LogEntry.pollerStarting p.interval) s))
      refine ⟨h1, ?_, ⟨rest, rfl⟩, ?_⟩
      · rw [h3, hStart]
        omega
      · intro more
        rw [Run_of_pos env p _ s hPos, h4]
        exact (runLoop_ticks_stop env p n more _).2.2.2
    · intro hS hObs
      rw [runLoop_waiting env p cases _ n hS hObs, hStart]
      omega
    · intro _
      obtain ⟨t, ht⟩ := runLoop_extends env p cases
        (poll env p (logPrintf (LogEntry.pollerStarting p.interval) s))
      exact ⟨t, ht, hStart⟩

/-- C16 on a `Run` whose `select` takes two ticks and then the stop case. -/
theorem run_polls_at_startup_and_once_per_tick_witness :
    (Run (fixedEnv okOutcome [sampleCommand "c1" "APPLY"]) samplePoller
      [SelectCase.tick, SelectCase.tick, SelectCase.stop, SelectCase.tick]
      { world := 0, trace := [] }).observed =
      List.replicate 2 SelectCase.tick ++ [SelectCase.stop] ∧
    polls (Run (fixedEnv okOutcome [sampleCommand "c1" "APPLY"]) samplePoller
      [SelectCase.tick, SelectCase.tick, SelectCase.stop, SelectCase.tick]
      { world := 0, trace := [] }).st.trace = polls [] + (2 + 1) :=
  ⟨by decide,
   ((run_polls_at_startup_and_once_per_tick (fixedEnv okOutcome [sampleCommand "c1" "APPLY"])
      samplePoller [SelectCase.tick, SelectCase.tick, SelectCase.stop, SelectCase.tick]
      { world := 0, trace := [] } 2).1 (by decide)).2.1⟩

/-! ## The loop of the heartbeater -/

theorem heartbeats_append (a b : List Event) :
    heartbeats (a ++ b) = heartbeats a ++ heartbeats b := by
  induction a with
  | nil => rfl
  | cons x t ih => cases x <;> simp [heartbeats, ih]

/-- One call of `sendHeartbeat` sends one heartbeat with the version, the host
name and the platform; when the call fails the error is logged, and nothing
else happens. -/
theorem sendHeartbeat_trace {σ : Type} (env : AgentEnv σ) (h : Heartbeater) (s : St σ) :
    Heartbeater.sendHeartbeat env h s =
      { world := (env.Heartbeat s.world
          { AgentVersion := h.version, Hostname := env.Hostname s.world
            OsInfo := env.GOOS ++ goStr "/" ++ env.GOARCH }).2
        trace := s.trace ++
          [Event.heartbeat
            { AgentVersion := h.version, Hostname := env.Hostname s.world
              OsInfo := env.GOOS ++ goStr "/" ++ env.GOARCH }] ++
          (match (env.Heartbeat s.world
              { AgentVersion := h.version, Hostname := env.Hostname s.world
                OsInfo := env.GOOS ++ goStr "/" ++ env.GOARCH }).1 with
            | Except.error err => [Event.log (LogEntry.heartbeatFailed err)]
            | Except.ok _ => []) } := by
  simp only [Heartbeater.sendHeartbeat, Heartbeat]
  split <;> rename_i hr <;> rw [hr] <;> simp [logPrintf]

theorem sendHeartbeat_heartbeats {σ : Type} (env : AgentEnv σ) (h : Heartbeater) (s : St σ) :
    heartbeats (Heartbeater.sendHeartbeat env h s).trace =
      heartbeats s.trace ++
        [{ AgentVersion := h.version, Hostname := env.Hostname s.world
           OsInfo := env.GOOS ++ goStr "/" ++ env.GOARCH }] := by
  rw [sendHeartbeat_trace]
  simp only [heartbeats_append]
  split <;> simp [heartbeats]

theorem Heartbeater.loop_tick {σ : Type} (env : AgentEnv σ) (h : Heartbeater)
    (rest : List SelectCase) (s : St σ) :
    Heartbeater.loop env h (SelectCase.tick :: rest) s =
      { status := (Heartbeater.loop env h rest (Heartbeater.sendHeartbeat env h s)).status
        observed :=
          SelectCase.tick ::
            (Heartbeater.loop env h rest (Heartbeater.sendHeartbeat env h s)).observed
        st := (Heartbeater.loop env h rest (Heartbeater.sendHeartbeat env h s)).st } := rfl

/-- The loop of the heartbeater on `n` ticks followed by the stop case: it
returns after `n` heartbeats, and the cases after the stop case play no part. -/
theorem Heartbeater.loop_ticks_stop {σ : Type} (env : AgentEnv σ) (h : Heartbeater) (n : Nat)
    (rest : List SelectCase) (s : St σ) :
    (Heartbeater.loop env h
      (List.replicate n SelectCase.tick ++ SelectCase.stop :: rest) s).status =
      LoopStatus.returned ∧
    (heartbeats (Heartbeater.loop env h
      (List.replicate n SelectCase.tick ++ SelectCase.stop :: rest) s).st.trace).length =
      (heartbeats s.trace).length + n ∧
    Heartbeater.loop env h (List.replicate n SelectCase.tick ++ SelectCase.stop :: rest) s =
      Heartbeater.loop env h (List.replicate n SelectCase.tick ++ [SelectCase.stop]) s := by
  induction n generalizing s with
  | zero => simp [Heartbeater.loop]
  | succ n ih =>
    obtain ⟨h1, h3, h4⟩ := ih (Heartbeater.sendHeartbeat env h s)
    have hP := sendHeartbeat_heartbeats env h s
    rw [replicate_succ_append, replicate_succ_append, Heartbeater.loop_tick,
      Heartbeater.loop_tick, ← h4]
    refine ⟨h1, ?_, rfl⟩
    show (heartbeats (Heartbeater.loop env h _ (Heartbeater.sendHeartbeat env h s)).st.trace).length
      = _
    rw [h3, hP, List.length_append, List.length_singleton]
    omega

/-- The loop of the heartbeater has observed `n` ticks and then the stop case
only when these are the first cases its `select` takes. -/
theorem Heartbeater.loop_observed_stop {σ : Type} (env : AgentEnv σ) (h : Heartbeater)
    (cases : List SelectCase) (s : St σ) (n : Nat)
    (hObs : (Heartbeater.loop env h cases s).observed =
      List.replicate n SelectCase.tick ++ [SelectCase.stop]) :
    ∃ rest : List SelectCase,
      cases = List.replicate n SelectCase.tick ++ SelectCase.stop :: rest := by
  induction cases generalizing s n with
  | nil =>
    cases n <;> simp [Heartbeater.loop, List.replicate_succ] at hObs
  | cons c rest ih =>
    cases c with
    | tick =>
      cases n with
      | zero => simp [Heartbeater.loop] at hObs
      | succ n =>
        simp only [Heartbeater.loop, List.replicate_succ, List.cons_append, List.cons.injEq,
          true_and] at hObs
        obtain ⟨rest2, h2⟩ := ih (Heartbeater.sendHeartbeat env h s) n hObs
        exact ⟨rest2, by simp [List.replicate_succ, h2]⟩
    | stop =>
      cases n with
      | zero => exact ⟨rest, rfl⟩
      | succ n => simp [Heartbeater.loop, List.replicate_succ] at hObs

/-- C18: a heartbeater loop that observes `n` ticks and then the stop signal
has sent exactly `n` heartbeats, one per tick, whatever the heartbeat endpoint
answered, and has returned: the cases its `select` could have taken after the
stop signal change nothing. Each tick sends exactly one heartbeat; a failed send
adds one log line and the loop goes on with the next case. -/
theorem heartbeat_per_tick_until_stop {σ : Type} (env : AgentEnv σ) (h : Heartbeater)
    (cases : List SelectCase) (s : St σ) (n : Nat)
    (hObs : (Heartbeater.run env h cases s).observed =
      List.replicate n SelectCase.tick ++ [SelectCase.stop]) :
    (Heartbeater.run env h cases s).status = LoopStatus.returned ∧
    (heartbeats (Heartbeater.run env h cases s).st.trace).length =
      (heartbeats s.trace).length + n ∧
    (∀ more : List SelectCase,
      Heartbeater.run env h (List.replicate n SelectCase.tick ++ SelectCase.stop :: more) s =
        Heartbeater.run env h cases s) ∧
    (∀ s0 : St σ, ∃ req : HeartbeatRequest,
      heartbeats (Heartbeater.sendHeartbeat env h s0).trace = heartbeats s0.trace ++ [req] ∧
      (∀ (err : GoString) (w : σ), env.Heartbeat s0.world req = (Except.error err, w) →
        Heartbeater.sendHeartbeat env h s0 =
          { world := w
            trace := s0.trace ++
              [Event.heartbeat req, Event.log (LogEntry.heartbeatFailed err)] })) ∧
    (∀ (rest : List SelectCase) (s0 : St σ),
      (Heartbeater.loop env h (SelectCase.tick :: rest) s0).st =
        (Heartbeater.loop env h rest (Heartbeater.sendHeartbeat env h s0)).st ∧
      (Heartbeater.loop env h (SelectCase.tick :: rest) s0).status =
        (Heartbeater.loop env h rest (Heartbeater.sendHeartbeat env h s0)).status) := by
  have hSend : ∀ s0 : St σ, ∃ req : HeartbeatRequest,
      heartbeats (Heartbeater.sendHeartbeat env h s0).trace = heartbeats s0.trace ++ [req] ∧
      (∀ (err : GoString) (w : σ), env.Heartbeat s0.world req = (Except.error err, w) →
        Heartbeater.sendHeartbeat env h s0 =
          { world := w
            trace := s0.trace ++
              [Event.heartbeat req, Event.log (LogEntry.heartbeatFailed err)] }) := by
    intro s0
    refine ⟨_, sendHeartbeat_heartbeats env h s0, ?_⟩
    intro err w hErr
    rw [sendHeartbeat_trace, hErr]
    simp
  by_cases hI : h.interval ≤ 0
  · simp only [Heartbeater.run, hI, if_true] at hObs
    cases n <;> simp [List.replicate_succ] at hObs
  · have hRun : ∀ cs : List SelectCase,
        Heartbeater.run env h cs s = Heartbeater.loop env h cs s := by
      intro cs
      simp [Heartbeater.run, hI]
    rw [hRun] at hObs ⊢
    obtain ⟨rest, hRest⟩ := Heartbeater.loop_observed_stop env h cases s n hObs
    subst hRest
    obtain ⟨h1, h3, h4⟩ := Heartbeater.loop_ticks_stop env h n rest s
    refine ⟨h1, h3, ?_, hSend, fun rest s0 => ⟨rfl, rfl⟩⟩
    intro more
    rw [hRun, h4]
    exact (Heartbeater.loop_ticks_stop env h n more s).2.2

/-- C18 on a heartbeater whose `select` takes three ticks and then the stop
case, with an endpoint that fails on every second call. -/
theorem heartbeat_per_tick_until_stop_witness :
    (Heartbeater.run (sampleAgentEnv okOutcome []) sampleHeartbeater
      [SelectCase.tick, SelectCase.tick, SelectCase.tick, SelectCase.stop, SelectCase.tick]
      { world := 0, trace := [] }).observed =
      List.replicate 3 SelectCase.tick ++ [SelectCase.stop] ∧
    (heartbeats (Heartbeater.run (sampleAgentEnv okOutcome []) sampleHeartbeater
      [SelectCase.tick, SelectCase.tick, SelectCase.tick, SelectCase.stop, SelectCase.tick]
      { world := 0, trace := [] }).st.trace).length = (heartbeats []).length + 3 :=
  ⟨by decide,
   (heartbeat_per_tick_until_stop (sampleAgentEnv okOutcome []) sampleHeartbeater
      [SelectCase.tick, SelectCase.tick, SelectCase.tick, SelectCase.stop, SelectCase.tick]
      { world := 0, trace := [] } 3 (by decide)).2.1⟩

/-! ## Stop and the dispatch of a batch -/

theorem processCommand_extends {σ : Type} (env : Env σ) (p : Poller) (cmd : Command)
    (s : St σ) : ∃ t : List Event, (processCommand env p cmd s).trace = s.trace ++ t := by
  obtain ⟨w, t⟩ := s
  exact ⟨_, by rw [processCommand_frame]⟩

/-- A step only appends to the trace. -/
theorem step_extends {σ : Type} (env : Env σ) (p : Poller) (r r1 : RunState σ) (a : Action)
    (h : step env p r a = some r1) : ∃ t : List Event, r1.st.trace = r.st.trace ++ t := by
  obtain ⟨ph, c, k, s⟩ := r
  cases a with
  | stopCall =>
    cases c with
    | true => simp [step] at h
    | false =>
      cases ph with
      | parked =>
        simp [step] at h
        subst h
        exact ⟨[Event.log LogEntry.pollerStopped], by simp [logPrintf]⟩
      | _ =>
        simp [step] at h
        subst h
        exact ⟨[], by simp⟩
  | tickFires =>
    cases ph <;> simp [step] at h <;> subst h <;> exact ⟨[], by simp⟩
  | pollCommands =>
    cases ph <;> simp only [step] at h <;> try exact absurd h (by simp)
    cases hP : env.PollCommands s.world with
    | mk res w =>
      cases res with
      | error err =>
        simp [PollCommands, hP, logPrintf] at h
        subst h
        exact ⟨[Event.poll, Event.log (LogEntry.pollFailed err)], by simp⟩
      | ok commands =>
        simp [PollCommands, hP] at h
        subst h
        exact ⟨[Event.poll], by simp⟩
  | next =>
    cases ph with
    | dispatching rest =>
      cases rest with
      | nil =>
        simp [step] at h
        subst h
        exact ⟨[], by simp⟩
      | cons cmd rest =>
        simp [step] at h
        subst h
        exact processCommand_extends env p cmd s
    | _ => simp [step] at h
  | recvTick =>
    cases ph <;> cases k <;> simp [step] at h
    subst h
    exact ⟨[], by simp⟩
  | recvStop =>
    cases ph <;> cases c <;> simp [step] at h
    subst h
    exact ⟨[Event.log LogEntry.pollerStopped], by simp [logPrintf]⟩
  | park =>
    cases ph <;> cases k <;> cases c <;> simp [step] at h
    subst h
    exact ⟨[], by simp⟩

/-- A sequence of steps only appends to the trace. -/
theorem exec_extends {σ : Type} (env : Env σ) (p : Poller) (acts : List Action)
    (r r1 : RunState σ) (h : exec env p r acts = some r1) :
    ∃ t : List Event, r1.st.trace = r.st.trace ++ t := by
  induction acts generalizing r with
  | nil =>
    simp only [exec, Option.some.injEq] at h
    subst h
    exact ⟨[], by simp⟩
  | cons a rest ih =>
    simp only [exec] at h
    cases hS : step env p r a with
    | none => simp [hS] at h
    | some r2 =>
      simp only [hS] at h
      obtain ⟨t1, h1⟩ := step_extends env p r r2 a hS
      obtain ⟨t2, h2⟩ := ih r2 h
      exact ⟨t1 ++ t2, by rw [h2, h1, List.append_assoc]⟩

/-- What a step can do while a batch is being dispatched: leave the dispatch
where it is (a `Stop` call or a tick, which only touch the channels), process
the next command, or leave the loop when no command is left. -/
theorem step_dispatching {σ : Type} (env : Env σ) (p : Poller) (r r1 : RunState σ)
    (rest : List Command) (a : Action) (hPh : r.phase = Phase.dispatching rest)
    (h : step env p r a = some r1) :
    (r1.phase = Phase.dispatching rest ∧ r1.st = r.st) ∨
    (∃ (cmd : Command) (tail : List Command), rest = cmd :: tail ∧
      r1.phase = Phase.dispatching tail ∧ r1.st = processCommand env p cmd r.st) ∨
    (rest = [] ∧ r1.phase = Phase.selecting ∧ r1.st = r.st) := by
  obtain ⟨ph, c, k, s⟩ := r
  simp only at hPh
  subst hPh
  cases a with
  | stopCall =>
    cases c <;> simp [step] at h
    subst h
    exact Or.inl ⟨rfl, rfl⟩
  | tickFires =>
    simp [step] at h
    subst h
    exact Or.inl ⟨rfl, rfl⟩
  | next =>
    cases rest with
    | nil =>
      simp [step] at h
      subst h
      exact Or.inr (Or.inr ⟨rfl, rfl, rfl⟩)
    | cons cmd tail =>
      simp [step] at h
      subst h
      exact Or.inr (Or.inl ⟨cmd, tail, rfl, rfl, rfl⟩)
  | pollCommands => simp [step] at h
  | recvTick => simp [step] at h
  | recvStop => simp [step] at h
  | park => simp [step] at h

/-- Once a batch is being dispatched, every run of the system that reaches the
return of `Run` has first processed all the commands still to process, in
order, whatever happens in between (a `Stop` call included). -/
theorem exec_finishes_batch {σ : Type} (env : Env σ) (p : Poller) (acts : List Action)
    (r r1 : RunState σ) (rest : List Command) (hPh : r.phase = Phase.dispatching rest)
    (h : exec env p r acts = some r1) (hStop : r1.phase = Phase.stopped) :
    ∃ t : List Event,
      r1.st.trace = r.st.trace ++ (commandTraces env p rest r.st.world).flatten ++ t := by
  induction acts generalizing r rest with
  | nil =>
    simp only [exec, Option.some.injEq] at h
    subst h
    rw [hPh] at hStop
    exact absurd hStop (by simp)
  | cons a tail ih =>
    simp only [exec] at h
    cases hS : step env p r a with
    | none => simp [hS] at h
    | some r2 =>
      simp only [hS] at h
      rcases step_dispatching env p r r2 rest a hPh hS with ⟨h1, h2⟩ | ⟨cmd, cs, h0, h1, h2⟩ |
        ⟨h0, _, h2⟩
      · obtain ⟨t, ht⟩ := ih r2 rest h1 h
        exact ⟨t, by rw [ht, h2]⟩
      · obtain ⟨t, ht⟩ := ih r2 cs h1 h
        subst h0
        refine ⟨t, ?_⟩
        rw [ht, h2]
        obtain ⟨w, tr⟩ := r.st
        rw [processCommand_frame]
        simp [commandTraces]
      · obtain ⟨t, ht⟩ := exec_extends env p tail r2 r1 h
        subst h0
        exact ⟨t, by rw [ht, h2]; simp [commandTraces]⟩

theorem exec_append {σ : Type} (env : Env σ) (p : Poller) (a b : List Action)
    (r r1 r2 : RunState σ) (h1 : exec env p r a = some r1) (h2 : exec env p r1 b = some r2) :
    exec env p r (a ++ b) = some r2 := by
  induction a generalizing r with
  | nil =>
    simp only [exec, Option.some.injEq] at h1
    subst h1
    exact h2
  | cons x rest ih =>
    simp only [exec, List.cons_append] at h1 ⊢
    cases hS : step env p r x with
    | none => simp [hS] at h1
    | some r3 =>
      simp only [hS] at h1 ⊢
      exact ih r3 h1

/-- The `for ... range` loop of `poll`, step by step, is the fold of
`processCommand` over the batch. -/
theorem exec_dispatch {σ : Type} (env : Env σ) (p : Poller) (commands : List Command)
    (c k : Bool) (s : St σ) :
    exec env p { phase := Phase.dispatching commands, stopClosed := c, tickReady := k, st := s }
      (List.replicate (commands.length + 1) Action.next) =
      some { phase := Phase.selecting, stopClosed := c, tickReady := k
             st := commands.foldl (fun s cmd => processCommand env p cmd s) s } := by
  induction commands generalizing s with
  | nil => simp [exec, step]
  | cons cmd rest ih =>
    rw [List.length_cons, List.replicate_succ]
    simp only [exec, step, List.foldl_cons]
    exact ih (processCommand env p cmd s)

/-- The function `poll` is what the system does, step by step, from the call
of `p.poll()` to the next `select`. -/
theorem exec_poll {σ : Type} (env : Env σ) (p : Poller) (c k : Bool) (s : St σ) :
    ∃ acts : List Action,
      exec env p { phase := Phase.polling, stopClosed := c, tickReady := k, st := s } acts =
        some { phase := Phase.selecting, stopClosed := c, tickReady := k, st := poll env p s } := by
  cases hP : PollCommands env s with
  | mk res s1 =>
    cases res with
    | error err =>
      refine ⟨[Action.pollCommands], ?_⟩
      simp [exec, step, hP, poll]
    | ok commands =>
      refine ⟨Action.pollCommands :: List.replicate (commands.length + 1) Action.next, ?_⟩
      simp only [exec, step, hP, poll]
      exact exec_dispatch env p commands c k s1

/-- Every outcome of the loop of `Run` on a sequence of select cases is reached
by a run of the system from the `select`, with the channels empty. -/
theorem runLoop_realised {σ : Type} (env : Env σ) (p : Poller) (cases : List SelectCase)
    (s : St σ) :
    ∃ (acts : List Action) (r1 : RunState σ),
      exec env p { phase := Phase.selecting, stopClosed := false, tickReady := false, st := s }
        acts = some r1 ∧
      r1.st = (runLoop env p cases s).st ∧
      ((runLoop env p cases s).status = LoopStatus.returned → r1.phase = Phase.stopped) ∧
      ((runLoop env p cases s).status = LoopStatus.waiting → r1.phase = Phase.selecting) := by
  induction cases generalizing s with
  | nil => exact ⟨[], _, rfl, rfl, by simp [runLoop], fun _ => rfl⟩
  | cons x rest ih =>
    cases x with
    | stop =>
      refine ⟨[Action.park, Action.stopCall], _, rfl, rfl, fun _ => rfl, ?_⟩
      simp [runLoop]
    | tick =>
      obtain ⟨acts1, h1⟩ := exec_poll env p false false s
      obtain ⟨acts2, r2, h2, hSt, hRet, hWait⟩ := ih (poll env p s)
      refine ⟨[Action.park, Action.tickFires] ++ (acts1 ++ acts2), r2, ?_, ?_, ?_, ?_⟩
      · exact exec_append env p _ _ _ _ _ rfl (exec_append env p _ _ _ _ _ h1 h2)
      · rw [runLoop_tick]
        exact hSt
      · rw [runLoop_tick]
        exact hRet
      · rw [runLoop_tick]
        exact hWait

/-- Every outcome of `Run` with a positive interval is reached by a run of the
system that starts at the startup poll, after the start log line, with the
channels empty. -/
theorem Run_realised {σ : Type} (env : Env σ) (p : Poller) (cases : List SelectCase)
    (s : St σ) (hI : 0 < p.interval) :
    ∃ (acts : List Action) (r1 : RunState σ),
      exec env p
        { phase := Phase.polling, stopClosed := false, tickReady := false
          st := logPrintf (LogEntry.pollerStarting p.interval) s } acts = some r1 ∧
      r1.st = (Run env p cases s).st ∧
      ((Run env p cases s).status = LoopStatus.returned → r1.phase = Phase.stopped) := by
  obtain ⟨acts1, h1⟩ := exec_poll env p false false
    (logPrintf (LogEntry.pollerStarting p.interval) s)
  obtain ⟨acts2, r2, h2, hSt, hRet, _⟩ := runLoop_realised env p cases
    (poll env p (logPrintf (LogEntry.pollerStarting p.interval) s))
  rw [Run_of_pos env p cases s hI]
  exact ⟨acts1 ++ acts2, r2, exec_append env p _ _ _ _ _ h1 h2, hSt, hRet⟩

/-- C15: when `Stop` is called while `Run` is blocked in its `select`, `Run`
returns at once: only the stop log line is added, no poll is started, and
nothing can follow. When a batch is being dispatched, no step (a `Stop` call
included) makes `Run` return, and every run of the system that reaches the
return of `Run` has first executed and reported every remaining command of the
batch, in order. -/
theorem stop_observed_only_between_polls {σ : Type} (env : Env σ) (p : Poller)
    (r : RunState σ) :
    (r.phase = Phase.parked → r.stopClosed = false →
      ∃ r1 : RunState σ,
        step env p r Action.stopCall = some r1 ∧
        r1.phase = Phase.stopped ∧
        r1.st.trace = r.st.trace ++ [Event.log LogEntry.pollerStopped] ∧
        polls r1.st.trace = polls r.st.trace ∧
        spawns r1.st.trace = spawns r.st.trace ∧
        reports r1.st.trace = reports r.st.trace ∧
        ∀ a : Action, step env p r1 a = none) ∧
    (∀ rest : List Command, r.phase = Phase.dispatching rest →
      (∀ (a : Action) (r1 : RunState σ), step env p r a = some r1 →
        r1.phase ≠ Phase.stopped) ∧
      (∀ (acts : List Action) (r1 : RunState σ), exec env p r acts = some r1 →
        r1.phase = Phase.stopped →
        ∃ t : List Event,
          r1.st.trace =
            r.st.trace ++ (commandTraces env p rest r.st.world).flatten ++ t)) := by
  refine ⟨?_, ?_⟩
  · intro hPh hC
    obtain ⟨ph, c, k, s⟩ := r
    simp only at hPh hC
    subst hPh hC
    refine ⟨_, rfl, rfl, rfl, ?_, ?_, ?_, ?_⟩
    · simp [logPrintf, polls_append, polls]
    · simp [logPrintf, spawns_append, spawns]
    · simp [logPrintf, reports_append, reports]
    · intro a
      cases a <;> simp [step]
  · intro rest hPh
    refine ⟨?_, fun acts r1 h hStop => exec_finishes_batch env p acts r r1 rest hPh h hStop⟩
    intro a r1 h
    rcases step_dispatching env p r r1 rest a hPh h with ⟨h1, _⟩ | ⟨_, _, _, h1, _⟩ | ⟨_, h1, _⟩ <;>
      simp [h1]

/-- C15 on a batch of two commands: `Stop` is called after the first command
has been processed; the second one is still executed and reported before `Run`
returns at the next `select`. -/
theorem stop_observed_only_between_polls_witness :
    ∃ r1 : RunState Nat,
      exec (fixedEnv okOutcome []) samplePoller
        { phase := Phase.dispatching [sampleCommand "c1" "APPLY", sampleCommand "c2" "REVOKE"]
          stopClosed := false, tickReady := false, st := { world := 0, trace := [] } }
        [Action.next, Action.stopCall, Action.next, Action.next, Action.recvStop] = some r1 ∧
      r1.phase = Phase.stopped ∧
      ∃ t : List Event,
        r1.st.trace =
          [] ++ (commandTraces (fixedEnv okOutcome []) samplePoller
            [sampleCommand "c1" "APPLY", sampleCommand "c2" "REVOKE"] 0).flatten ++ t :=
  ⟨_, rfl, rfl,
   ((stop_observed_only_between_polls (fixedEnv okOutcome []) samplePoller
      { phase := Phase.dispatching [sampleCommand "c1" "APPLY", sampleCommand "c2" "REVOKE"]
        stopClosed := false, tickReady := false, st := { world := 0, trace := [] } }).2
      [sampleCommand "c1" "APPLY", sampleCommand "c2" "REVOKE"] rfl).2
      [Action.next, Action.stopCall, Action.next, Action.next, Action.recvStop] _ rfl rfl⟩

/-! ## The configuration file -/

/-- What `LoadConfig` returns for a document that names a server URL, an API
key and an agent name: each setting is the value the document gives it, and
the default when the document leaves the key out. -/
theorem LoadConfig_document (readFile : GoString → Except GoString FileData)
    (path : GoString) (d : Document) (url key name : GoString)
    (hRead : readFile path = Except.ok (FileData.yaml d))
    (hU : d.url = some url) (hK : d.api_key = some key) (hN : d.name = some name)
    (hU0 : url ≠ goStr "") (hK0 : key ≠ goStr "") (hN0 : name ≠ goStr "") :
    LoadConfig readFile path =
      Except.ok
        { Server := { URL := url, APIKey := key }
          Agent :=
            { Name := name
              PollInterval := d.poll_interval.getD (3 * Second)
              HeartbeatInterval := d.heartbeat_interval.getD (30 * Second) }
          Scripts := { Apply := d.apply.getD (goStr ""), Revoke := d.revoke.getD (goStr "") }
          Execution :=
            { Timeout := d.timeout.getD (30 * Second)
              Shell := d.shell.getD (goStr "/bin/bash") } } := by
  simp [LoadConfig, hRead, yamlUnmarshal, hU, hK, hN, hU0, hK0, hN0]

/-- A file written by `WriteConfig` sets every key, so it loads back as the
very `Config` that was written: no default applies. -/
theorem LoadConfig_of_written (readFile : GoString → Except GoString FileData)
    (path : GoString) (cfg : Config)
    (hRead : readFile path = Except.ok (yamlMarshal cfg))
    (hU0 : cfg.Server.URL ≠ goStr "") (hK0 : cfg.Server.APIKey ≠ goStr "")
    (hN0 : cfg.Agent.Name ≠ goStr "") :
    LoadConfig readFile path = Except.ok cfg := by
  simp [LoadConfig, hRead, yamlUnmarshal, yamlMarshal, hU0, hK0, hN0]

/-- C20, at the configuration the init command writes: `WriteConfig` writes a
document that sets the intervals, the timeout and the shell to their zero
values, and `LoadConfig` reads these back: the timeout and the heartbeat
interval are 0 and not the default 30s, the poll interval is 0, the shell is
empty. A document that leaves the keys out does get the defaults. -/
theorem init_config_loads_back_without_defaults :
    WriteConfig (fun _ => none) (fun _ _ => none) (goStr "/etc/eg-agent/config.yml")
      sampleInitConfig =
      WriteOutcome.written (goStr "/etc/eg-agent") (goStr "/etc/eg-agent/config.yml")
        (yamlMarshal sampleInitConfig) ∧
    LoadConfig (singleFile (goStr "/etc/eg-agent/config.yml") (yamlMarshal sampleInitConfig))
      (goStr "/etc/eg-agent/config.yml") = Except.ok sampleInitConfig ∧
    sampleInitConfig.Execution.Timeout = 0 ∧
    sampleInitConfig.Agent.HeartbeatInterval = 0 ∧
    sampleInitConfig.Agent.PollInterval = 0 ∧
    sampleInitConfig.Execution.Shell = goStr "" ∧
    (0 : Duration) ≠ 30 * Second ∧
    LoadConfig (singleFile (goStr "/etc/eg-agent/config.yml") (FileData.yaml minimalDocument))
      (goStr "/etc/eg-agent/config.yml") =
      Except.ok
        { Server := { URL := goStr "https://app.entryguard.io/api/v1", APIKey := goStr "eg_key" }
          Agent :=
            { Name := goStr "edge-1", PollInterval := 3 * Second
              HeartbeatInterval := 30 * Second }
          Scripts := { Apply := goStr "/opt/apply.sh", Revoke := goStr "/opt/revoke.sh" }
          Execution := { Timeout := 30 * Second, Shell := goStr "/bin/bash" } } := by
  refine ⟨by decide, ?_, rfl, rfl, rfl, rfl, by decide, ?_⟩
  · exact LoadConfig_of_written _ _ _ (by simp [singleFile]) (by decide) (by decide) (by decide)
  · exact LoadConfig_document _ _ minimalDocument _ _ _ (by simp [singleFile]) rfl rfl rfl
      (by decide) (by decide) (by decide)

/-! ## Startup of the agent -/

theorem goroutines_append (a b : List Event) :
    goroutines (a ++ b) = goroutines a ++ goroutines b := by
  induction a with
  | nil => rfl
  | cons x t ih => cases x <;> simp [goroutines, ih]

/-- The two loops side by side, when the heartbeater takes no tick, are the
loop of `Run` alone. -/
theorem agentLoop_of_poller_cases {σ : Type} (env : AgentEnv σ) (hb : Heartbeater) (p : Poller)
    (cases : List SelectCase) (s : St σ) :
    agentLoop env hb p (cases.map AgentCase.poller) s = runLoop env.toEnv p cases s := by
  induction cases generalizing s with
  | nil => rfl
  | cons c rest ih =>
    cases c with
    | tick => simp only [List.map_cons, agentLoop, runLoop, ih]
    | stop => simp only [List.map_cons, agentLoop, runLoop]

/-- The two loops side by side never panic: they have returned, after some
ticks of the poller and its stop case, or they are waiting, after some ticks
of the poller. -/
theorem agentLoop_status {σ : Type} (env : AgentEnv σ) (hb : Heartbeater) (p : Poller)
    (sched : List AgentCase) (s : St σ) :
    ((agentLoop env hb p sched s).status = LoopStatus.returned ∧
      ∃ n : Nat, (agentLoop env hb p sched s).observed =
        List.replicate n SelectCase.tick ++ [SelectCase.stop]) ∨
    ((agentLoop env hb p sched s).status = LoopStatus.waiting ∧
      ∃ n : Nat, (agentLoop env hb p sched s).observed = List.replicate n SelectCase.tick) := by
  induction sched generalizing s with
  | nil => exact Or.inr ⟨rfl, 0, rfl⟩
  | cons c rest ih =>
    cases c with
    | heartbeat =>
      simp only [agentLoop]
      exact ih _
    | poller c =>
      cases c with
      | tick =>
        simp only [agentLoop]
        rcases ih (poll env.toEnv p s) with ⟨h1, n, h2⟩ | ⟨h1, n, h2⟩
        · exact Or.inl ⟨h1, n + 1, by rw [h2]; rfl⟩
        · exact Or.inr ⟨h1, n + 1, by rw [h2]; rfl⟩
      | stop => exact Or.inl ⟨rfl, 0, rfl⟩

/-- The two loops side by side have returned exactly when the poller has
observed its stop case. -/
theorem agentLoop_returned_iff {σ : Type} (env : AgentEnv σ) (hb : Heartbeater) (p : Poller)
    (sched : List AgentCase) (s : St σ) :
    (agentLoop env hb p sched s).status = LoopStatus.returned ↔
      SelectCase.stop ∈ (agentLoop env hb p sched s).observed := by
  rcases agentLoop_status env hb p sched s with ⟨h1, n, h2⟩ | ⟨h1, n, h2⟩
  · rw [h1, h2]
    simp
  · rw [h1, h2]
    simp [List.mem_replicate]

/-- The poller observes its stop case when the `select` of `Run` takes it. -/
theorem agentLoop_stop_mem {σ : Type} (env : AgentEnv σ) (hb : Heartbeater) (p : Poller)
    (sched : List AgentCase) (s : St σ) (h : AgentCase.poller SelectCase.stop ∈ sched) :
    (agentLoop env hb p sched s).status = LoopStatus.returned := by
  induction sched generalizing s with
  | nil => simp at h
  | cons c rest ih =>
    cases c with
    | heartbeat =>
      simp only [agentLoop]
      exact ih _ (by simpa using h)
    | poller c =>
      cases c with
      | tick =>
        simp only [agentLoop]
        exact ih _ (by simpa using h)
      | stop => rfl

/-- The function `runAgent` when the registration fails. -/
theorem runAgent_register_error {σ : Type} (env : AgentEnv σ)
    (readFile : GoString → Except GoString FileData) (version configPath : GoString)
    (sched : List AgentCase) (s : St σ) (cfg : Config) (err : GoString) (w : σ)
    (hLoad : LoadConfig readFile configPath = Except.ok cfg)
    (hReg : env.Register s.world
      { Name := cfg.Agent.Name, AgentVersion := version, Hostname := env.Hostname s.world
        OsInfo := env.GOOS ++ goStr "/" ++ env.GOARCH } = (Except.error err, w)) :
    runAgent env readFile version configPath sched s =
      { result := AgentResult.error (goStr "failed to register: " ++ err)
        observed := []
        st :=
          { world := w
            trace := s.trace ++
              [Event.log (LogEntry.agentStarting version cfg.Agent.Name),
               Event.register
                { Name := cfg.Agent.Name, AgentVersion := version, Hostname := env.Hostname s.world
                  OsInfo := env.GOOS ++ goStr "/" ++ env.GOARCH }] } } := by
  simp only [runAgent, hLoad, Register, logPrintf, hReg]
  simp

/-- The function `runAgent` when the registration succeeds and the interval of
the heartbeater is not positive: the goroutine of the heartbeater panics in
`time.NewTicker` and the process dies. -/
theorem runAgent_heartbeater_panics {σ : Type} (env : AgentEnv σ)
    (readFile : GoString → Except GoString FileData) (version configPath : GoString)
    (sched : List AgentCase) (s : St σ) (cfg : Config) (resp : AgentResponse) (w : σ)
    (hLoad : LoadConfig readFile configPath = Except.ok cfg)
    (hReg : env.Register s.world
      { Name := cfg.Agent.Name, AgentVersion := version, Hostname := env.Hostname s.world
        OsInfo := env.GOOS ++ goStr "/" ++ env.GOARCH } = (Except.ok resp, w))
    (hI : cfg.Agent.HeartbeatInterval ≤ 0) :
    runAgent env readFile version configPath sched s =
      { result := AgentResult.panicked
        observed := []
        st :=
          { world := w
            trace := s.trace ++
              [Event.log (LogEntry.agentStarting version cfg.Agent.Name),
               Event.register
                { Name := cfg.Agent.Name, AgentVersion := version
                  Hostname := env.Hostname s.world
                  OsInfo := env.GOOS ++ goStr "/" ++ env.GOARCH },
               Event.log (LogEntry.registered resp.Name resp.ID resp.Status),
               Event.go (Goroutine.heartbeater cfg.Agent.HeartbeatInterval version)] } } := by
  simp only [runAgent, hLoad, Register, logPrintf, hReg, Heartbeater.run, hI, if_true]
  simp

/-- The function `runAgent` when the registration succeeds, the interval of
the heartbeater is positive and the interval of the poller is not:
`poller.Run()` panics in `time.NewTicker` before any poll. -/
theorem runAgent_poller_panics {σ : Type} (env : AgentEnv σ)
    (readFile : GoString → Except GoString FileData) (version configPath : GoString)
    (sched : List AgentCase) (s : St σ) (cfg : Config) (resp : AgentResponse) (w : σ)
    (hLoad : LoadConfig readFile configPath = Except.ok cfg)
    (hReg : env.Register s.world
      { Name := cfg.Agent.Name, AgentVersion := version, Hostname := env.Hostname s.world
        OsInfo := env.GOOS ++ goStr "/" ++ env.GOARCH } = (Except.ok resp, w))
    (hH : 0 < cfg.Agent.HeartbeatInterval) (hP : cfg.Agent.PollInterval ≤ 0) :
    (runAgent env readFile version configPath sched s).result = AgentResult.panicked ∧
    (runAgent env readFile version configPath sched s).observed = [] ∧
    (runAgent env readFile version configPath sched s).st.trace =
      s.trace ++
        [Event.log (LogEntry.agentStarting version cfg.Agent.Name),
         Event.register
          { Name := cfg.Agent.Name, AgentVersion := version
            Hostname := env.Hostname s.world
            OsInfo := env.GOOS ++ goStr "/" ++ env.GOARCH },
         Event.log (LogEntry.registered resp.Name resp.ID resp.Status),
         Event.go (Goroutine.heartbeater cfg.Agent.HeartbeatInterval version),
         Event.go Goroutine.signalHandler,
         Event.log (LogEntry.pollerStarting cfg.Agent.PollInterval),
         Event.stopHeartbeater] := by
  have hH2 : ¬ cfg.Agent.HeartbeatInterval ≤ 0 := Int.not_le.mpr hH
  simp only [runAgent, hLoad, Register, logPrintf, hReg, Heartbeater.run, hH2, if_false,
    Heartbeater.loop, Run, hP, if_true]
  simp

/-- The function `runAgent` when the registration succeeds and both intervals
are positive: the state in which the two loops start, after the startup poll
of `Run`, and what `runAgent` comes to from there. -/
theorem runAgent_registered {σ : Type} (env : AgentEnv σ)
    (readFile : GoString → Except GoString FileData) (version configPath : GoString)
    (sched : List AgentCase) (s : St σ) (cfg : Config) (resp : AgentResponse) (w : σ)
    (hLoad : LoadConfig readFile configPath = Except.ok cfg)
    (hReg : env.Register s.world
      { Name := cfg.Agent.Name, AgentVersion := version, Hostname := env.Hostname s.world
        OsInfo := env.GOOS ++ goStr "/" ++ env.GOARCH } = (Except.ok resp, w))
    (hH : 0 < cfg.Agent.HeartbeatInterval) (hP : 0 < cfg.Agent.PollInterval) :
    ∃ s1 : St σ,
      s1 = poll env.toEnv
        { executor := { shell := cfg.Execution.Shell, timeout := cfg.Execution.Timeout }
          scripts := cfg.Scripts, interval := cfg.Agent.PollInterval }
        { world := w
          trace := s.trace ++
            [Event.log (LogEntry.agentStarting version cfg.Agent.Name),
             Event.register
              { Name := cfg.Agent.Name, AgentVersion := version
                Hostname := env.Hostname s.world
                OsInfo := env.GOOS ++ goStr "/" ++ env.GOARCH },
             Event.log (LogEntry.registered resp.Name resp.ID resp.Status),
             Event.go (Goroutine.heartbeater cfg.Agent.HeartbeatInterval version),
             Event.go Goroutine.signalHandler,
             Event.log (LogEntry.pollerStarting cfg.Agent.PollInterval)] } ∧
      (runAgent env readFile version configPath sched s).observed =
        (agentLoop env { interval := cfg.Agent.HeartbeatInterval, version := version }
          { executor := { shell := cfg.Execution.Shell, timeout := cfg.Execution.Timeout }
            scripts := cfg.Scripts, interval := cfg.Agent.PollInterval } sched s1).observed ∧
      ((agentLoop env { interval := cfg.Agent.HeartbeatInterval, version := version }
          { executor := { shell := cfg.Execution.Shell, timeout := cfg.Execution.Timeout }
            scripts := cfg.Scripts, interval := cfg.Agent.PollInterval } sched s1).status =
          LoopStatus.returned →
        (runAgent env readFile version configPath sched s).result = AgentResult.ok ∧
        (runAgent env readFile version configPath sched s).st.trace =
          (agentLoop env { interval := cfg.Agent.HeartbeatInterval, version := version }
            { executor := { shell := cfg.Execution.Shell, timeout := cfg.Execution.Timeout }
              scripts := cfg.Scripts, interval := cfg.Agent.PollInterval } sched s1).st.trace ++
            [Event.stopHeartbeater]) ∧
      ((agentLoop env { interval := cfg.Agent.HeartbeatInterval, version := version }
          { executor := { shell := cfg.Execution.Shell, timeout := cfg.Execution.Timeout }
            scripts := cfg.Scripts, interval := cfg.Agent.PollInterval } sched s1).status =
          LoopStatus.waiting →
        (runAgent env readFile version configPath sched s).result = AgentResult.running ∧
        (runAgent env readFile version configPath sched s).st =
          (agentLoop env { interval := cfg.Agent.HeartbeatInterval, version := version }
            { executor := { shell := cfg.Execution.Shell, timeout := cfg.Execution.Timeout }
              scripts := cfg.Scripts, interval := cfg.Agent.PollInterval } sched s1).st) := by
  have hH2 : ¬ cfg.Agent.HeartbeatInterval ≤ 0 := Int.not_le.mpr hH
  have hP2 : ¬ cfg.Agent.PollInterval ≤ 0 := Int.not_le.mpr hP
  refine ⟨_, rfl, ?_, ?_, ?_⟩
  · simp only [runAgent, hLoad, Register, logPrintf, hReg, Heartbeater.run, hH2, if_false,
      Heartbeater.loop, Run, hP2, runLoop]
    simp only [List.append_assoc, List.singleton_append, List.cons_append, List.nil_append]
    split <;> rfl
  · intro hS
    simp only [runAgent, hLoad, Register, logPrintf, hReg, Heartbeater.run, hH2, if_false,
      Heartbeater.loop, Run, hP2, runLoop]
    simp only [List.append_assoc, List.singleton_append, List.cons_append, List.nil_append] at hS ⊢
    rw [hS]
    exact ⟨rfl, rfl⟩
  · intro hS
    simp only [runAgent, hLoad, Register, logPrintf, hReg, Heartbeater.run, hH2, if_false,
      Heartbeater.loop, Run, hP2, runLoop]
    simp only [List.append_assoc, List.singleton_append, List.cons_append, List.nil_append] at hS ⊢
    rw [hS]
    exact ⟨rfl, rfl⟩

/-- C17: with a configuration that loads, a failed registration makes
`runAgent` return the error `failed to register: ...` right after the
registration call: no goroutine is started and `poller.Run` is not reached, so
no heartbeat, no poll, no report and no child process ever happen. After a
successful registration `runAgent` never returns an error, whatever the polls,
the reports and the heartbeats do, and it has returned `nil` exactly when the
loop of `Run` has observed its stop case; with two positive intervals this
happens as soon as the `select` of `Run` takes the stop case. With an interval
of the heartbeater that is not positive the goroutine of the heartbeater
panics in `time.NewTicker`: the process dies, the loop of `Run` observes
nothing and no heartbeat is sent. -/
theorem registration_failure_is_the_only_error {σ : Type} (env : AgentEnv σ)
    (readFile : GoString → Except GoString FileData) (version configPath : GoString)
    (sched : List AgentCase) (s : St σ) (cfg : Config)
    (hLoad : LoadConfig readFile configPath = Except.ok cfg) :
    (∀ (err : GoString) (w : σ),
      env.Register s.world
        { Name := cfg.Agent.Name, AgentVersion := version, Hostname := env.Hostname s.world
          OsInfo := env.GOOS ++ goStr "/" ++ env.GOARCH } = (Except.error err, w) →
      (runAgent env readFile version configPath sched s).result =
        AgentResult.error (goStr "failed to register: " ++ err) ∧
      (runAgent env readFile version configPath sched s).observed = [] ∧
      (runAgent env readFile version configPath sched s).st.trace =
        s.trace ++
          [Event.log (LogEntry.agentStarting version cfg.Agent.Name),
           Event.register
            { Name := cfg.Agent.Name, AgentVersion := version, Hostname := env.Hostname s.world
              OsInfo := env.GOOS ++ goStr "/" ++ env.GOARCH }] ∧
      goroutines (runAgent env readFile version configPath sched s).st.trace =
        goroutines s.trace ∧
      heartbeats (runAgent env readFile version configPath sched s).st.trace =
        heartbeats s.trace ∧
      polls (runAgent env readFile version configPath sched s).st.trace = polls s.trace ∧
      reports (runAgent env readFile version configPath sched s).st.trace = reports s.trace ∧
      spawns (runAgent env readFile version configPath sched s).st.trace = spawns s.trace) ∧
    (∀ (resp : AgentResponse) (w : σ),
      env.Register s.world
        { Name := cfg.Agent.Name, AgentVersion := version, Hostname := env.Hostname s.world
          OsInfo := env.GOOS ++ goStr "/" ++ env.GOARCH } = (Except.ok resp, w) →
      (∀ e : GoString,
        (runAgent env readFile version configPath sched s).result ≠ AgentResult.error e) ∧
      ((runAgent env readFile version configPath sched s).result = AgentResult.ok ↔
        SelectCase.stop ∈ (runAgent env readFile version configPath sched s).observed) ∧
      (0 < cfg.Agent.HeartbeatInterval → 0 < cfg.Agent.PollInterval →
        AgentCase.poller SelectCase.stop ∈ sched →
        (runAgent env readFile version configPath sched s).result = AgentResult.ok) ∧
      (cfg.Agent.HeartbeatInterval ≤ 0 →
        (runAgent env readFile version configPath sched s).result = AgentResult.panicked ∧
        (runAgent env readFile version configPath sched s).observed = [] ∧
        heartbeats (runAgent env readFile version configPath sched s).st.trace =
          heartbeats s.trace)) := by
  refine ⟨?_, ?_⟩
  · intro err w hReg
    rw [runAgent_register_error env readFile version configPath sched s cfg err w hLoad hReg]
    refine ⟨rfl, rfl, rfl, ?_, ?_, ?_, ?_, ?_⟩
    · simp [goroutines_append, goroutines]
    · simp [heartbeats_append, heartbeats]
    · simp [polls_append, polls]
    · simp [reports_append, reports]
    · simp [spawns_append, spawns]
  · intro resp w hReg
    have hDead : cfg.Agent.HeartbeatInterval ≤ 0 →
        (runAgent env readFile version configPath sched s).result = AgentResult.panicked ∧
        (runAgent env readFile version configPath sched s).observed = [] ∧
        heartbeats (runAgent env readFile version configPath sched s).st.trace =
          heartbeats s.trace := by
      intro hI
      rw [runAgent_heartbeater_panics env readFile version configPath sched s cfg resp w hLoad
        hReg hI]
      refine ⟨rfl, rfl, ?_⟩
      simp [heartbeats_append, heartbeats]
    have hAll :
        (∀ e : GoString,
          (runAgent env readFile version configPath sched s).result ≠ AgentResult.error e) ∧
        ((runAgent env readFile version configPath sched s).result = AgentResult.ok ↔
          SelectCase.stop ∈ (runAgent env readFile version configPath sched s).observed) ∧
        (0 < cfg.Agent.HeartbeatInterval → 0 < cfg.Agent.PollInterval →
          AgentCase.poller SelectCase.stop ∈ sched →
          (runAgent env readFile version configPath sched s).result = AgentResult.ok) := by
      by_cases hH : cfg.Agent.HeartbeatInterval ≤ 0
      · obtain ⟨h1, h2, _⟩ := hDead hH
        rw [h1, h2]
        refine ⟨fun e => by simp, by simp, ?_⟩
        intro hPos
        exact absurd hH (Int.not_le.mpr hPos)
      · have hH2 : 0 < cfg.Agent.HeartbeatInterval := Int.not_le.mp hH
        by_cases hP : cfg.Agent.PollInterval ≤ 0
        · obtain ⟨h1, h2, _⟩ :=
            runAgent_poller_panics env readFile version configPath sched s cfg resp w hLoad hReg
              hH2 hP
          rw [h1, h2]
          refine ⟨fun e => by simp, by simp, ?_⟩
          intro _ hPos
          exact absurd hP (Int.not_le.mpr hPos)
        · have hP2 : 0 < cfg.Agent.PollInterval := Int.not_le.mp hP
          obtain ⟨s1, _, hObs, hRet, hWait⟩ :=
            runAgent_registered env readFile version configPath sched s cfg resp w hLoad hReg
              hH2 hP2
          have hIff := agentLoop_returned_iff env
            { interval := cfg.Agent.HeartbeatInterval, version := version }
            { executor := { shell := cfg.Execution.Shell, timeout := cfg.Execution.Timeout }
              scripts := cfg.Scripts, interval := cfg.Agent.PollInterval } sched s1
          rcases agentLoop_status env
            { interval := cfg.Agent.HeartbeatInterval, version := version }
            { executor := { shell := cfg.Execution.Shell, timeout := cfg.Execution.Timeout }
              scripts := cfg.Scripts, interval := cfg.Agent.PollInterval } sched s1
            with ⟨hS, _⟩ | ⟨hS, _⟩
          · have hOk := (hRet hS).1
            refine ⟨fun e => by rw [hOk]; simp, ?_, fun _ _ _ => hOk⟩
            rw [hObs]
            exact ⟨fun _ => hIff.mp hS, fun _ => hOk⟩
          · have hRun := (hWait hS).1
            refine ⟨fun e => by rw [hRun]; simp, ?_, ?_⟩
            · rw [hObs, hRun, ← hIff, hS]
              simp
            · intro _ _ hMem
              have := agentLoop_stop_mem env
                { interval := cfg.Agent.HeartbeatInterval, version := version }
                { executor := { shell := cfg.Execution.Shell, timeout := cfg.Execution.Timeout }
                  scripts := cfg.Scripts, interval := cfg.Agent.PollInterval } sched s1 hMem
              rw [hS] at this
              exact absurd this (by simp)
    exact ⟨hAll.1, hAll.2.1, hAll.2.2, hDead⟩

/-- C17 on a control plane that refuses the registration, on one that accepts
it while every second heartbeat fails, and on the configuration written by
`eg-agent init`, whose heartbeat interval is zero. -/
theorem registration_failure_is_the_only_error_witness :
    LoadConfig (singleFile (goStr "/etc/eg-agent/config.yml") (FileData.yaml minimalDocument))
      (goStr "/etc/eg-agent/config.yml") = Except.ok minimalConfig ∧
    (runAgent (rejectingAgentEnv okOutcome [sampleCommand "c1" "APPLY"])
      (singleFile (goStr "/etc/eg-agent/config.yml") (FileData.yaml minimalDocument))
      (goStr "dev") (goStr "/etc/eg-agent/config.yml")
      [AgentCase.poller SelectCase.tick, AgentCase.poller SelectCase.stop]
      { world := 0, trace := [] }).result =
      AgentResult.error (goStr "failed to register: " ++ goStr "API error (HTTP 401): bad key") ∧
    (runAgent (sampleAgentEnv okOutcome [sampleCommand "c1" "APPLY"])
      (singleFile (goStr "/etc/eg-agent/config.yml") (FileData.yaml minimalDocument))
      (goStr "dev") (goStr "/etc/eg-agent/config.yml")
      [AgentCase.heartbeat, AgentCase.poller SelectCase.tick, AgentCase.heartbeat,
       AgentCase.poller SelectCase.stop]
      { world := 0, trace := [] }).result = AgentResult.ok ∧
    LoadConfig (singleFile (goStr "/etc/eg-agent/config.yml") (yamlMarshal sampleInitConfig))
      (goStr "/etc/eg-agent/config.yml") = Except.ok sampleInitConfig ∧
    sampleInitConfig.Agent.HeartbeatInterval ≤ 0 ∧
    (runAgent (sampleAgentEnv okOutcome [sampleCommand "c1" "APPLY"])
      (singleFile (goStr "/etc/eg-agent/config.yml") (yamlMarshal sampleInitConfig))
      (goStr "dev") (goStr "/etc/eg-agent/config.yml")
      [AgentCase.poller SelectCase.stop]
      { world := 0, trace := [] }).result = AgentResult.panicked :=
  ⟨rfl,
   ((registration_failure_is_the_only_error (rejectingAgentEnv okOutcome [sampleCommand "c1" "APPLY"])
      (singleFile (goStr "/etc/eg-agent/config.yml") (FileData.yaml minimalDocument))
      (goStr "dev") (goStr "/etc/eg-agent/config.yml")
      [AgentCase.poller SelectCase.tick, AgentCase.poller SelectCase.stop]
      { world := 0, trace := [] } minimalConfig rfl).1
      (goStr "API error (HTTP 401): bad key") 1 rfl).1,
   ((registration_failure_is_the_only_error (sampleAgentEnv okOutcome [sampleCommand "c1" "APPLY"])
      (singleFile (goStr "/etc/eg-agent/config.yml") (FileData.yaml minimalDocument))
      (goStr "dev") (goStr "/etc/eg-agent/config.yml")
      [AgentCase.heartbeat, AgentCase.poller SelectCase.tick, AgentCase.heartbeat,
       AgentCase.poller SelectCase.stop]
      { world := 0, trace := [] } minimalConfig rfl).2
      sampleResponse 1 rfl).2.2.1 (by decide) (by decide) (by decide),
   rfl,
   by decide,
   (((registration_failure_is_the_only_error (sampleAgentEnv okOutcome [sampleCommand "c1" "APPLY"])
      (singleFile (goStr "/etc/eg-agent/config.yml") (yamlMarshal sampleInitConfig))
      (goStr "dev") (goStr "/etc/eg-agent/config.yml")
      [AgentCase.poller SelectCase.stop]
      { world := 0, trace := [] } sampleInitConfig rfl).2
      sampleResponse 1 rfl).2.2.2 (by decide)).1⟩

/-! ## The directory of WriteConfig -/

theorem dropWhile_until_slash (l r : GoString) (h : ∀ b ∈ l, b ≠ 47) :
    (l ++ 47 :: r).dropWhile (fun b => b ≠ 47) = 47 :: r := by
  induction l with
  | nil => rw [List.nil_append, List.dropWhile_cons_of_neg (by simp)]
  | cons x t ih =>
    have hx : x ≠ 47 := h x (List.mem_cons_self _ _)
    have ht : ∀ b ∈ t, b ≠ 47 := fun b hb => h b (List.mem_cons_of_mem _ hb)
    rw [List.cons_append, List.dropWhile_cons_of_pos (by simpa using hx)]
    exact ih ht

theorem splitSlash_ne_nil (p : GoString) : splitSlash p ≠ [] := by
  induction p with
  | nil => simp [splitSlash]
  | cons b t ih =>
    by_cases hb : b = 47
    · simp [splitSlash, hb]
    · cases hs : splitSlash t with
      | nil => exact absurd hs ih
      | cons e es => simp [splitSlash, hb, hs]

/-- The elements of a path are those before a slash, then those after it. -/
theorem splitSlash_append_slash (a b : GoString) :
    splitSlash (a ++ 47 :: b) = splitSlash a ++ splitSlash b := by
  induction a with
  | nil => simp [splitSlash]
  | cons x t ih =>
    by_cases hx : x = 47
    · simp [splitSlash, hx, ih]
    · cases hs : splitSlash t with
      | nil => exact absurd hs (splitSlash_ne_nil t)
      | cons e es =>
        rw [List.cons_append]
        simp only [splitSlash, hx, if_false, ih, hs, List.cons_append]

theorem splitSlash_append_slashes (a : GoString) (k : Nat) :
    splitSlash (a ++ List.replicate k 47) = splitSlash a ++ List.replicate k [] := by
  induction k generalizing a with
  | zero => simp
  | succ k ih =>
    have h1 : a ++ List.replicate (k + 1) 47 = (a ++ [47]) ++ List.replicate k 47 := by
      simp [List.replicate_succ]
    have h2 : splitSlash (a ++ [47]) = splitSlash a ++ [[]] := by
      rw [splitSlash_append_slash]
      rfl
    rw [h1, ih, h2, List.append_assoc]
    simp [List.replicate_succ]

theorem foldl_cleanElement_empty (rooted : Bool) (out : List GoString) (k : Nat) :
    (List.replicate k ([] : GoString)).foldl (cleanElement rooted) out = out := by
  induction k with
  | zero => rfl
  | succ k ih =>
    rw [List.replicate_succ, List.foldl_cons]
    have : cleanElement rooted out [] = out := by simp [cleanElement]
    rw [this, ih]

/-- Slashes at the end of a path that is not empty do not change the directory
it names. -/
theorem Clean_append_slashes (d : GoString) (k : Nat) (hd : d ≠ []) :
    Clean (d ++ List.replicate k 47) = Clean d := by
  have hHead : (d ++ List.replicate k 47).head? = d.head? := by
    cases d with
    | nil => exact absurd rfl hd
    | cons x t => rfl
  simp only [Clean, hHead, splitSlash_append_slashes, List.foldl_append, foldl_cleanElement_empty]

/-- The directory that holds `d/name`, for a name without a slash and any
number of slashes between the two, is named by `d/`. -/
theorem Dir_of_slashes_name (d name : GoString) (k : Nat) (h : (47 : UInt8) ∉ name) :
    Dir (d ++ List.replicate (k + 1) 47 ++ name) = Clean (d ++ List.replicate (k + 1) 47) := by
  have hSplit : d ++ List.replicate (k + 1) 47 ++ name =
      (d ++ List.replicate k 47) ++ 47 :: name := by
    simp [List.replicate_succ']
  have hRev : ((d ++ List.replicate k 47) ++ 47 :: name).reverse =
      name.reverse ++ 47 :: (d ++ List.replicate k 47).reverse := by simp
  have hNo : ∀ b ∈ name.reverse, b ≠ 47 := by
    intro b hb hEq
    subst hEq
    exact h (List.mem_reverse.mp hb)
  have hBack : (47 :: (d ++ List.replicate k 47).reverse).reverse =
      d ++ List.replicate (k + 1) 47 := by
    simp [List.replicate_succ']
  unfold Dir
  rw [hSplit, hRev, dropWhile_until_slash _ _ hNo, hBack]

/-- The directory `d` holds the file `d/name`, for a name without a slash and
any number of slashes between the two, exactly when `d` is not empty. -/
theorem namesParentOf_slashes_name (d name : GoString) (k : Nat) (h : (47 : UInt8) ∉ name) :
    namesParentOf d (d ++ List.replicate (k + 1) 47 ++ name) = true ↔ d ≠ [] := by
  constructor
  · intro hp
    simp only [namesParentOf, Bool.and_eq_true, decide_eq_true_eq] at hp
    exact hp.1
  · intro hd
    simp only [namesParentOf, Bool.and_eq_true, decide_eq_true_eq]
    exact ⟨hd, by rw [Dir_of_slashes_name d name k h, Clean_append_slashes d (k + 1) hd]⟩

/-- The directory of `WriteConfig` is the path without its last 11 bytes. -/
theorem take_of_append_eleven (d tail : GoString) (h : tail.length = 11) :
    (d ++ tail).take ((d ++ tail).length - (goStr "/config.yml").length) = d := by
  have hl : (goStr "/config.yml").length = 11 := rfl
  rw [hl, List.length_append, h, Nat.add_sub_cancel, List.take_left]

/-- C23, refuted as stated, in both directions. The path
`/etc/eg-agent/agent0.yml` does not end in `/config.yml` and is not shorter
than 11 bytes, and the directory `WriteConfig` creates for it is
`/etc/eg-agent`, the directory that holds the file written; so is `/etc/x` for
`/etc/x//agent.yml`. The path `/config.yml` ends in `/config.yml`, and the
directory `WriteConfig` hands to `os.MkdirAll` for it is the empty path, not
the root directory that holds the file: with an `os.MkdirAll` that refuses the
empty path nothing is written. -/
theorem suffix_does_not_decide_the_parent :
    (¬ (goStr "/config.yml" <:+ goStr "/etc/eg-agent/agent0.yml") ∧
     ¬ (goStr "/etc/eg-agent/agent0.yml").length < 11 ∧
     WriteConfig sampleMkdirAll (fun _ _ => none) (goStr "/etc/eg-agent/agent0.yml")
       sampleInitConfig =
       WriteOutcome.written (goStr "/etc/eg-agent") (goStr "/etc/eg-agent/agent0.yml")
         (yamlMarshal sampleInitConfig) ∧
     Dir (goStr "/etc/eg-agent/agent0.yml") = goStr "/etc/eg-agent" ∧
     namesParentOf (goStr "/etc/eg-agent") (goStr "/etc/eg-agent/agent0.yml") = true) ∧
    (¬ (goStr "/config.yml" <:+ goStr "/etc/x//agent.yml") ∧
     ¬ (goStr "/etc/x//agent.yml").length < 11 ∧
     WriteConfig sampleMkdirAll (fun _ _ => none) (goStr "/etc/x//agent.yml")
       sampleInitConfig =
       WriteOutcome.written (goStr "/etc/x") (goStr "/etc/x//agent.yml")
         (yamlMarshal sampleInitConfig) ∧
     Dir (goStr "/etc/x//agent.yml") = goStr "/etc/x" ∧
     namesParentOf (goStr "/etc/x") (goStr "/etc/x//agent.yml") = true) ∧
    (goStr "/config.yml" <:+ goStr "/config.yml" ∧
     (goStr "/config.yml").take ((goStr "/config.yml").length - 11) = goStr "" ∧
     Dir (goStr "/config.yml") = goStr "/" ∧
     namesParentOf (goStr "") (goStr "/config.yml") = false ∧
     WriteConfig sampleMkdirAll (fun _ _ => none) (goStr "/config.yml") sampleInitConfig =
       WriteOutcome.failed
         (goStr "failed to create config directory: mkdir : no such file or directory") ∧
     WriteConfig (fun _ => none) (fun _ _ => none) (goStr "/config.yml") sampleInitConfig =
       WriteOutcome.written (goStr "") (goStr "/config.yml") (yamlMarshal sampleInitConfig)) := by
  refine ⟨⟨by decide, by decide, by decide, by decide, by decide⟩,
    ⟨by decide, by decide, by decide, by decide, by decide⟩,
    ⟨by decide, by decide, by decide, by decide, by decide, by decide⟩⟩

/-- C23, amended: `WriteConfig` panics on every path shorter than 11 bytes and
on no other path; on a path of 11 bytes or more the directory it hands to
`os.MkdirAll` is the path without its last 11 bytes, whatever these bytes are.
For a path ending in `/config.yml` this is the directory that holds the file
exactly when something stands before `/config.yml` (for the path `/config.yml`
itself it is the empty path, not the root). The same holds for every path
whose last 11 bytes are one or more slashes followed by a name without a
slash. -/
theorem writeConfig_drops_last_eleven_bytes (mkdirAll : GoString → Option GoString)
    (writeFile : GoString → FileData → Option GoString) (path : GoString) (cfg : Config) :
    (path.length < 11 → WriteConfig mkdirAll writeFile path cfg = WriteOutcome.panicked) ∧
    (11 ≤ path.length →
      WriteConfig mkdirAll writeFile path cfg ≠ WriteOutcome.panicked ∧
      (∀ err : GoString, mkdirAll (path.take (path.length - 11)) = some err →
        WriteConfig mkdirAll writeFile path cfg =
          WriteOutcome.failed (goStr "failed to create config directory: " ++ err)) ∧
      (mkdirAll (path.take (path.length - 11)) = none → writeFile path (yamlMarshal cfg) = none →
        WriteConfig mkdirAll writeFile path cfg =
          WriteOutcome.written (path.take (path.length - 11)) path (yamlMarshal cfg))) ∧
    (∀ d tail : GoString, path = d ++ tail → tail.length = 11 →
      path.take (path.length - 11) = d) ∧
    (∀ d : GoString, path = d ++ goStr "/config.yml" →
      path.take (path.length - 11) = d ∧
      (namesParentOf (path.take (path.length - 11)) path = true ↔ d ≠ [])) ∧
    (∀ (d name : GoString) (k : Nat), path = d ++ List.replicate (k + 1) 47 ++ name →
      k + 1 + name.length = 11 → (47 : UInt8) ∉ name →
      path.take (path.length - 11) = d ∧
      (namesParentOf (path.take (path.length - 11)) path = true ↔ d ≠ [])) := by
  have hl : (goStr "/config.yml").length = 11 := rfl
  have hSlashes : ∀ (d name : GoString) (k : Nat), path = d ++ List.replicate (k + 1) 47 ++ name →
      k + 1 + name.length = 11 → (47 : UInt8) ∉ name →
      path.take (path.length - 11) = d ∧
      (namesParentOf (path.take (path.length - 11)) path = true ↔ d ≠ []) := by
    intro d name k hp hLen hNo
    have hTake : path.take (path.length - 11) = d := by
      rw [hp, List.append_assoc]
      exact take_of_append_eleven d _ (by simp; omega)
    rw [hTake, hp]
    exact ⟨rfl, namesParentOf_slashes_name d name k hNo⟩
  refine ⟨?_, ?_, ?_, ?_, hSlashes⟩
  · intro h
    simp [WriteConfig, hl, h]
  · intro h
    have hn : ¬ path.length < 11 := by omega
    refine ⟨?_, ?_, ?_⟩
    · simp only [WriteConfig, hl, hn, if_false]
      split
      · simp
      · split <;> simp
    · intro err hErr
      simp [WriteConfig, hl, hn, hErr]
    · intro hDir hFile
      simp [WriteConfig, hl, hn, hDir, hFile]
  · intro d tail hp hLen
    subst hp
    exact take_of_append_eleven d tail hLen
  · intro d hp
    exact hSlashes d (goStr "config.yml") 0 (by rw [hp]; simp [goStr]; rfl) (by decide) (by decide)

/-- C23, amended, on a path of 10 bytes, on the default path, and on a path
whose file name is shorter than 10 bytes, for which the directory created is
not the one that holds the file. -/
theorem writeConfig_drops_last_eleven_bytes_witness :
    (goStr "config.yml").length < 11 ∧
    WriteConfig (fun _ => none) (fun _ _ => none) (goStr "config.yml") sampleInitConfig =
      WriteOutcome.panicked ∧
    goStr "/etc/eg-agent/config.yml" = goStr "/etc/eg-agent" ++ goStr "/config.yml" ∧
    (goStr "/etc/eg-agent/config.yml").take ((goStr "/etc/eg-agent/config.yml").length - 11) =
      goStr "/etc/eg-agent" ∧
    namesParentOf
      ((goStr "/etc/eg-agent/config.yml").take ((goStr "/etc/eg-agent/config.yml").length - 11))
      (goStr "/etc/eg-agent/config.yml") = true ∧
    goStr "/etc/eg-agent/a.yml" = goStr "/etc/eg-" ++ goStr "agent/a.yml" ∧
    (goStr "/etc/eg-agent/a.yml").take ((goStr "/etc/eg-agent/a.yml").length - 11) =
      goStr "/etc/eg-" ∧
    Dir (goStr "/etc/eg-agent/a.yml") = goStr "/etc/eg-agent" ∧
    namesParentOf (goStr "/etc/eg-") (goStr "/etc/eg-agent/a.yml") = false :=
  ⟨by decide,
   (writeConfig_drops_last_eleven_bytes (fun _ => none) (fun _ _ => none) (goStr "config.yml")
      sampleInitConfig).1 (by decide),
   by decide,
   ((writeConfig_drops_last_eleven_bytes (fun _ => none) (fun _ _ => none)
      (goStr "/etc/eg-agent/config.yml") sampleInitConfig).2.2.2.1 (goStr "/etc/eg-agent")
      (by decide)).1,
   ((writeConfig_drops_last_eleven_bytes (fun _ => none) (fun _ _ => none)
      (goStr "/etc/eg-agent/config.yml") sampleInitConfig).2.2.2.1 (goStr "/etc/eg-agent")
      (by decide)).2.mpr (by decide),
   by decide,
   (writeConfig_drops_last_eleven_bytes (fun _ => none) (fun _ _ => none)
      (goStr "/etc/eg-agent/a.yml") sampleInitConfig).2.2.1 (goStr "/etc/eg-")
      (goStr "agent/a.yml") (by decide) (by decide),
   by decide,
   by decide⟩

/-! ## Profiles -/

theorem ProfileMap.get_eq_none (m : ProfileMap) (name : GoString) :
    m.get name = none ↔ name ∉ m.keys := by
  induction m with
  | nil => simp [ProfileMap.get, ProfileMap.keys]
  | cons e t ih =>
    by_cases he : e.1 = name
    · simp [ProfileMap.get, ProfileMap.keys, List.find?, he]
    · have hne : ¬ name = e.1 := fun h => he h.symm
      have ih2 : ProfileMap.get t name = none ↔ name ∉ ProfileMap.keys t := ih
      simp only [ProfileMap.get, ProfileMap.keys] at ih2
      simp [ProfileMap.get, ProfileMap.keys, List.find?, he, hne, ih2]

theorem ProfileMap.mem_keys_delete (m : ProfileMap) (name k : GoString) :
    k ∈ (m.delete name).keys ↔ k ∈ m.keys ∧ k ≠ name := by
  simp only [ProfileMap.keys, ProfileMap.delete, List.mem_map, List.mem_filter]
  constructor
  · rintro ⟨e, ⟨he, hne⟩, rfl⟩
    exact ⟨⟨e, he, rfl⟩, by simpa using hne⟩
  · rintro ⟨⟨e, he, rfl⟩, hne⟩
    exact ⟨e, ⟨he, by simpa using hne⟩, rfl⟩

theorem ProfileMap.keys_eq_nil (m : ProfileMap) : m.keys = [] ↔ m = [] := by
  simp [ProfileMap.keys]

theorem ProfileMap.nodup_delete (m : ProfileMap) (name : GoString) (h : m.keys.Nodup) :
    (m.delete name).keys.Nodup := by
  induction m with
  | nil => simp [ProfileMap.delete, ProfileMap.keys]
  | cons e t ih =>
    simp only [ProfileMap.keys, List.map_cons, List.nodup_cons] at h
    obtain ⟨h1, h2⟩ := h
    have ih2 := ih h2
    by_cases he : e.1 = name
    · simpa [ProfileMap.delete, List.filter, he] using ih2
    · have hcons : ProfileMap.delete (e :: t) name = e :: ProfileMap.delete t name := by
        simp [ProfileMap.delete, List.filter, he]
      rw [hcons]
      simp only [ProfileMap.keys, List.map_cons, List.nodup_cons]
      refine ⟨?_, ih2⟩
      intro hm
      exact h1 ((ProfileMap.mem_keys_delete t name e.1).mp hm).1

theorem ProfileMap.nodup_set (m : ProfileMap) (name : GoString) (profile : Profile)
    (h : m.keys.Nodup) : (m.set name profile).keys.Nodup := by
  simp only [ProfileMap.set, ProfileMap.keys, List.map_cons, List.nodup_cons]
  refine ⟨?_, ProfileMap.nodup_delete m name h⟩
  intro hm
  exact ((ProfileMap.mem_keys_delete m name name).mp hm).2 rfl

/-- The function `AddProfile` keeps the invariant. -/
theorem AddProfile_invariant (cfg : config.Config) (name : GoString) (profile : Profile)
    (h : config.Invariant cfg) : config.Invariant (AddProfile cfg name profile) := by
  obtain ⟨d, m⟩ := cfg
  obtain ⟨_, h2⟩ := h
  simp only at h2
  unfold AddProfile
  simp only
  split
  · exact ⟨fun hnil => by simp [ProfileMap.set] at hnil, fun _ => by simp [ProfileMap.set, ProfileMap.keys]⟩
  · rename_i hlen
    refine ⟨fun hnil => by simp [ProfileMap.set] at hnil, fun _ => ?_⟩
    have hm : m ≠ [] := by
      intro hm
      subst hm
      simp [ProfileMap.set, ProfileMap.delete] at hlen
    have hd := h2 hm
    by_cases hdn : d = name
    · simp [ProfileMap.set, ProfileMap.keys, hdn]
    · have := (ProfileMap.mem_keys_delete m name d).mpr ⟨hd, hdn⟩
      simp only [ProfileMap.set, ProfileMap.keys, List.map_cons, List.mem_cons]
      exact Or.inr this

/-- The function `RemoveProfile` on a name that is not a key: an error, and
the configuration as it was. -/
theorem RemoveProfile_missing (quote : GoString → GoString) (pick : Nat) (cfg : config.Config)
    (name : GoString) (h : name ∉ cfg.Profiles.keys) :
    RemoveProfile quote pick cfg name =
      (some (goStr "profile " ++ quote name ++ goStr " not found"), cfg) := by
  have hGet := (ProfileMap.get_eq_none cfg.Profiles name).mpr h
  simp [RemoveProfile, hGet]

/-- The function `RemoveProfile` keeps the invariant, whichever key its
`range` meets first. -/
theorem RemoveProfile_invariant (quote : GoString → GoString) (pick : Nat)
    (cfg : config.Config) (name : GoString) (h : config.Invariant cfg) :
    config.Invariant (RemoveProfile quote pick cfg name).2 := by
  cases hGet : cfg.Profiles.get name with
  | none =>
    have hm : name ∉ cfg.Profiles.keys := (ProfileMap.get_eq_none cfg.Profiles name).mp hGet
    rw [RemoveProfile_missing quote pick cfg name hm]
    exact h
  | some pr =>
    obtain ⟨d, m⟩ := cfg
    obtain ⟨_, h2⟩ := h
    simp only at h2 hGet
    have hIn : name ∈ m.keys := by
      by_contra hc
      rw [(ProfileMap.get_eq_none m name).mpr hc] at hGet
      exact Option.noConfusion hGet
    have hm : m ≠ [] := by
      intro hm
      subst hm
      simp [ProfileMap.keys] at hIn
    have hd := h2 hm
    simp only [RemoveProfile, hGet]
    by_cases hdn : d = name
    · simp only [hdn, if_true]
      cases hk : (ProfileMap.delete m name).keys with
      | nil =>
        simp only
        exact ⟨fun _ => rfl, fun hne => absurd ((ProfileMap.keys_eq_nil _).mp hk) hne⟩
      | cons k ks =>
        simp only
        refine ⟨fun hnil => ?_, fun _ => ?_⟩
        · rw [(ProfileMap.keys_eq_nil _).mpr hnil] at hk
          exact List.noConfusion hk
        · rw [hk]
          have hlt : pick % (k :: ks).length < (k :: ks).length :=
            Nat.mod_lt _ (by simp)
          rw [List.getD_eq_getElem _ _ hlt]
          exact List.getElem_mem _
    · simp only [hdn, if_false]
      have hKeep := (ProfileMap.mem_keys_delete m name d).mpr ⟨hd, hdn⟩
      refine ⟨fun hnil => ?_, fun _ => hKeep⟩
      simp only at hnil
      rw [hnil] at hKeep
      simp [ProfileMap.keys] at hKeep

/-- The command `profile use` keeps the invariant: it sets the default only to
the name of a profile. -/
theorem profileUseCmd_invariant (quote : GoString → GoString)
    (save : config.Config → Option GoString) (cfg : config.Config) (name : GoString)
    (h : config.Invariant cfg) : config.Invariant (profileUseCmd quote save cfg name).2 := by
  cases hGet : cfg.Profiles.get name with
  | none =>
    simp only [profileUseCmd, hGet]
    exact h
  | some pr =>
    have hIn : name ∈ cfg.Profiles.keys := by
      by_contra hc
      rw [(ProfileMap.get_eq_none cfg.Profiles name).mpr hc] at hGet
      exact Option.noConfusion hGet
    have hInv : config.Invariant { cfg with DefaultProfile := name } := by
      refine ⟨fun hnil => ?_, fun _ => hIn⟩
      simp only at hnil
      rw [hnil] at hIn
      simp [ProfileMap.keys] at hIn
    simp only [profileUseCmd, hGet]
    split <;> exact hInv

/-- The entries of the map keep distinct keys under every operation. -/
theorem ProfileOp.apply_nodup (quote : GoString → GoString)
    (save : config.Config → Option GoString) (cfg : config.Config) (op : ProfileOp)
    (h : cfg.Profiles.keys.Nodup) :
    (ProfileOp.apply quote save cfg op).Profiles.keys.Nodup := by
  cases op with
  | add name profile =>
    simp only [ProfileOp.apply, AddProfile]
    split <;> exact ProfileMap.nodup_set cfg.Profiles name profile h
  | remove name pick =>
    simp only [ProfileOp.apply, RemoveProfile]
    split
    · exact h
    · split
      · split <;> exact ProfileMap.nodup_delete cfg.Profiles name h
      · exact ProfileMap.nodup_delete cfg.Profiles name h
  | use name =>
    simp only [ProfileOp.apply, profileUseCmd]
    split
    · exact h
    · split <;> exact h

/-- Every operation keeps the invariant. -/
theorem ProfileOp.apply_invariant (quote : GoString → GoString)
    (save : config.Config → Option GoString) (cfg : config.Config) (op : ProfileOp)
    (h : config.Invariant cfg) : config.Invariant (ProfileOp.apply quote save cfg op) := by
  cases op with
  | add name profile => exact AddProfile_invariant cfg name profile h
  | remove name pick => exact RemoveProfile_invariant quote pick cfg name h
  | use name => exact profileUseCmd_invariant quote save cfg name h

/-- C21: starting from the empty configuration that `Load` returns when there
is no file, after any sequence of `AddProfile`, `RemoveProfile` (found or not,
whichever key its `range` meets first) and `profile use`, the default profile
is empty when there is no profile and is the name of a profile when there is
one, and the keys of the map stay distinct. `RemoveProfile` of a name that is
not a key returns an error and leaves the configuration as it was. -/
theorem profile_operations_keep_default_valid (quote : GoString → GoString)
    (save : config.Config → Option GoString) (ops : List ProfileOp) :
    Load ConfigFile.notExist = Except.ok { DefaultProfile := goStr "", Profiles := [] } ∧
    config.Invariant
      (ops.foldl (ProfileOp.apply quote save) { DefaultProfile := goStr "", Profiles := [] }) ∧
    (ops.foldl (ProfileOp.apply quote save)
      { DefaultProfile := goStr "", Profiles := [] }).Profiles.keys.Nodup ∧
    (∀ (cfg : config.Config) (name : GoString) (pick : Nat), name ∉ cfg.Profiles.keys →
      RemoveProfile quote pick cfg name =
        (some (goStr "profile " ++ quote name ++ goStr " not found"), cfg)) ∧
    (∀ (cfg : config.Config) (name : GoString), name ∈ cfg.Profiles.keys →
      (profileUseCmd quote save cfg name).2 = { cfg with DefaultProfile := name }) := by
  have hAll : ∀ (l : List ProfileOp) (cfg : config.Config),
      config.Invariant cfg → cfg.Profiles.keys.Nodup →
      config.Invariant (l.foldl (ProfileOp.apply quote save) cfg) ∧
      (l.foldl (ProfileOp.apply quote save) cfg).Profiles.keys.Nodup := by
    intro l
    induction l with
    | nil => exact fun cfg h1 h2 => ⟨h1, h2⟩
    | cons op rest ih =>
      intro cfg h1 h2
      exact ih _ (ProfileOp.apply_invariant quote save cfg op h1)
        (ProfileOp.apply_nodup quote save cfg op h2)
  have hEmpty : config.Invariant { DefaultProfile := goStr "", Profiles := [] } :=
    ⟨fun _ => rfl, fun h => absurd rfl h⟩
  obtain ⟨hInv, hNodup⟩ := hAll ops _ hEmpty (by simp [ProfileMap.keys])
  refine ⟨rfl, hInv, hNodup, fun cfg name pick h => RemoveProfile_missing quote pick cfg name h, ?_⟩
  intro cfg name hIn
  cases hGet : cfg.Profiles.get name with
  | none => exact absurd hIn ((ProfileMap.get_eq_none cfg.Profiles name).mp hGet)
  | some pr =>
    simp only [profileUseCmd, hGet]
    split <;> rfl

/-- C21 on a sequence that adds two profiles, makes the second the default,
removes it, and tries to remove a profile that does not exist. -/
theorem profile_operations_keep_default_valid_witness :
    config.Invariant
      ([ProfileOp.add (goStr "prod") sampleProfile, ProfileOp.add (goStr "dev") sampleProfile,
        ProfileOp.use (goStr "dev"), ProfileOp.remove (goStr "dev") 0,
        ProfileOp.remove (goStr "ghost") 0].foldl
        (ProfileOp.apply sampleQuote (fun _ => none))
        { DefaultProfile := goStr "", Profiles := [] }) ∧
    [ProfileOp.add (goStr "prod") sampleProfile, ProfileOp.add (goStr "dev") sampleProfile,
      ProfileOp.use (goStr "dev"), ProfileOp.remove (goStr "dev") 0,
      ProfileOp.remove (goStr "ghost") 0].foldl
      (ProfileOp.apply sampleQuote (fun _ => none))
      { DefaultProfile := goStr "", Profiles := [] } =
      { DefaultProfile := goStr "prod", Profiles := [(goStr "prod", sampleProfile)] } :=
  ⟨(profile_operations_keep_default_valid sampleQuote (fun _ => none)
      [ProfileOp.add (goStr "prod") sampleProfile, ProfileOp.add (goStr "dev") sampleProfile,
        ProfileOp.use (goStr "dev"), ProfileOp.remove (goStr "dev") 0,
        ProfileOp.remove (goStr "ghost") 0]).2.1,
   by decide⟩

/-! ## The short id of the session commands -/

/-- C22, refuted as stated: with `--hours 0`, and with no profile configured,
the commands return an error for the 3-byte id `abc` instead of aborting, and
send no request for the 10-byte id `0123456789`. -/
theorem guards_come_before_the_short_id :
    (goStr "abc").length < 8 ∧
    sessionExtendCmd sampleQuote sampleAPI sampleConfigFile (goStr "") (goStr "table") 0
      (goStr "abc") =
      (CmdOutcome.error (goStr "--hours is required and must be positive"), []) ∧
    sessionStopCmd sampleQuote sampleAPI ConfigFile.notExist (goStr "") (goStr "table")
      [goStr "abc"] =
      (CmdOutcome.error
        (goStr "no profile specified and no default profile set. Run: eg profile add <name>"),
       []) ∧
    8 ≤ (goStr "0123456789").length ∧
    sessionRequests (sessionExtendCmd sampleQuote sampleAPI sampleConfigFile (goStr "")
      (goStr "table") 0 (goStr "0123456789")).2 = [] ∧
    sessionRequests (sessionStopCmd sampleQuote sampleAPI ConfigFile.notExist (goStr "")
      (goStr "table") [goStr "0123456789"]).2 = [] := by
  refine ⟨by decide, by decide, by decide, by decide, by decide, by decide⟩

/-- C22, amended: once `getClient` has given a client (and, for extend, with
positive hours), the commands take the first 8 bytes of the id given without
checking its length: for an id of 8 bytes or more the short id is printed and
then the one stop or extend request is made, with the full id; for a shorter
id the command panics before anything is printed or requested. When
`getClient` fails, or the hours are not positive, the command returns that
error for every id and makes no request. -/
theorem short_id_is_taken_without_length_check (quote : GoString → GoString)
    (remote : SessionAPI) (file : ConfigFile) (profileFlag format id : GoString) (hours : Int) :
    (∀ client : api.Client, getClient quote file profileFlag = Except.ok client →
      (8 ≤ id.length →
        (sessionStopCmd quote remote file profileFlag format [id]).1 ≠ CmdOutcome.panicked ∧
        sessionRequests (sessionStopCmd quote remote file profileFlag format [id]).2 =
          [(id, none)] ∧
        (∃ rest : List CliEvent,
          (sessionStopCmd quote remote file profileFlag format [id]).2 =
            CliEvent.infoStopping (id.take 8) :: CliEvent.stopSession client id :: rest)) ∧
      (id.length < 8 →
        sessionStopCmd quote remote file profileFlag format [id] = (CmdOutcome.panicked, [])) ∧
      (0 < hours → 8 ≤ id.length →
        (sessionExtendCmd quote remote file profileFlag format hours id).1 ≠
          CmdOutcome.panicked ∧
        sessionRequests (sessionExtendCmd quote remote file profileFlag format hours id).2 =
          [(id, some hours)] ∧
        (∃ rest : List CliEvent,
          (sessionExtendCmd quote remote file profileFlag format hours id).2 =
            CliEvent.infoExtending (id.take 8) hours ::
              CliEvent.extendSession client id hours :: rest)) ∧
      (0 < hours → id.length < 8 →
        sessionExtendCmd quote remote file profileFlag format hours id =
          (CmdOutcome.panicked, []))) ∧
    (∀ err : GoString, getClient quote file profileFlag = Except.error err →
      sessionStopCmd quote remote file profileFlag format [id] = (CmdOutcome.error err, []) ∧
      (0 < hours →
        sessionExtendCmd quote remote file profileFlag format hours id =
          (CmdOutcome.error err, []))) ∧
    (hours ≤ 0 →
      sessionExtendCmd quote remote file profileFlag format hours id =
        (CmdOutcome.error (goStr "--hours is required and must be positive"), [])) := by
  refine ⟨?_, ?_, ?_⟩
  · intro client hClient
    refine ⟨?_, ?_, ?_, ?_⟩
    · intro hLen
      have hn : ¬ id.length < 8 := by omega
      simp only [sessionStopCmd, hClient, hn, if_false]
      cases remote.StopSession client id with
      | error err => exact ⟨by simp, by simp [sessionRequests], ⟨[], by simp⟩⟩
      | ok session =>
        by_cases hf : format = goStr "json"
        · simp only [hf, if_true]
          exact ⟨by simp, by simp [sessionRequests], ⟨_, by simp; rfl⟩⟩
        · simp only [hf, if_false]
          exact ⟨by simp, by simp [sessionRequests], ⟨_, by simp; rfl⟩⟩
    · intro hLen
      simp [sessionStopCmd, hClient, hLen]
    · intro hPos hLen
      have hn : ¬ id.length < 8 := by omega
      have hh : ¬ hours ≤ 0 := by omega
      simp only [sessionExtendCmd, hClient, hn, hh, if_false]
      cases remote.ExtendSession client id hours with
      | error err => exact ⟨by simp, by simp [sessionRequests], ⟨[], by simp⟩⟩
      | ok session =>
        by_cases hf : format = goStr "json"
        · simp only [hf, if_true]
          exact ⟨by simp, by simp [sessionRequests], ⟨_, by simp; rfl⟩⟩
        · simp only [hf, if_false]
          exact ⟨by simp, by simp [sessionRequests], ⟨_, by simp; rfl⟩⟩
    · intro hPos hLen
      have hh : ¬ hours ≤ 0 := by omega
      simp [sessionExtendCmd, hClient, hLen, hh]
  · intro err hErr
    refine ⟨by simp [sessionStopCmd, hErr], ?_⟩
    intro hPos
    have hh : ¬ hours ≤ 0 := by omega
    simp [sessionExtendCmd, hErr, hh]
  · intro hNeg
    simp [sessionExtendCmd, hNeg]

/-- C22, amended, on a configured profile: a full id is stopped with the full
id after its first 8 bytes are printed, and a 3-byte id panics. -/
theorem short_id_is_taken_without_length_check_witness :
    getClient sampleQuote sampleConfigFile (goStr "") =
      Except.ok { BaseURL := goStr "https://app.entryguard.io/api/v1", APIKey := goStr "eg_key" } ∧
    sessionRequests (sessionStopCmd sampleQuote sampleAPI sampleConfigFile (goStr "")
      (goStr "table") [goStr "0f8fad5b-d9cb-469f-a165-70867728950e"]).2 =
      [(goStr "0f8fad5b-d9cb-469f-a165-70867728950e", none)] ∧
    sessionExtendCmd sampleQuote sampleAPI sampleConfigFile (goStr "") (goStr "table") 2
      (goStr "abc") = (CmdOutcome.panicked, []) :=
  ⟨rfl,
   (((short_id_is_taken_without_length_check sampleQuote sampleAPI sampleConfigFile (goStr "")
      (goStr "table") (goStr "0f8fad5b-d9cb-469f-a165-70867728950e") 2).1 _ rfl).1
      (by decide)).2.1,
   ((short_id_is_taken_without_length_check sampleQuote sampleAPI sampleConfigFile (goStr "")
      (goStr "table") (goStr "abc") 2).1 _ rfl).2.2.2 (by decide) (by decide)⟩

end EntryGuard
